import Mathlib

/-! compose-ecs: template synthesis (`ecs/cloudformation.go`) and stack
deployment (`ecs/sdk.go`, `ecs/service.go`)

A shallow embedding of the synthesis code of `ecs/cloudformation.go` and of the
deployment code of `ecs/sdk.go`, and the properties of them that the
specification states.

Conventions of the embedding.

* Go `int`, `int64` and `types.UnitBytes` are `Int`.  The only arithmetic the
  code performs on them is `m * miB` with `m ≤ 30720` and a division by `1e6`,
  neither of which can leave the 64-bit range, so no wrap-around is modelled.
* A Go `map[string]T` is a `GoMap T`: the list of its entries in the order in
  which a `range` loop visits them.  That order is chosen by the Go runtime, so
  two runs over the same map are two lists that are permutations of each other.
* A Go call that can return an error or panic yields an `Outcome`.
* Functions of libraries outside the repository (`opts.ParseCPUs`,
  `encoding/json`, goformation's `Ref` and `GetAtt`, `strconv.Quote`,
  `strings.ToUpper`, `fmt.Errorf`) are fields of `Lib`, a parameter of every function that
  calls them.
-/

namespace ComposeEcs

/-! ## Go values -/

/-- A Go map, as the sequence of entries a `range` loop visits. -/
abbrev GoMap (β : Type) := List (String × β)

/-- A dynamically typed value (Go `interface{}`), as found in extension fields. -/
inductive Value where
  | null
  | bool (b : Bool)
  | int (i : Int)
  | str (s : String)
  | list (xs : List Value)
  | map (kvs : List (String × Value))

/-- What a Go call yields: a value, a returned `error`, or a panic. -/
inductive Outcome (α : Type) where
  | ok (a : α)
  | error (msg : String)
  | panic (msg : String)

namespace Outcome

/-- Sequencing: an error or a panic ends the computation. -/
def bind {α β : Type} (x : Outcome α) (f : α → Outcome β) : Outcome β :=
  match x with
  | ok a => f a
  | error e => error e
  | panic e => panic e

/-- True when the call returned a value. -/
def isOk {α : Type} : Outcome α → Bool
  | ok _ => true
  | _ => false

end Outcome

/-- The target struct of the `x-aws-autoscaling` decoding (`createAutoscalingPolicy`). -/
structure AutoscalingConfig where
  Memory : Int
  CPU : Int
  Min : Int
  Max : Int
  deriving DecidableEq, Repr

/-- Library functions the synthesis code calls. -/
structure Lib where
  /-- Go `opts.ParseCPUs`: a CPU quantity string to nano-CPUs. -/
  parseCPUs : String → Except String Int
  /-- Go `json.Marshal` followed by `json.Unmarshal` into the autoscaling struct. -/
  decodeAutoscaling : Value → Except String AutoscalingConfig
  /-- Go `cloudformation.Ref`. -/
  Ref : String → String
  /-- Go `cloudformation.GetAtt`. -/
  GetAtt : String → String → String
  /-- Go `strconv.Quote`, the `%q` verb of `fmt.Sprintf`. -/
  Quote : String → String
  /-- Go `strings.ToUpper`. -/
  ToUpper : String → String
  /-- Go `fmt.Errorf` with a format and no operands: the text of the error. -/
  Errorf : String → String

/-! ## The compose model (`compose-go/v2/types`), as far as the code reads it -/

/-- Go `types.Resource`: one side (limits or reservations) of a resource request. -/
structure Resource where
  NanoCPUs : String
  MemoryBytes : Int
  deriving DecidableEq, Repr

/-- Go `types.Resources`. -/
structure Resources where
  Limits : Option Resource
  Reservations : Option Resource
  deriving DecidableEq, Repr

/-- Go `types.UpdateConfig` (the `update_config` of a deploy section); the
synthesis code reads none of its fields. -/
structure UpdateConfig where
  Parallelism : Option Nat
  deriving DecidableEq, Repr

/-- Go `types.DeployConfig`. -/
structure DeployConfig where
  Replicas : Option Int
  Resources : Resources
  Extensions : GoMap Value
  UpdateConfig : Option UpdateConfig := none

/-- Go `types.ServicePortConfig`. -/
structure ServicePortConfig where
  Target : Nat
  Published : String
  Protocol : String
  deriving DecidableEq, Repr

/-- Go `types.ServiceSecretConfig`. -/
structure ServiceSecretConfig where
  Source : String
  Target : String
  deriving DecidableEq, Repr

/-- Go `types.UlimitsConfig`. -/
structure UlimitsConfig where
  Soft : Int
  Hard : Int
  deriving DecidableEq, Repr

/-- Go `types.ServiceConfig`.  `Environment` maps a key to an optional value
(`*string`); `DependsOn` and `Networks` are maps of which only the keys are read. -/
structure ServiceConfig where
  Name : String
  Image : String
  Command : List String
  Entrypoint : List String
  User : String
  WorkingDir : String
  Environment : GoMap (Option String)
  Ports : List ServicePortConfig
  Secrets : List ServiceSecretConfig
  DependsOn : GoMap Unit
  Networks : GoMap Unit
  Ulimits : GoMap UlimitsConfig
  Deploy : Option DeployConfig
  Extensions : GoMap Value

/-! ## Resource sizing (`toLimits`, `getConfiguredLimits`) -/

/-- Go `const miB = 1024 * 1024`. -/
def miB : Int := 1024 * 1024

/-- The map literal `fargateCPUToMem` of `toLimits`: CPU units to the memory
sizes (MiB) Fargate offers with them. -/
def fargateCPUToMem : List (Int × List Int) :=
  [ (256, [512, 1024, 2048]),
    (512, [1024, 2048, 3072, 4096]),
    (1024, [2048, 3072, 4096, 5120, 6144, 7168, 8192]),
    (2048, [4096, 5120, 6144, 7168, 8192, 9216, 10240, 11264, 12288, 13312, 14336,
      15360, 16384]),
    (4096, [8192, 9216, 10240, 11264, 12288, 13312, 14336, 15360, 16384, 17408,
      18432, 19456, 20480, 21504, 22528, 23552, 24576, 25600, 26624, 27648, 28672,
      29696, 30720]) ]

/-- The slice `cpus` of `toLimits`: the keys of the table, sorted ascending
(`sort.Slice` with `cpus[i] < cpus[j]`). -/
def fargateCPUs : List Int :=
  (fargateCPUToMem.map Prod.fst).insertionSort (fun a b => a ≤ b)

/-- The map read `fargateCPUToMem[fargateCPU]`. -/
def fargateOptions (fargateCPU : Int) : List Int :=
  (fargateCPUToMem.lookup fargateCPU).getD []

/-- Go `strconv.FormatInt(i, 10)`. -/
def formatInt (i : Int) : String := toString i

/-- The error `toLimits` returns when no tier fits. -/
def errUnsupportedResources : String :=
  "the resources requested are not supported by ECS/Fargate"

/-- Source function `getConfiguredLimits`: the requested (memory bytes, CPU units) of a service. -/
def getConfiguredLimits (lib : Lib) (service : ServiceConfig) : Except String (Int × Int) :=
  match service.Deploy with
  | none => .ok (0, 0)
  | some deploy =>
    let limits :=
      match deploy.Resources.Limits with
      | some l => some l
      | none => deploy.Resources.Reservations
    match limits with
    | none => .ok (0, 0)
    | some limits =>
      if limits.NanoCPUs = "" then .ok (limits.MemoryBytes, 0)
      else
        match lib.parseCPUs limits.NanoCPUs with
        | .error err => .error err
        | .ok v => .ok (limits.MemoryBytes, v.tdiv 1000000)

/-- The inner loop of `toLimits`: the first memory option `m` with `mem <= m*miB`. -/
def scanMem (mem : Int) : List Int → Option Int
  | [] => none
  | m :: options => if mem ≤ m * miB then some m else scanMem mem options

/-- The outer loop of `toLimits` over the sorted CPU tiers. -/
def scanCPUs (mem cpu : Int) : List Int → Except String (String × String)
  | [] => .error errUnsupportedResources
  | fargateCPU :: cpus =>
    if cpu ≤ fargateCPU then
      match scanMem mem (fargateOptions fargateCPU) with
      | some m => .ok (formatInt fargateCPU, formatInt m)
      | none => scanCPUs mem cpu cpus
    else scanCPUs mem cpu cpus

/-- Source function `toLimits`: the (Cpu, Memory) strings of the task definition of a service. -/
def toLimits (lib : Lib) (service : ServiceConfig) : Except String (String × String) :=
  match getConfiguredLimits lib service with
  | .error err => .error err
  | .ok (mem, cpu) =>
    if mem = 0 ∧ cpu = 0 then .ok ("256", "512")
    else scanCPUs mem cpu fargateCPUs

/-! ## The project (`types.Project`) -/

/-- Go `types.NetworkConfig`. -/
structure NetworkConfig where
  Name : String
  External : Bool
  deriving DecidableEq, Repr

/-- Go `types.SecretConfig`. -/
structure SecretConfig where
  Name : String
  External : Bool
  deriving DecidableEq, Repr

/-- Go `types.VolumeConfig`. -/
structure VolumeConfig where
  Name : String
  External : Bool
  deriving DecidableEq, Repr

/-- Go `types.ConfigObjConfig`. -/
structure ConfigObjConfig where
  Name : String
  External : Bool
  deriving DecidableEq, Repr

/-- Go `types.Project`.  `Services` is a map keyed by service name. -/
structure Project where
  Name : String
  Services : GoMap ServiceConfig
  Networks : GoMap NetworkConfig
  Volumes : GoMap VolumeConfig
  Secrets : GoMap SecretConfig
  Configs : GoMap ConfigObjConfig
  Extensions : GoMap Value

/-- The map read `m[k]` with the comma-ok form. -/
def mapGet {β : Type} (k : String) : GoMap β → Option β
  | [] => none
  | (k', v) :: rest => if k' = k then some v else mapGet k rest

/-- The map write `m[k] = v`: replaces the entry of `k` or adds one. -/
def mapSet {β : Type} (k : String) (v : β) : GoMap β → GoMap β
  | [] => [(k, v)]
  | (k', v') :: rest => if k' = k then (k, v) :: rest else (k', v') :: mapSet k v rest

/-- Go `strings.HasSuffix`. -/
def hasSuffix (s suffix : String) : Bool :=
  suffix.data.isSuffixOf s.data

def extensionAutoScaling : String := "x-aws-autoscaling"
def extensionCloudFormation : String := "x-aws-cloudformation"
def extensionLoadBalancer : String := "x-aws-loadbalancer"
def extensionPullCredentials : String := "x-aws-pull_credentials"
def extensionRole : String := "x-aws-role"
def extensionSubnets : String := "x-aws-subnets"
def extensionVpc : String := "x-aws-vpc"

/-! ## Compatibility check -/

/-- The loop of `checkCompatibility` over `project.Networks`. -/
def checkNetworks : GoMap NetworkConfig → Except String Unit
  | [] => .ok ()
  | (_, network) :: rest =>
    if hasSuffix network.Name "_default" then checkNetworks rest
    else if !network.External then
      .error ("only external networks are supported: " ++ network.Name)
    else checkNetworks rest

/-- The loop of `checkCompatibility` over `project.Secrets`. -/
def checkSecrets : GoMap SecretConfig → Except String Unit
  | [] => .ok ()
  | (_, secret) :: rest =>
    if !secret.External then
      .error ("only external secrets are supported: " ++ secret.Name)
    else checkSecrets rest

/-- Source function `checkCompatibility`. -/
def checkCompatibility (project : Project) : Except String Unit :=
  match project.Configs with
  | (_, config) :: _ => .error ("configs are not supported: " ++ config.Name)
  | [] =>
    match checkNetworks project.Networks with
    | .error err => .error err
    | .ok () =>
      match checkSecrets project.Secrets with
      | .error err => .error err
      | .ok () =>
        match project.Volumes with
        | (_, volume) :: _ => .error ("volumes are not supported: " ++ volume.Name)
        | [] => .ok ()

/-! ## The template (`cloudformation.Template`) and its resources

Of each goformation resource the fields the synthesis code computes are kept;
fields it sets to a zero value, and fields of the container definition that are
copied unchanged from the service and that no stated property reads (DNS, labels,
hostname, health check, stop timeout and the like), are left out. -/

/-- Go `tags.Tag`. -/
structure Tag where
  Key : String
  Value : String
  deriving DecidableEq, Repr

/-- The policy document of an inline role policy: either the one-statement
document the code builds, or the raw value of the `x-aws-role` extension. -/
inductive PolicyDocument where
  | statement (Action : List String) (Effect : String) (Resource : List String)
  | raw (doc : Option Value)

/-- Go `iam.Role_Policy`. -/
structure RolePolicy where
  PolicyDocument : PolicyDocument
  PolicyName : String

/-- Go `iam.Role`; `AssumeRoleService` is the service principal of the trust policy. -/
structure Role where
  AssumeRoleService : String
  ManagedPolicyArns : List String
  Path : String
  Policies : List RolePolicy
  Tags : List Tag

/-- Go `ecs.TaskDefinition_KeyValuePair`. -/
structure KeyValuePair where
  Name : String
  Value : String
  deriving DecidableEq, Repr

/-- Go `ecs.TaskDefinition_PortMapping`. -/
structure PortMapping where
  ContainerPort : Nat
  Protocol : String
  deriving DecidableEq, Repr

/-- Go `ecs.TaskDefinition_Secret`. -/
structure TaskSecret where
  Name : String
  ValueFrom : String
  deriving DecidableEq, Repr

/-- Go `ecs.TaskDefinition_Ulimit`. -/
structure Ulimit where
  Name : String
  SoftLimit : Int
  HardLimit : Int
  deriving DecidableEq, Repr

/-- Go `ecs.TaskDefinition_ContainerDefinition`. -/
structure ContainerDefinition where
  Command : List String
  EntryPoint : List String
  Environment : List KeyValuePair
  Essential : Bool
  Image : String
  LogDriver : String
  LogOptions : List (String × String)
  Name : String
  PortMappings : List PortMapping
  RepositoryCredentials : Option String
  Secrets : List TaskSecret
  Ulimits : List Ulimit
  User : String
  WorkingDirectory : String
  deriving DecidableEq, Repr

/-- Go `ecs.TaskDefinition`. -/
structure TaskDefinition where
  ContainerDefinitions : List ContainerDefinition
  Cpu : String
  ExecutionRoleArn : String
  Family : String
  Memory : String
  NetworkMode : String
  RequiresCompatibilities : List String
  TaskRoleArn : String
  deriving DecidableEq, Repr

/-- Go `servicediscovery.Service`. -/
structure DiscoveryService where
  Description : String
  FailureThreshold : Int
  Name : String
  NamespaceId : String
  DnsRecords : List (Int × String)
  RoutingPolicy : String
  deriving DecidableEq, Repr

/-- Go `ec2.SecurityGroupIngress`. -/
structure SecurityGroupIngress where
  CidrIp : String
  Description : String
  FromPort : Nat
  GroupId : String
  IpProtocol : String
  ToPort : Nat
  deriving DecidableEq, Repr

/-- Go `elasticloadbalancingv2.Listener` with one forward action. -/
structure Listener where
  ForwardTargetGroupArns : List String
  ActionType : String
  LoadBalancerArn : String
  Protocol : String
  Port : Nat
  deriving DecidableEq, Repr

/-- Go `elasticloadbalancingv2.TargetGroup`. -/
structure TargetGroup where
  Port : Nat
  Protocol : String
  Tags : List Tag
  TargetType : String
  VpcId : String
  deriving DecidableEq, Repr

/-- Go `ecs.Service_LoadBalancer`. -/
structure ServiceLoadBalancer where
  ContainerName : String
  ContainerPort : Nat
  TargetGroupArn : String
  deriving DecidableEq, Repr

/-- Go `ecs.Service`. -/
structure EcsService where
  DependsOn : List String
  Cluster : String
  DesiredCount : Int
  DeploymentControllerType : String
  MaximumPercent : Int
  MinimumHealthyPercent : Int
  LaunchType : String
  LoadBalancers : List ServiceLoadBalancer
  AssignPublicIp : String
  SecurityGroups : List String
  Subnets : List String
  PlatformVersion : String
  PropagateTags : String
  SchedulingStrategy : String
  ServiceRegistries : List String
  Tags : List Tag
  TaskDefinition : String
  deriving DecidableEq, Repr

/-- Go `applicationautoscaling.ScalableTarget`. -/
structure ScalableTarget where
  MaxCapacity : Int
  MinCapacity : Int
  ResourceId : String
  RoleARN : String
  ScalableDimension : String
  ServiceNamespace : String
  DependsOn : List String
  deriving DecidableEq, Repr

/-- Go `applicationautoscaling.ScalingPolicy` with a target-tracking configuration.
`TargetValue` is `float64(targetPercent)`, kept as the integer it converts. -/
structure ScalingPolicy where
  PolicyType : String
  PolicyName : String
  ScalingTargetId : String
  PredefinedMetricType : String
  ScaleOutCooldown : Int
  ScaleInCooldown : Int
  TargetValue : Int
  deriving DecidableEq, Repr

/-- A resource of the template (`cloudformation.Resource`). -/
inductive CfnResource where
  | privateDnsNamespace (Description Name : String) (Tags : List Tag) (Vpc : String)
  | cluster (ClusterName : String) (Tags : List Tag)
  | logGroup (LogGroupName : String) (RetentionInDays : Int)
  | discoveryService (s : DiscoveryService)
  | taskDefinition (d : TaskDefinition)
  | role (r : Role)
  | securityGroupIngress (i : SecurityGroupIngress)
  | listener (l : Listener)
  | targetGroup (g : TargetGroup)
  | service (s : EcsService)
  | scalableTarget (t : ScalableTarget)
  | scalingPolicy (p : ScalingPolicy)

/-- Go `AWSCloudFormationType()` of a resource. -/
def CfnResource.AWSCloudFormationType : CfnResource → String
  | .privateDnsNamespace .. => "AWS::ServiceDiscovery::PrivateDnsNamespace"
  | .cluster .. => "AWS::ECS::Cluster"
  | .logGroup .. => "AWS::Logs::LogGroup"
  | .discoveryService _ => "AWS::ServiceDiscovery::Service"
  | .taskDefinition _ => "AWS::ECS::TaskDefinition"
  | .role _ => "AWS::IAM::Role"
  | .securityGroupIngress _ => "AWS::EC2::SecurityGroupIngress"
  | .listener _ => "AWS::ElasticLoadBalancingV2::Listener"
  | .targetGroup _ => "AWS::ElasticLoadBalancingV2::TargetGroup"
  | .service _ => "AWS::ECS::Service"
  | .scalableTarget _ => "AWS::ApplicationAutoScaling::ScalableTarget"
  | .scalingPolicy _ => "AWS::ApplicationAutoScaling::ScalingPolicy"

/-- Go `cloudformation.Template`: the `Resources` map. -/
structure Template where
  Resources : GoMap CfnResource

/-- Go `cloudformation.NewTemplate()`. -/
def NewTemplate : Template := ⟨[]⟩

/-- The write `template.Resources[name] = r`. -/
def Template.set (template : Template) (name : String) (r : CfnResource) : Template :=
  ⟨mapSet name r template.Resources⟩

/-- The read `template.Resources[name]`. -/
def Template.get (template : Template) (name : String) : Option CfnResource :=
  mapGet name template.Resources

/-- The struct `resources` of `convert`. -/
structure resources where
  loadBalancer : String
  securityGroups : GoMap String
  subnets : List String
  vpc : String

/-! ## Naming and tagging -/

/-- The title caser `cases.Title(language.English)` on text made of ASCII letters
and digits only (all `normalizeResourceName` passes to it): such text is one
word, whose first letter is upper-cased and whose later letters are lower-cased;
digits are copied and do not end the word. -/
def titleChars : Bool → List Char → List Char
  | _, [] => []
  | isMidWord, c :: cs =>
    if c.isAlpha then
      (if isMidWord then c.toLower else c.toUpper) :: titleChars true cs
    else c :: titleChars isMidWord cs

/-- Source function `normalizeResourceName`: delete every run matching `[^a-zA-Z0-9]+`, then
title-case. -/
def normalizeResourceName (s : String) : String :=
  ⟨titleChars false (s.data.filter Char.isAlphanum)⟩

def serviceName (service : ServiceConfig) : String :=
  normalizeResourceName service.Name ++ "Service"

def serviceAutoScalingRoleName (service : ServiceConfig) : String :=
  normalizeResourceName service.Name ++ "AutoScalingRole"

def serviceDiscoveryEntryName (service : ServiceConfig) : String :=
  normalizeResourceName service.Name ++ "ServiceDiscoveryEntry"

def serviceListenerName (lib : Lib) (service : ServiceConfig) (port : ServicePortConfig) :
    String :=
  normalizeResourceName service.Name ++ lib.ToUpper port.Protocol ++ toString port.Target
    ++ "Listener"

def serviceScalableTargetName (service : ServiceConfig) : String :=
  normalizeResourceName service.Name ++ "ScalableTarget"

def serviceScalingPolicyName (service : ServiceConfig) : String :=
  normalizeResourceName service.Name ++ "ScalingPolicy"

def serviceTaskDefinitionName (service : ServiceConfig) : String :=
  normalizeResourceName service.Name ++ "TaskDefinition"

def serviceTaskExecutionRoleName (service : ServiceConfig) : String :=
  normalizeResourceName service.Name ++ "TaskExecutionRole"

def serviceTargetGroupName (lib : Lib) (service : ServiceConfig) (port : ServicePortConfig) :
    String :=
  normalizeResourceName service.Name ++ lib.ToUpper port.Protocol ++ port.Published
    ++ "TargetGroup"

def serviceTaskRoleName (service : ServiceConfig) : String :=
  normalizeResourceName service.Name ++ "TaskRole"

/-- The name of the ingress rule of a (network, port) pair, built in `createService`. -/
def ingressName (network : String) (port : ServicePortConfig) : String :=
  normalizeResourceName network ++ toString port.Target ++ "Ingress"

/-- Go `api.ProjectLabel`. -/
def ProjectLabel : String := "com.docker.compose.project"

/-- Go `api.ServiceLabel`. -/
def ServiceLabel : String := "com.docker.compose.service"

def projectTags (project : Project) : List Tag :=
  [⟨ProjectLabel, project.Name⟩]

def serviceTags (project : Project) (service : ServiceConfig) : List Tag :=
  projectTags project ++ [⟨ServiceLabel, service.Name⟩]

/-! ## Parts of a service -/

/-- The type assertion `x.(string)`. -/
def assertString : Value → Outcome String
  | .str s => .ok s
  | _ => .panic "interface conversion: interface {} is not string"

/-- The loop `for _, subnet := range x.([]interface{})` of `convert`. -/
def assertStrings : List Value → Outcome (List String)
  | [] => .ok []
  | x :: xs => (assertString x).bind fun s => (assertStrings xs).bind fun ss => .ok (s :: ss)

/-- The type assertion `x.([]interface{})` followed by the loop over its elements. -/
def assertStringList : Value → Outcome (List String)
  | .list xs => assertStrings xs
  | _ => .panic "interface conversion: interface {} is not []interface {}"

/-- The read of the pull-credentials extension with its `value.(string)` assertion. -/
def pullCredentials (service : ServiceConfig) : Outcome (Option String) :=
  match mapGet extensionPullCredentials service.Extensions with
  | some value => (assertString value).bind fun s => .ok (some s)
  | none => .ok none

/-- The read `project.Secrets[source].Name` (the zero value for a missing key). -/
def secretName (project : Project) (source : String) : String :=
  match mapGet source project.Secrets with
  | some secret => secret.Name
  | none => ""

def getSecretArns (project : Project) (service : ServiceConfig) : Outcome (List String) :=
  (pullCredentials service).bind fun credentials =>
    .ok (credentials.toList ++ service.Secrets.map fun secret => secretName project secret.Source)

def createRepositoryCredentials (service : ServiceConfig) : Outcome (Option String) :=
  pullCredentials service

def createTaskSecrets (project : Project) (service : ServiceConfig) : List TaskSecret :=
  service.Secrets.map fun s =>
    { Name := if s.Target = "" then s.Source else s.Target
      ValueFrom := secretName project s.Source }

/-- The loop of `createEnvironment`: one pair per entry; `*v` panics on a nil value. -/
def environmentPairs : GoMap (Option String) → Outcome (List KeyValuePair)
  | [] => .ok []
  | (k, some v) :: rest => (environmentPairs rest).bind fun pairs => .ok (⟨k, v⟩ :: pairs)
  | (_, none) :: _ => .panic "invalid memory address or nil pointer dereference"

/-- Source function `createEnvironment`: the pairs, sorted by name (`sort.Slice` with
`pairs[i].Name < pairs[j].Name`, the order of Go strings). -/
def createEnvironment (service : ServiceConfig) : Outcome (List KeyValuePair) :=
  (environmentPairs service.Environment).bind fun pairs =>
    .ok (pairs.insertionSort fun a b => a.Name.data ≤ b.Name.data)

def toPortMappings (ports : List ServicePortConfig) : List PortMapping :=
  ports.map fun p => { ContainerPort := p.Target, Protocol := p.Protocol }

/-- Source function `toUlimits`: `make` with length `len(ulimits)`, then one `append` per entry. -/
def toUlimits (ulimits : GoMap UlimitsConfig) : List Ulimit :=
  if ulimits.length = 0 then []
  else
    List.replicate ulimits.length ⟨"", 0, 0⟩ ++
      ulimits.map fun kv => { Name := kv.1, SoftLimit := kv.2.Soft, HardLimit := kv.2.Hard }

def replicas (service : ServiceConfig) : Int :=
  match service.Deploy with
  | some deploy =>
    match deploy.Replicas with
    | some n => n
    | none => 1
  | none => 1

def serviceDependsOn (lib : Lib) (service : ServiceConfig) : List String :=
  (service.DependsOn.map fun kv => normalizeResourceName kv.1 ++ "Service") ++
    service.Ports.map fun port => serviceListenerName lib service port

def createServiceLoadBalancers (lib : Lib) (service : ServiceConfig) :
    List ServiceLoadBalancer :=
  service.Ports.map fun port =>
    { ContainerName := service.Name
      ContainerPort := port.Target
      TargetGroupArn := lib.Ref (serviceTargetGroupName lib service port) }

/-- The read `resources.securityGroups[network]`. -/
def securityGroupOf (res : resources) (network : String) : String :=
  (mapGet network res.securityGroups).getD ""

def getServiceSecurityGroups (service : ServiceConfig) (res : resources) : List String :=
  service.Networks.map fun kv => securityGroupOf res kv.1

/-! ## Autoscaling (`createAutoscalingPolicy`) -/

def errBothTargets : String :=
  extensionAutoScaling ++ " can't be set with both cpu and memory targets"

def errNoMax : String :=
  extensionAutoScaling ++ " MUST define max replicas"

/-- The autoscaling role written by `createAutoscalingPolicy`. -/
def autoScalingRole (lib : Lib) (project : Project) (service : ServiceConfig) : CfnResource :=
  .role
    { AssumeRoleService := "application-autoscaling.amazonaws.com"
      ManagedPolicyArns := []
      Path := "/"
      Policies :=
        [ { PolicyDocument :=
              .statement
                ["application-autoscaling:*", "cloudwatch:GetMetricStatistics",
                  "ecs:DescribeServices", "ecs:UpdateService"]
                "Allow" [lib.Ref (serviceName service)]
            PolicyName := "service-autoscaling" } ]
      Tags := serviceTags project service }

/-- The scalable target written by `createAutoscalingPolicy`. -/
def scalableTarget (lib : Lib) (service : ServiceConfig) (config : AutoscalingConfig) :
    CfnResource :=
  .scalableTarget
    { MaxCapacity := config.Max
      MinCapacity := config.Min
      ResourceId :=
        "service/" ++ lib.Ref "Cluster" ++ "/" ++ lib.GetAtt (serviceName service) "Name"
      RoleARN := lib.GetAtt (serviceAutoScalingRoleName service) "Arn"
      ScalableDimension := "ecs:service:DesiredCount"
      ServiceNamespace := "ecs"
      DependsOn := [serviceName service] }

/-- The scaling policy written by `createAutoscalingPolicy`. -/
def scalingPolicy (lib : Lib) (service : ServiceConfig) (config : AutoscalingConfig) :
    CfnResource :=
  let metric :=
    if config.Memory ≠ 0 then "ECSServiceAverageMemoryUtilization"
    else "ECSServiceAverageCPUUtilization"
  let targetPercent := if config.Memory ≠ 0 then config.Memory else config.CPU
  .scalingPolicy
    { PolicyType := "TargetTrackingScaling"
      PolicyName := serviceScalingPolicyName service
      ScalingTargetId := lib.Ref (serviceScalableTargetName service)
      PredefinedMetricType := metric
      ScaleOutCooldown := 60
      ScaleInCooldown := 60
      TargetValue := targetPercent }

/-- Source function `createAutoscalingPolicy`; the template it returns is the one it was given
with the three autoscaling resources written. -/
def createAutoscalingPolicy (lib : Lib) (project : Project) (template : Template)
    (service : ServiceConfig) : Except String Template :=
  match service.Deploy with
  | none => .ok template
  | some deploy =>
    match mapGet extensionAutoScaling deploy.Extensions with
    | none => .ok template
    | some v =>
      match lib.decodeAutoscaling v with
      | .error err => .error err
      | .ok config =>
        if config.Memory ≠ 0 ∧ config.CPU ≠ 0 then .error errBothTargets
        else if config.Max = 0 then .error errNoMax
        else
          .ok
            (((template.set (serviceAutoScalingRoleName service)
                  (autoScalingRole lib project service)).set
                (serviceScalableTargetName service) (scalableTarget lib service config)).set
              (serviceScalingPolicyName service) (scalingPolicy lib service config))

/-! ## Services (`createService`) -/

/-- The service-discovery entry of a service. -/
def discoveryEntry (lib : Lib) (service : ServiceConfig) : CfnResource :=
  .discoveryService
    { Description := lib.Quote service.Name ++ " service discovery entry in Cloud Map"
      FailureThreshold := 1
      Name := service.Name
      NamespaceId := lib.Ref "CloudMap"
      DnsRecords := [(60, "A")]
      RoutingPolicy := "MULTIVALUE" }

/-- The task definition of a service. -/
def taskDefinition (lib : Lib) (project : Project) (service : ServiceConfig)
    (cpu mem : String) (environment : List KeyValuePair) (credentials : Option String) :
    CfnResource :=
  .taskDefinition
    { ContainerDefinitions :=
        [ { Command := service.Command
            EntryPoint := service.Entrypoint
            Environment := environment
            Essential := true
            Image := service.Image
            LogDriver := "awslogs"
            LogOptions :=
              [ ("awslogs-region", lib.Ref "AWS::Region"),
                ("awslogs-group", lib.Ref "LogGroup"),
                ("awslogs-stream-prefix", project.Name) ]
            Name := service.Name
            PortMappings := toPortMappings service.Ports
            RepositoryCredentials := credentials
            Secrets := createTaskSecrets project service
            Ulimits := toUlimits service.Ulimits
            User := service.User
            WorkingDirectory := service.WorkingDir } ]
      Cpu := cpu
      ExecutionRoleArn := lib.Ref (serviceTaskExecutionRoleName service)
      Family := project.Name ++ "-" ++ service.Name
      Memory := mem
      NetworkMode := "awsvpc"
      RequiresCompatibilities := ["FARGATE"]
      TaskRoleArn := lib.Ref (normalizeResourceName service.Name ++ "TaskRole") }

/-- The task-execution role of a service. -/
def taskExecutionRole (project : Project) (service : ServiceConfig)
    (secretArns : List String) : CfnResource :=
  .role
    { AssumeRoleService := "ecs-tasks.amazonaws.com"
      ManagedPolicyArns :=
        ["arn:aws:iam::aws:policy/service-role/AmazonECSTaskExecutionRolePolicy"]
      Path := ""
      Policies :=
        [ { PolicyDocument :=
              .statement ["secretsmanager:GetSecretValue"] "Allow" secretArns
            PolicyName := service.Name ++ "GrantAccessToSecrets" } ]
      Tags := serviceTags project service }

/-- The task role of a service. -/
def taskRole (project : Project) (service : ServiceConfig) : CfnResource :=
  .role
    { AssumeRoleService := "ecs-tasks.amazonaws.com"
      ManagedPolicyArns := []
      Path := ""
      Policies :=
        [ { PolicyDocument := .raw (mapGet extensionRole service.Extensions)
            PolicyName := normalizeResourceName service.Name ++ "Policy" } ]
      Tags := serviceTags project service }

/-- The ingress rule of a (network, port) pair. -/
def ingress (service : ServiceConfig) (port : ServicePortConfig) (res : resources)
    (network : String) : CfnResource :=
  .securityGroupIngress
    { CidrIp := "0.0.0.0/0"
      Description :=
        service.Name ++ ":" ++ toString port.Target ++ "/" ++ port.Protocol ++ " on " ++
          network ++ " network"
      FromPort := port.Target
      GroupId := securityGroupOf res network
      IpProtocol := "-1"
      ToPort := port.Target }

/-- The listener of a published port. -/
def listener (lib : Lib) (service : ServiceConfig) (port : ServicePortConfig)
    (res : resources) : CfnResource :=
  .listener
    { ForwardTargetGroupArns := [lib.Ref (serviceTargetGroupName lib service port)]
      ActionType := "forward"
      LoadBalancerArn := res.loadBalancer
      Protocol := lib.ToUpper port.Protocol
      Port := port.Target }

/-- The target group of a published port. -/
def targetGroup (lib : Lib) (project : Project) (service : ServiceConfig)
    (port : ServicePortConfig) (res : resources) : CfnResource :=
  .targetGroup
    { Port := port.Target
      Protocol := lib.ToUpper port.Protocol
      Tags := serviceTags project service
      TargetType := "ip"
      VpcId := res.vpc }

/-- The service resource of a service. -/
def ecsService (lib : Lib) (project : Project) (service : ServiceConfig) (res : resources) :
    CfnResource :=
  .service
    { DependsOn := serviceDependsOn lib service
      Cluster := lib.GetAtt "Cluster" "Arn"
      DesiredCount := replicas service
      DeploymentControllerType := "ECS"
      MaximumPercent := 200
      MinimumHealthyPercent := 100
      LaunchType := "FARGATE"
      LoadBalancers := createServiceLoadBalancers lib service
      AssignPublicIp := "ENABLED"
      SecurityGroups := getServiceSecurityGroups service res
      Subnets := res.subnets
      PlatformVersion := "LATEST"
      PropagateTags := "SERVICE"
      SchedulingStrategy := "REPLICA"
      ServiceRegistries := [lib.GetAtt (serviceDiscoveryEntryName service) "Arn"]
      Tags := serviceTags project service
      TaskDefinition := lib.Ref (serviceTaskDefinitionName service) }

/-- The inner loop of `createService` over `service.Networks`, for one port. -/
def createIngresses (service : ServiceConfig) (port : ServicePortConfig) (res : resources) :
    GoMap Unit → Template → Template
  | [], template => template
  | (network, _) :: rest, template =>
    createIngresses service port res rest
      (template.set (ingressName network port) (ingress service port res network))

/-- The loop of `createService` over `service.Ports`. -/
def createPorts (lib : Lib) (project : Project) (service : ServiceConfig) (res : resources) :
    List ServicePortConfig → Template → Template
  | [], template => template
  | port :: rest, template =>
    createPorts lib project service res rest
      (((createIngresses service port res service.Networks template).set
            (serviceListenerName lib service port) (listener lib service port res)).set
          (serviceTargetGroupName lib service port) (targetGroup lib project service port res))

/-- Source function `createService`.  A failure of `toLimits` is raised with `panic(err)`; a
failure of `createAutoscalingPolicy` is returned. -/
def createService (lib : Lib) (project : Project) (service : ServiceConfig)
    (template : Template) (res : resources) : Outcome Template :=
  (getSecretArns project service).bind fun secretArns =>
  match toLimits lib service with
  | .error err => .panic err
  | .ok (cpu, mem) =>
    (createEnvironment service).bind fun environment =>
    (createRepositoryCredentials service).bind fun credentials =>
    let template := template.set (serviceDiscoveryEntryName service) (discoveryEntry lib service)
    let template := template.set (serviceTaskDefinitionName service)
      (taskDefinition lib project service cpu mem environment credentials)
    let template := template.set (serviceTaskExecutionRoleName service)
      (taskExecutionRole project service secretArns)
    let template := template.set (serviceTaskRoleName service) (taskRole project service)
    let template := createPorts lib project service res service.Ports template
    let template := template.set (serviceName service) (ecsService lib project service res)
    match createAutoscalingPolicy lib project template service with
    | .error err => .error err
    | .ok template => .ok template

/-! ## `convert` -/

/-- The loop of `convert` over `project.Services`. -/
def createServices (lib : Lib) (project : Project) (res : resources) :
    GoMap ServiceConfig → Template → Outcome Template
  | [], template => .ok template
  | (_, service) :: rest, template =>
    (createService lib project service template res).bind fun template =>
      createServices lib project res rest template

/-- The three project-wide resources `convert` writes before the services. -/
def baseTemplate (project : Project) (res : resources) : Template :=
  ((NewTemplate.set "CloudMap"
        (.privateDnsNamespace ("Service Map for Docker Compose project " ++ project.Name)
          (project.Name ++ ".local") (projectTags project) res.vpc)).set
      "Cluster" (.cluster project.Name (projectTags project))).set
    "LogGroup" (.logGroup ("/docker-compose/" ++ project.Name) 0)

/-- Source function `convert`: the template of a project, or the error it returns, or its panic. -/
def convert (lib : Lib) (project : Project) : Outcome Template :=
  match checkCompatibility project with
  | .error err => .error err
  | .ok () =>
    match mapGet extensionLoadBalancer project.Extensions with
    | none => .error ("missing required " ++ extensionLoadBalancer)
    | some x =>
      (assertString x).bind fun loadBalancer =>
      match mapGet extensionSubnets project.Extensions with
      | none => .error ("missing required " ++ extensionSubnets)
      | some x =>
        (assertStringList x).bind fun subnets =>
        match mapGet extensionVpc project.Extensions with
        | none => .error ("missing required " ++ extensionVpc)
        | some x =>
          (assertString x).bind fun vpc =>
          let res : resources :=
            { loadBalancer := loadBalancer, securityGroups := [], subnets := subnets, vpc := vpc }
          createServices lib project res project.Services (baseTemplate project res)

/-! ## The library functions on ordinary input

A model of the library functions, used where a property is evaluated on a
concrete project.  General statements quantify over every `Lib`. -/

/-- The number written by a list of decimal digits. -/
def digitsValue (cs : List Char) : Nat :=
  cs.foldl (fun n c => 10 * n + (c.toNat - 48)) 0

/-- Go `opts.ParseCPUs` on plain decimal text `digits[.digits]`: the quantity times
`1e9` when that is a whole number.  Other text is rejected here. -/
def parseCPUs (value : String) : Except String Int :=
  let whole := value.data.takeWhile (fun c => c ≠ '.')
  let frac := (value.data.dropWhile (fun c => c ≠ '.')).drop 1
  if whole ≠ [] ∧ (whole ++ frac).all Char.isDigit then
    let nano := digitsValue (whole ++ frac) * 10 ^ 9
    if nano % 10 ^ frac.length = 0 then .ok (nano / 10 ^ frac.length : Nat)
    else .error "value is too precise"
  else .error ("failed to parse " ++ value ++ " as a rational number")

/-- One integer field of the autoscaling struct, read from a decoded JSON object:
absent and `null` leave the zero value, a non-integer is an error. -/
def jsonIntField (name : String) (kvs : List (String × Value)) : Except String Int :=
  match mapGet name kvs with
  | none => .ok 0
  | some .null => .ok 0
  | some (.int i) => .ok i
  | some _ => .error ("json: cannot unmarshal into Go struct field ." ++ name ++ " of type int")

/-- The JSON round trip of `createAutoscalingPolicy` on a value: an object whose
keys are spelled as the struct tags, or `null`. -/
def decodeAutoscaling : Value → Except String AutoscalingConfig
  | .map kvs =>
    match jsonIntField "memory" kvs, jsonIntField "cpu" kvs, jsonIntField "min" kvs,
      jsonIntField "max" kvs with
    | .ok memory, .ok cpu, .ok min, .ok max => .ok ⟨memory, cpu, min, max⟩
    | .error err, _, _, _ => .error err
    | _, .error err, _, _ => .error err
    | _, _, .error err, _ => .error err
    | _, _, _, .error err => .error err
  | .null => .ok ⟨0, 0, 0, 0⟩
  | _ => .error "json: cannot unmarshal into Go value of type struct"

/-- The library on ordinary input.  `Ref` and `GetAtt` stand for goformation's
encoded intrinsics by a readable tag; `ToUpper` is the ASCII case map; `Errorf`
is exact for a format without verbs. -/
def goLib : Lib where
  parseCPUs := parseCPUs
  decodeAutoscaling := decodeAutoscaling
  Ref := fun name => "Ref:" ++ name
  GetAtt := fun name attr => "GetAtt:" ++ name ++ "." ++ attr
  Quote := fun s => "\"" ++ s ++ "\""
  ToUpper := fun s => ⟨s.data.map Char.toUpper⟩
  Errorf := fun format => format

/-! ## Concrete projects -/

/-- A service with a name and an image, attached to the default network, and
nothing else. -/
def plainService (name image : String) : ServiceConfig where
  Name := name
  Image := image
  Command := []
  Entrypoint := []
  User := ""
  WorkingDir := ""
  Environment := []
  Ports := []
  Secrets := []
  DependsOn := []
  Networks := [("default", ())]
  Ulimits := []
  Deploy := none
  Extensions := []

/-- A deploy section with resource limits `cpus` and `memory` (in bytes). -/
def deployLimits (cpus : String) (memory : Int) : DeployConfig where
  Replicas := none
  Resources := { Limits := some ⟨cpus, memory⟩, Reservations := none }
  Extensions := []

/-- Service `test` (image nginx) with resource limits. -/
def sizedService (cpus : String) (memory : Int) : ServiceConfig :=
  { plainService "test" "nginx" with Deploy := some (deployLimits cpus memory) }

/-- Project extensions naming a load balancer, two subnets and a VPC. -/
def deploymentExtensions : GoMap Value :=
  [ (extensionLoadBalancer, .str "arn:aws:elasticloadbalancing:lb"),
    (extensionSubnets, .list [.str "subnet-1", .str "subnet-2"]),
    (extensionVpc, .str "vpc-1") ]

/-- A project of the given services (visited in the given order) with its
implicit default network and the three deployment extensions. -/
def projectOf (name : String) (services : List ServiceConfig) : Project where
  Name := name
  Services := services.map fun s => (s.Name, s)
  Networks := [("default", ⟨name ++ "_default", false⟩)]
  Volumes := []
  Secrets := []
  Configs := []
  Extensions := deploymentExtensions

/-- A published port. -/
def tcpPort (target : Nat) (published : String) : ServicePortConfig :=
  ⟨target, published, "tcp"⟩

/-- Service `web` (image nginx) publishing the given ports. -/
def webService (ports : List ServicePortConfig) : ServiceConfig :=
  { plainService "web" "nginx" with Ports := ports }

/-- Service `web` depending on the services `db` and `cache`; `dependsOn` is its
`depends_on` map in the order a run visits it. -/
def dependentService (dependsOn : GoMap Unit) : ServiceConfig :=
  { plainService "web" "nginx" with DependsOn := dependsOn }

/-- The project `demo` with services `web`, `db` and `cache`. -/
def dependentProject (dependsOn : GoMap Unit) : Project :=
  projectOf "demo"
    [dependentService dependsOn, plainService "db" "postgres", plainService "cache" "redis"]

/-- Service `foo` (image hello_world) with the autoscaling extension `v` in its
deploy section. -/
def autoscaledService (v : Value) : ServiceConfig :=
  { plainService "foo" "hello_world" with
    Deploy :=
      some
        { Replicas := none
          Resources := { Limits := none, Reservations := none }
          Extensions := [(extensionAutoScaling, v)] } }

/-! ## The writes of `convert`

`convert` and `createService` only ever change the template by a write
`template.Resources[name] = r`.  The functions below list the writes of a run
in the order the code performs them; the properties section proves that a
successful run returns its starting template with exactly these writes applied. -/

/-- A sequence of writes applied to a template, first to last. -/
def Template.write (template : Template) (ws : List (String × CfnResource)) : Template :=
  ws.foldl (fun t w => t.set w.1 w.2) template

/-- The value of a call that returned one, `d` otherwise. -/
def Outcome.getD {α : Type} (x : Outcome α) (d : α) : α :=
  match x with
  | .ok a => a
  | _ => d

/-- The pair `toLimits` returns, when it returns one. -/
def limitsOf (lib : Lib) (service : ServiceConfig) : String × String :=
  match toLimits lib service with
  | .ok r => r
  | .error _ => ("", "")

/-- The autoscaling configuration `createAutoscalingPolicy` accepts for a service:
the extension is present, decodes, and passes both checks. -/
def acceptedAutoscaling (lib : Lib) (service : ServiceConfig) : Option AutoscalingConfig :=
  match service.Deploy with
  | none => none
  | some deploy =>
    match mapGet extensionAutoScaling deploy.Extensions with
    | none => none
    | some v =>
      match lib.decodeAutoscaling v with
      | .error _ => none
      | .ok config =>
        if config.Memory ≠ 0 ∧ config.CPU ≠ 0 then none
        else if config.Max = 0 then none
        else some config

/-- The writes of `createAutoscalingPolicy`. -/
def autoscalingWrites (lib : Lib) (project : Project) (service : ServiceConfig) :
    List (String × CfnResource) :=
  match acceptedAutoscaling lib service with
  | none => []
  | some config =>
    [ (serviceAutoScalingRoleName service, autoScalingRole lib project service),
      (serviceScalableTargetName service, scalableTarget lib service config),
      (serviceScalingPolicyName service, scalingPolicy lib service config) ]

/-- The writes of one round of the loop over `service.Ports`. -/
def portWrites (lib : Lib) (project : Project) (service : ServiceConfig) (res : resources)
    (port : ServicePortConfig) : List (String × CfnResource) :=
  (service.Networks.map fun kv => (ingressName kv.1 port, ingress service port res kv.1)) ++
    [ (serviceListenerName lib service port, listener lib service port res),
      (serviceTargetGroupName lib service port, targetGroup lib project service port res) ]

/-- The writes of `createService`. -/
def serviceWrites (lib : Lib) (project : Project) (service : ServiceConfig) (res : resources) :
    List (String × CfnResource) :=
  [ (serviceDiscoveryEntryName service, discoveryEntry lib service),
    (serviceTaskDefinitionName service,
      taskDefinition lib project service (limitsOf lib service).1 (limitsOf lib service).2
        ((createEnvironment service).getD []) ((createRepositoryCredentials service).getD none)),
    (serviceTaskExecutionRoleName service,
      taskExecutionRole project service ((getSecretArns project service).getD [])),
    (serviceTaskRoleName service, taskRole project service) ] ++
    service.Ports.flatMap (portWrites lib project service res) ++
    [(serviceName service, ecsService lib project service res)] ++
    autoscalingWrites lib project service

/-- The writes of the loop of `convert` over the services. -/
def servicesWrites (lib : Lib) (project : Project) (res : resources)
    (services : GoMap ServiceConfig) : List (String × CfnResource) :=
  services.flatMap fun kv => serviceWrites lib project kv.2 res

/-- The struct `resources` that `convert` fills from the project extensions,
when all three are present and well-typed. -/
def resourcesOf (project : Project) : resources where
  loadBalancer :=
    match mapGet extensionLoadBalancer project.Extensions with
    | some (.str s) => s
    | _ => ""
  securityGroups := []
  subnets :=
    match mapGet extensionSubnets project.Extensions with
    | some x => (assertStringList x).getD []
    | none => []
  vpc :=
    match mapGet extensionVpc project.Extensions with
    | some (.str s) => s
    | _ => ""

/-! ## Reading a template -/

/-- The template a call returned, if it returned one. -/
def Outcome.template? : Outcome Template → Option Template
  | .ok t => some t
  | _ => none

/-- The listener stored under a name, if that resource is a listener. -/
def Template.listener? (template : Template) (name : String) : Option Listener :=
  match template.get name with
  | some (.listener l) => some l
  | _ => none

/-- The target group stored under a name, if that resource is a target group. -/
def Template.targetGroup? (template : Template) (name : String) : Option TargetGroup :=
  match template.get name with
  | some (.targetGroup g) => some g
  | _ => none

/-- The service resource stored under a name, if that resource is one. -/
def Template.service? (template : Template) (name : String) : Option EcsService :=
  match template.get name with
  | some (.service s) => some s
  | _ => none

/-- The task definition stored under a name, if that resource is one. -/
def Template.taskDefinition? (template : Template) (name : String) : Option TaskDefinition :=
  match template.get name with
  | some (.taskDefinition d) => some d
  | _ => none

/-- The names of the resources of a template that have a given type. -/
def Template.namesOfType (template : Template) (type : String) : List String :=
  (template.Resources.filter fun kr => kr.2.AWSCloudFormationType == type).map Prod.fst

def listenerType : String := "AWS::ElasticLoadBalancingV2::Listener"

def targetGroupType : String := "AWS::ElasticLoadBalancingV2::TargetGroup"

def scalableTargetType : String := "AWS::ApplicationAutoScaling::ScalableTarget"

def scalingPolicyType : String := "AWS::ApplicationAutoScaling::ScalingPolicy"

/-- The last `n` characters of a name, last first. -/
def nameTail (n : Nat) (name : String) : List Char :=
  name.data.reverse.take n

/-- The scalable target stored under a name, if that resource is one. -/
def Template.scalableTarget? (template : Template) (name : String) : Option ScalableTarget :=
  match template.get name with
  | some (.scalableTarget t) => some t
  | _ => none

/-- The scaling policy stored under a name, if that resource is one. -/
def Template.scalingPolicy? (template : Template) (name : String) : Option ScalingPolicy :=
  match template.get name with
  | some (.scalingPolicy p) => some p
  | _ => none

/-- The role stored under a name, if that resource is a role. -/
def Template.role? (template : Template) (name : String) : Option Role :=
  match template.get name with
  | some (.role r) => some r
  | _ => none

/-- The `Resource` list of a policy document the code builds (none for a raw one). -/
def PolicyDocument.resources? : PolicyDocument → Option (List String)
  | .statement _ _ resource => some resource
  | .raw _ => none

/-- The `Action` list of a policy document the code builds (none for a raw one). -/
def PolicyDocument.actions? : PolicyDocument → Option (List String)
  | .statement action _ _ => some action
  | .raw _ => none

/-- The names and types of the resources of a template. -/
def Template.inventory (template : Template) : List (String × String) :=
  template.Resources.map fun kr => (kr.1, kr.2.AWSCloudFormationType)

/-- The project `demo` of the end-to-end example: one service `web` (image
nginx) publishing port 80/tcp, no resource limits, no autoscaling. -/
def demoProject : Project :=
  projectOf "demo" [webService [tcpPort 80 "80"]]

/-- A byte slice. -/
abbrev Bytes := List Nat

/-- Go `manager.UploadOutput`, the fields that are read. -/
structure UploadOutput where
  Location : String
  VersionID : Option String
  deriving DecidableEq, Repr

/-- Go `cloudformation.DescribeChangeSetOutput`, the fields that are read;
`StatusReason` is a `*string`. -/
structure DescribeChangeSetOutput where
  Status : String
  StatusReason : Option String
  deriving DecidableEq, Repr

/-- A call made during a run. -/
inductive Call where
  | CreateBucket (bucket : String) (locationConstraint : Option String)
  | Upload (bucket key : String) (body : Bytes) (contentType tagging : String)
  | DeleteObject (bucket key : String) (versionId : Option String)
  | DeleteBucket (bucket : String)
  | uploadedTemplateFunc (body : Option Bytes) (url : Option String)
  | DescribeStacks (name : String)
  | DescribeChangeSet (changeSet : String) (stack : Option String)
  | ExecuteChangeSet (changeSet : String)
  deriving DecidableEq, Repr

/-- The answers of the remote services in one run. -/
structure Remote where
  /-- Go `uuid.GenerateUUID`. -/
  GenerateUUID : Except String String
  /-- S3 `CreateBucket` of a bucket with a location constraint. -/
  CreateBucket : String → Option String → Except String Unit
  /-- The upload of a body to a bucket under a key. -/
  Upload : String → String → Bytes → Except String UploadOutput
  /-- CloudFormation `CreateStack` of a stack from a body or a URL: the stack id. -/
  CreateStack : String → Option Bytes → Option String → Except String String
  /-- CloudFormation `CreateChangeSet` (change set name, stack, body, URL): its id. -/
  CreateChangeSet : String → String → Option Bytes → Option String → Except String String
  /-- CloudFormation `DescribeStacks`: the stacks found. -/
  DescribeStacks : String → Except String (List String)
  /-- CloudFormation `DescribeChangeSet` of a change set, optionally of a stack. -/
  DescribeChangeSet : String → Option String → Except String DescribeChangeSetOutput
  /-- CloudFormation `ExecuteChangeSet`. -/
  ExecuteChangeSet : String → Except String Unit
  /-- The formatted time `time.Now().Format("2006-01-02-15-04-05")`. -/
  Now : String

/-- Go `strings.HasPrefix`. -/
def startsWith (s start : String) : Bool :=
  start.data.isPrefixOf s.data

/-- The constant `cloudformationBytesLimit` of `withTemplate`. -/
def cloudformationBytesLimit : Nat := 51200

/-- Source function `sdk.withTemplate`: submit the template inline when it is
short, else through a staging bucket.  The deferred deletions run after the
callback has returned. -/
def withTemplate (remote : Remote) (name : String) (template : Bytes) (region : String)
    (uploadedTemplateFunc : Option Bytes → Option String → Except String String) :
    Except String String × List Call :=
  if template.length < cloudformationBytesLimit then
    (uploadedTemplateFunc (some template) none, [.uploadedTemplateFunc (some template) none])
  else
    match remote.GenerateUUID with
    | .error err => (.error err, [])
    | .ok key =>
      let bucket := "com.docker.compose." ++ key
      let configuration := if region ≠ "us-east-1" then some region else none
      match remote.CreateBucket bucket configuration with
      | .error err => (.error err, [.CreateBucket bucket configuration])
      | .ok () =>
        match remote.Upload bucket "template.yaml" template with
        | .error err =>
          (.error err,
            [ .CreateBucket bucket configuration,
              .Upload bucket "template.yaml" template "application/x-yaml" name ])
        | .ok upload =>
          (uploadedTemplateFunc none (some upload.Location),
            [ .CreateBucket bucket configuration,
              .Upload bucket "template.yaml" template "application/x-yaml" name,
              .uploadedTemplateFunc none (some upload.Location),
              .DeleteObject bucket "template.yaml" upload.VersionID,
              .DeleteBucket bucket ])

/-- Source function `sdk.CreateStack`. -/
def CreateStack (remote : Remote) (name region : String) (template : Bytes) :
    Except String Unit × List Call :=
  match withTemplate remote name template region (remote.CreateStack name) with
  | (.error err, calls) => (.error err, calls)
  | (.ok _, calls) => (.ok (), calls)

/-- Source function `sdk.StackExists`. -/
def StackExists (remote : Remote) (name : String) : Except String Bool × List Call :=
  match remote.DescribeStacks name with
  | .error err =>
    if startsWith err ("ValidationError: Stack with ID " ++ name ++ " does not exist") then
      (.ok false, [.DescribeStacks name])
    else (.ok false, [.DescribeStacks name])
  | .ok found => (.ok (decide (found.length > 0)), [.DescribeStacks name])

/-- The status reason of a change set without changes. -/
def noChangesReason : String := "The submitted information didn\x27t contain changes."

/-- Source function `sdk.UpdateStack`.  `*desc.StatusReason` panics on a nil
status reason. -/
def UpdateStack (remote : Remote) (changeset : String) : Outcome Unit × List Call :=
  match remote.DescribeChangeSet changeset none with
  | .error err => (.error err, [.DescribeChangeSet changeset none])
  | .ok desc =>
    match desc.StatusReason with
    | none =>
      (.panic "invalid memory address or nil pointer dereference",
        [.DescribeChangeSet changeset none])
    | some reason =>
      if startsWith reason noChangesReason then (.ok (), [.DescribeChangeSet changeset none])
      else
        match remote.ExecuteChangeSet changeset with
        | .error err =>
          (.error err, [.DescribeChangeSet changeset none, .ExecuteChangeSet changeset])
        | .ok () => (.ok (), [.DescribeChangeSet changeset none, .ExecuteChangeSet changeset])

/-- Source function `sdk.CreateChangeSet`.  After a failed `DescribeChangeSet`
the read `desc.Status` is a read through a nil pointer. -/
def CreateChangeSet (lib : Lib) (remote : Remote) (name region : String) (template : Bytes) :
    Outcome String × List Call :=
  let update := "Update" ++ remote.Now
  match withTemplate remote name template region (remote.CreateChangeSet update name) with
  | (.error err, calls) => (.error err, calls)
  | (.ok changeset, calls) =>
    let calls := calls ++ [.DescribeChangeSet update (some name)]
    match remote.DescribeChangeSet update (some name) with
    | .error _ => (.panic "invalid memory address or nil pointer dereference", calls)
    | .ok desc =>
      if desc.Status = "DELETE_FAILED" then
        match desc.StatusReason with
        | none => (.panic "invalid memory address or nil pointer dereference", calls)
        | some reason => (.error (lib.Errorf reason), calls)
      else (.ok changeset, calls)

/-- Source function `service.Up`, from the result of `Config` on. -/
def Up (lib : Lib) (remote : Remote) (name region : String) (config : Outcome Bytes) :
    Outcome Unit × List Call :=
  match config with
  | .error err => (.error err, [])
  | .panic msg => (.panic msg, [])
  | .ok template =>
    match StackExists remote name with
    | (.error err, calls) => (.error err, calls)
    | (.ok stackExists, calls) =>
      if !stackExists then
        match CreateStack remote name region template with
        | (.error err, calls') => (.error err, calls ++ calls')
        | (.ok (), calls') => (.ok (), calls ++ calls')
      else
        match CreateChangeSet lib remote name region template with
        | (.error err, calls') => (.error err, calls ++ calls')
        | (.panic msg, calls') => (.panic msg, calls ++ calls')
        | (.ok changeset, calls') =>
          match UpdateStack remote changeset with
          | (result, calls'') => (result, calls ++ calls' ++ calls'')

/-- A run in which the remote services answer as given and every other call
succeeds: the UUID is `uuid`, uploads land at `https://s3/template.yaml`. -/
def remoteWith (createBucket : Except String Unit) (upload : Except String UploadOutput)
    (describeStacks : Except String (List String))
    (describeChangeSet : Except String DescribeChangeSetOutput) : Remote where
  GenerateUUID := .ok "uuid"
  CreateBucket := fun _ _ => createBucket
  Upload := fun _ _ _ => upload
  CreateStack := fun _ _ _ => .ok "stack-id"
  CreateChangeSet := fun _ _ _ _ => .ok "changeset-id"
  DescribeStacks := fun _ => describeStacks
  DescribeChangeSet := fun _ _ => describeChangeSet
  ExecuteChangeSet := fun _ => .ok ()
  Now := "2024-01-01-00-00-00"

/-- The upload answer of `remoteWith` when it succeeds. -/
def uploaded : UploadOutput := ⟨"https://s3/template.yaml", none⟩

/-- A template of exactly 51200 bytes. -/
def limitTemplate : Bytes := List.replicate 51200 0

/-! ## Tags and further fixtures -/

/-- The `Tags` the code gives a resource; empty where it sets none. -/
def CfnResource.Tags : CfnResource → List Tag
  | .privateDnsNamespace _ _ tags _ => tags
  | .cluster _ tags => tags
  | .logGroup _ _ => []
  | .discoveryService _ => []
  | .taskDefinition _ => []
  | .role r => r.Tags
  | .securityGroupIngress _ => []
  | .listener _ => []
  | .targetGroup g => g.Tags
  | .service s => s.Tags
  | .scalableTarget _ => []
  | .scalingPolicy _ => []

/-- The ingress rule stored under a name, if that resource is one. -/
def Template.ingress? (template : Template) (name : String) : Option SecurityGroupIngress :=
  match template.get name with
  | some (.securityGroupIngress i) => some i
  | _ => none

/-- The discovery entry stored under a name, if that resource is one. -/
def Template.discoveryService? (template : Template) (name : String) :
    Option DiscoveryService :=
  match template.get name with
  | some (.discoveryService s) => some s
  | _ => none

/-- The project of the test `TestUseExternalNetwork`: service `test` (image
nginx) on the default network, which is external and named `sg-123abc`. -/
def externalNetworkProject : Project :=
  { projectOf "demo" [plainService "test" "nginx"] with
    Networks := [("default", ⟨"sg-123abc", true⟩)] }

/-- A project like `projectOf` with the given extensions instead of the three
deployment extensions. -/
def projectWithExtensions (extensions : GoMap Value) : Project :=
  { projectOf "demo" [plainService "test" "nginx"] with Extensions := extensions }

/-- Service `test` (image nginx) with a declared replica count. -/
def replicatedService (n : Int) : ServiceConfig :=
  { plainService "test" "nginx" with
    Deploy :=
      some
        { Replicas := some n
          Resources := { Limits := none, Reservations := none }
          Extensions := [] } }

/-- Service `test` (image nginx) with an environment map, in visiting order. -/
def environmentService (environment : GoMap (Option String)) : ServiceConfig :=
  { plainService "test" "nginx" with Environment := environment }

/-- The environment map in which every key of `pairs` has its value. -/
def presentValues (pairs : GoMap String) : GoMap (Option String) :=
  pairs.map fun kv => (kv.1, some kv.2)

/-- Service `web` publishing 80 and 443 over tcp and depending on the services
`db` and `cache`, its `depends_on` map visited in that order. -/
def linkedService : ServiceConfig :=
  { webService [tcpPort 80 "80", tcpPort 443 "443"] with
    DependsOn := [("db", ()), ("cache", ())] }

/-- The project `demo` with the services `web` (linked), `db` and `cache`. -/
def linkedProject : Project :=
  projectOf "demo" [linkedService, plainService "db" "postgres", plainService "cache" "redis"]

/-- The project `demo` with the services `front-tier` and `fronttier`, visited
in that order; both names normalize to `Fronttier`. -/
def collidingProject : Project :=
  projectOf "demo" [plainService "front-tier" "nginx", plainService "fronttier" "redis"]

/-- The project `demo` with the services `front-tier` and `back-tier`, whose
normalized names differ. -/
def separateProject : Project :=
  projectOf "demo" [plainService "front-tier" "nginx", plainService "back-tier" "redis"]

/-! ## Fixtures for rolling updates, ulimits and networks -/

/-- The service of the test `TestRollingUpdateLimits`: `foo` (image
hello_world) with 4 replicas and an update parallelism of 2. -/
def rollingService : ServiceConfig :=
  { plainService "foo" "hello_world" with
    Deploy :=
      some
        { Replicas := some 4
          Resources := { Limits := none, Reservations := none }
          Extensions := []
          UpdateConfig := some ⟨some 2⟩ } }

/-- Service `test` (image nginx) with a ulimits map, in visiting order. -/
def ulimitService (ulimits : GoMap UlimitsConfig) : ServiceConfig :=
  { plainService "test" "nginx" with Ulimits := ulimits }

/-- The project `demo` with the service `test` and the given networks. -/
def projectWithNetworks (networks : GoMap NetworkConfig) : Project :=
  { projectOf "demo" [plainService "test" "nginx"] with Networks := networks }

/-- A service (image hello_world) with a declared replica count and the
autoscaling extension `{cpu, max}`. -/
def scaledService (name : String) (replicas cpu max : Int) : ServiceConfig :=
  { plainService name "hello_world" with
    Deploy :=
      some
        { Replicas := some replicas
          Resources := { Limits := none, Reservations := none }
          Extensions := [(extensionAutoScaling, .map [("cpu", .int cpu), ("max", .int max)])] } }

/-- The project `demo` with the services `foo` (3 replicas, autoscaling
cpu 75 / max 10) and `f-oo` (5 replicas, autoscaling cpu 50 / max 5), visited
in that order; both names normalize to `Foo`. -/
def shadowedProject : Project :=
  projectOf "demo" [scaledService "foo" 3 75 10, scaledService "f-oo" 5 50 5]

/-! # Properties -/

/-! ## Resource sizing -/

theorem fargateCPUs_eq : fargateCPUs = [256, 512, 1024, 2048, 4096] := by decide

theorem scanMem_eq_find (mem : Int) (options : List Int) :
    scanMem mem options = options.find? (fun m => decide (mem ≤ m * miB)) := by
  induction options with
  | nil => rfl
  | cons m rest ih =>
    by_cases h : mem ≤ m * miB <;> simp [scanMem, List.find?, h, ih]

theorem scanMem_some {mem m : Int} {options : List Int} (h : scanMem mem options = some m) :
    m ∈ options ∧ mem ≤ m * miB := by
  rw [scanMem_eq_find] at h
  exact ⟨List.mem_of_find?_eq_some h, by simpa using List.find?_some h⟩

theorem scanMem_none {mem : Int} {options : List Int} :
    scanMem mem options = none ↔ ∀ m ∈ options, ¬ mem ≤ m * miB := by
  rw [scanMem_eq_find]; simp

/-- A CPU tier accommodates a request when it is large enough and one of its
memory options is. -/
theorem scanCPUs_error_iff (mem cpu : Int) (cpus : List Int) (e : String) :
    scanCPUs mem cpu cpus = .error e ↔
      e = errUnsupportedResources ∧
        ∀ c ∈ cpus, ¬ (cpu ≤ c ∧ ∃ m ∈ fargateOptions c, mem ≤ m * miB) := by
  induction cpus with
  | nil => simp [scanCPUs, eq_comm]
  | cons c rest ih =>
    by_cases hc : cpu ≤ c
    · cases hm : scanMem mem (fargateOptions c) with
      | none =>
        have hn := scanMem_none.mp hm
        simp only [scanCPUs, hc, hm, if_true, ih]
        constructor
        · rintro ⟨he, h⟩
          refine ⟨he, ?_⟩
          intro c' hc'
          rcases List.mem_cons.mp hc' with rfl | hc'
          · rintro ⟨_, m, hm', hle⟩; exact hn m hm' hle
          · exact h c' hc'
        · rintro ⟨he, h⟩
          exact ⟨he, fun c' hc' => h c' (List.mem_cons_of_mem _ hc')⟩
      | some m =>
        have hs := scanMem_some hm
        simp only [scanCPUs, hc, hm, if_true]
        constructor
        · intro h; cases h
        · rintro ⟨_, h⟩
          exact absurd ⟨hc, m, hs.1, hs.2⟩ (h c (List.mem_cons_self _ _))
    · simp only [scanCPUs, hc, if_false, ih]
      constructor
      · rintro ⟨he, h⟩
        refine ⟨he, ?_⟩
        intro c' hc'
        rcases List.mem_cons.mp hc' with rfl | hc'
        · rintro ⟨h1, _⟩; exact hc h1
        · exact h c' hc'
      · rintro ⟨he, h⟩
        exact ⟨he, fun c' hc' => h c' (List.mem_cons_of_mem _ hc')⟩

/-- What a successful scan returns: the first CPU tier that accommodates the
request, with the first memory option of that tier that does. -/
theorem scanCPUs_ok_iff (mem cpu : Int) (cpus : List Int) (a b : String) :
    scanCPUs mem cpu cpus = .ok (a, b) ↔
      ∃ c m,
        cpus.find? (fun c => decide (cpu ≤ c) &&
            (fargateOptions c).any fun m => decide (mem ≤ m * miB)) = some c ∧
          (fargateOptions c).find? (fun m => decide (mem ≤ m * miB)) = some m ∧
          a = formatInt c ∧ b = formatInt m := by
  induction cpus with
  | nil => simp [scanCPUs]
  | cons c rest ih =>
    by_cases hc : cpu ≤ c
    · cases hm : scanMem mem (fargateOptions c) with
      | none =>
        have hn := scanMem_none.mp hm
        have hany : ((fargateOptions c).any fun m => decide (mem ≤ m * miB)) = false := by
          simpa using hn
        simp [scanCPUs, hc, hm, ih, List.find?, hany]
      | some m =>
        have hs := scanMem_some hm
        have hany : ((fargateOptions c).any fun m => decide (mem ≤ m * miB)) = true := by
          simp only [List.any_eq_true, decide_eq_true_eq]; exact ⟨m, hs.1, hs.2⟩
        rw [scanMem_eq_find] at hm
        simp only [scanCPUs, hc, if_true, scanMem_eq_find, hm, List.find?, hany,
          decide_True, Bool.and_self, Except.ok.injEq, Prod.mk.injEq, Option.some.injEq]
        constructor
        · rintro ⟨rfl, rfl⟩; exact ⟨c, m, rfl, hm, rfl, rfl⟩
        · rintro ⟨c', m', rfl, hm', rfl, rfl⟩
          rw [hm] at hm'; cases hm'; exact ⟨rfl, rfl⟩
    · simp [scanCPUs, hc, ih, List.find?]

theorem fargate_tiers_bounded :
    ∀ c ∈ fargateCPUs, c ≤ 4096 ∧ ∀ m ∈ fargateOptions c, m ≤ 30720 := by decide

theorem fargate_largest_tier : (4096 : Int) ∈ fargateCPUs ∧ (30720 : Int) ∈ fargateOptions 4096 := by
  decide

/-- No tier accommodates a request exactly when it exceeds the largest one. -/
theorem no_tier_iff (mem cpu : Int) :
    (∀ c ∈ fargateCPUs, ¬ (cpu ≤ c ∧ ∃ m ∈ fargateOptions c, mem ≤ m * miB)) ↔
      (4096 < cpu ∨ 30720 * miB < mem) := by
  constructor
  · intro h
    have h1 := h 4096 fargate_largest_tier.1
    by_contra hcon
    push_neg at hcon
    exact h1 ⟨hcon.1, 30720, fargate_largest_tier.2, hcon.2⟩
  · intro h c hc
    rintro ⟨hle, m, hm, hmem⟩
    have hb := fargate_tiers_bounded c hc
    have hm' := hb.2 m hm
    have h1 := hb.1
    simp only [miB] at h hmem
    omega

theorem toLimits_of_request {lib : Lib} {service : ServiceConfig} {mem cpu : Int}
    (hreq : getConfiguredLimits lib service = .ok (mem, cpu)) :
    toLimits lib service =
      if mem = 0 ∧ cpu = 0 then .ok ("256", "512") else scanCPUs mem cpu fargateCPUs := by
  simp [toLimits, hreq]

theorem scanCPUs_ok_or_error (mem cpu : Int) (cpus : List Int) :
    (∃ a b, scanCPUs mem cpu cpus = .ok (a, b)) ∨
      scanCPUs mem cpu cpus = .error errUnsupportedResources := by
  cases h : scanCPUs mem cpu cpus with
  | ok r => exact Or.inl ⟨r.1, r.2, rfl⟩
  | error e => exact Or.inr (by rw [((scanCPUs_error_iff mem cpu cpus e).mp h).1])

theorem fargate_table_entries :
    (∀ p ∈ fargateCPUToMem, p.1 ∈ fargateCPUs ∧ fargateOptions p.1 = p.2) ∧
      ∀ c ∈ fargateCPUs, (c, fargateOptions c) ∈ fargateCPUToMem := by decide

/-- The scan over sorted keys and map reads visits exactly the entries of the table. -/
theorem no_tier_iff_no_entry (mem cpu : Int) :
    (∀ c ∈ fargateCPUs, ¬ (cpu ≤ c ∧ ∃ m ∈ fargateOptions c, mem ≤ m * miB)) ↔
      ∀ p ∈ fargateCPUToMem, ∀ m ∈ p.2, ¬ (cpu ≤ p.1 ∧ mem ≤ m * miB) := by
  constructor
  · intro h p hp m hm hfit
    obtain ⟨h1, h2⟩ := fargate_table_entries.1 p hp
    exact h p.1 h1 ⟨hfit.1, m, by rw [h2]; exact hm, hfit.2⟩
  · rintro h c hc ⟨hle, m, hm, hmem⟩
    exact h (c, fargateOptions c) (fargate_table_entries.2 c hc) m hm ⟨hle, hmem⟩

/-- C1: for a request (memory bytes, CPU units) other than (0, 0), `toLimits`
returns the 'resources requested are not supported' error exactly when no
(cpu tier, memory tier) entry of the table accommodates the request, which is
exactly when the CPU exceeds 4096 units or the memory exceeds 30720 MiB;
otherwise it succeeds, and it returns no other error. -/
theorem toLimits_error_iff_exceeds (lib : Lib) (service : ServiceConfig) (mem cpu : Int)
    (hreq : getConfiguredLimits lib service = .ok (mem, cpu)) (hnz : (mem, cpu) ≠ (0, 0)) :
    (toLimits lib service = .error errUnsupportedResources ↔
        ∀ p ∈ fargateCPUToMem, ∀ m ∈ p.2, ¬ (cpu ≤ p.1 ∧ mem ≤ m * miB)) ∧
      (toLimits lib service = .error errUnsupportedResources ↔
        (4096 < cpu ∨ 30720 * miB < mem)) ∧
      (¬ (4096 < cpu ∨ 30720 * miB < mem) → ∃ c m, toLimits lib service = .ok (c, m)) ∧
      (∀ e, toLimits lib service = .error e → e = errUnsupportedResources) := by
  have hnz' : ¬ (mem = 0 ∧ cpu = 0) := by
    rintro ⟨rfl, rfl⟩; exact hnz rfl
  rw [toLimits_of_request hreq, if_neg hnz']
  have hiff : scanCPUs mem cpu fargateCPUs = .error errUnsupportedResources ↔
      (4096 < cpu ∨ 30720 * miB < mem) := by
    rw [scanCPUs_error_iff, no_tier_iff]; simp
  have hiff' : scanCPUs mem cpu fargateCPUs = .error errUnsupportedResources ↔
      ∀ p ∈ fargateCPUToMem, ∀ m ∈ p.2, ¬ (cpu ≤ p.1 ∧ mem ≤ m * miB) := by
    rw [scanCPUs_error_iff, no_tier_iff_no_entry]; simp
  refine ⟨hiff', hiff, ?_, ?_⟩
  · intro hfit
    rcases scanCPUs_ok_or_error mem cpu fargateCPUs with h | h
    · exact h
    · exact absurd (hiff.mp h) hfit
  · intro e he
    exact ((scanCPUs_error_iff mem cpu fargateCPUs e).mp he).1

theorem toLimits_error_iff_exceeds_witness :
    (toLimits goLib (sizedService "8" 0) = .error errUnsupportedResources ↔
        ∀ p ∈ fargateCPUToMem, ∀ m ∈ p.2, ¬ ((8000 : Int) ≤ p.1 ∧ (0 : Int) ≤ m * miB)) ∧
      (toLimits goLib (sizedService "8" 0) = .error errUnsupportedResources ↔
        (4096 < (8000 : Int) ∨ 30720 * miB < (0 : Int))) ∧
      (¬ (4096 < (8000 : Int) ∨ 30720 * miB < (0 : Int)) →
        ∃ c m, toLimits goLib (sizedService "8" 0) = .ok (c, m)) ∧
      (∀ e, toLimits goLib (sizedService "8" 0) = .error e → e = errUnsupportedResources) :=
  toLimits_error_iff_exceeds goLib (sizedService "8" 0) 0 8000 rfl (by decide)

theorem formatInt_256 : formatInt 256 = "256" := by decide

theorem formatInt_512 : formatInt 512 = "512" := by decide

/-- C2, as stated, fails: a request of 256 CPU units and 4096 MiB is sized
512/4096, although the first CPU tier that is >= 256 is the tier 256 (whose
largest memory option, 2048 MiB, is too small). -/
theorem toLimits_first_cpu_tier_counterexample :
    getConfiguredLimits goLib (sizedService "0.256" (4096 * miB)) = .ok (4096 * miB, 256) ∧
      toLimits goLib (sizedService "0.256" (4096 * miB)) = .ok ("512", "4096") ∧
      fargateCPUs.find? (fun c => decide ((256 : Int) ≤ c)) = some 256 ∧
      formatInt 256 ≠ "512" :=
  ⟨rfl, rfl, by decide, by decide⟩

/-- C2, amended: for every non-zero request on which `toLimits` succeeds, the
returned CPU tier is the first CPU tier of the ascending table that is >= the
requested CPU and has a memory option >= the requested memory, and the returned
memory tier is the first entry of that tier's list that is >= the requested
memory (in MiB). -/
theorem toLimits_first_accommodating_tier (lib : Lib) (service : ServiceConfig)
    (mem cpu : Int) (a b : String)
    (hreq : getConfiguredLimits lib service = .ok (mem, cpu)) (hnz : (mem, cpu) ≠ (0, 0))
    (hok : toLimits lib service = .ok (a, b)) :
    ∃ c m,
      fargateCPUs.find? (fun c => decide (cpu ≤ c) &&
          (fargateOptions c).any fun m => decide (mem ≤ m * miB)) = some c ∧
        (fargateOptions c).find? (fun m => decide (mem ≤ m * miB)) = some m ∧
        a = formatInt c ∧ b = formatInt m := by
  have hnz' : ¬ (mem = 0 ∧ cpu = 0) := by
    rintro ⟨rfl, rfl⟩; exact hnz rfl
  rw [toLimits_of_request hreq, if_neg hnz'] at hok
  exact (scanCPUs_ok_iff mem cpu fargateCPUs a b).mp hok

theorem toLimits_first_accommodating_tier_witness :
    ∃ c m,
      fargateCPUs.find? (fun c => decide ((256 : Int) ≤ c) &&
          (fargateOptions c).any fun m => decide (4096 * miB ≤ m * miB)) = some c ∧
        (fargateOptions c).find? (fun m => decide (4096 * miB ≤ m * miB)) = some m ∧
        "512" = formatInt c ∧ "4096" = formatInt m :=
  toLimits_first_accommodating_tier goLib (sizedService "0.256" (4096 * miB))
    (4096 * miB) 256 "512" "4096" rfl (by decide) rfl

theorem scanCPUs_skip (mem cpu : Int) (pre rest : List Int)
    (h : ∀ c ∈ pre, ¬ cpu ≤ c) :
    scanCPUs mem cpu (pre ++ rest) = scanCPUs mem cpu rest := by
  induction pre with
  | nil => rfl
  | cons c pre ih =>
    have hc : ¬ cpu ≤ c := h c (List.mem_cons_self _ _)
    simp only [List.cons_append, scanCPUs, hc, if_false]
    exact ih fun c' hc' => h c' (List.mem_cons_of_mem _ hc')

theorem scanMem_boundary :
    ∀ c ∈ fargateCPUs, ∀ m ∈ fargateOptions c,
      scanMem (m * miB) (fargateOptions c) = some m := by decide

theorem fargateCPUs_pos : ∀ c ∈ fargateCPUs, 0 < c := by decide

/-- A request whose memory is exactly a memory option of the CPU tier its CPU
falls in is sized to that tier and that option. -/
theorem scanCPUs_boundary (c m cpu : Int) (hc : c ∈ fargateCPUs)
    (hm : m ∈ fargateOptions c) (hle : cpu ≤ c)
    (hgt : ∀ c' ∈ fargateCPUs, c' < c → c' < cpu) :
    scanCPUs (m * miB) cpu fargateCPUs = .ok (formatInt c, formatInt m) := by
  have hsorted : fargateCPUs.Pairwise (fun a b => a < b) := by decide
  obtain ⟨pre, post, hsplit⟩ := List.append_of_mem hc
  have hpre : ∀ c' ∈ pre, ¬ cpu ≤ c' := by
    intro c' hc'
    have hlt : c' < c := by
      rw [hsplit, List.pairwise_append] at hsorted
      exact hsorted.2.2 c' hc' c (List.mem_cons_self _ _)
    have := hgt c' (by rw [hsplit]; exact List.mem_append_left _ hc') hlt
    omega
  rw [hsplit, scanCPUs_skip _ _ _ _ hpre]
  simp only [scanCPUs, hle, if_true, scanMem_boundary c hc m hm]

/-- C3: a request exactly on a tier boundary resolves to that tier: for every
CPU tier `c` of the table and every memory tier `m` of its list, the request
(m MiB, c units) is sized (c, m); so is the request (m MiB, cpu) for every cpu
above the previous tier and at most `c`. -/
theorem toLimits_tier_boundary (lib : Lib) (c m : Int) (hc : c ∈ fargateCPUs)
    (hm : m ∈ fargateOptions c) :
    (∀ service, getConfiguredLimits lib service = .ok (m * miB, c) →
        toLimits lib service = .ok (formatInt c, formatInt m)) ∧
      (∀ service cpu, cpu ≤ c → (∀ c' ∈ fargateCPUs, c' < c → c' < cpu) →
        getConfiguredLimits lib service = .ok (m * miB, cpu) →
        toLimits lib service = .ok (formatInt c, formatInt m)) := by
  have hgen : ∀ service cpu, cpu ≤ c → (∀ c' ∈ fargateCPUs, c' < c → c' < cpu) →
      getConfiguredLimits lib service = .ok (m * miB, cpu) →
      toLimits lib service = .ok (formatInt c, formatInt m) := by
    intro service cpu hle hgt hreq
    have hmpos : m * miB ≠ 0 := by
      have h : ∀ c ∈ fargateCPUs, ∀ m ∈ fargateOptions c, m * miB ≠ 0 := by decide
      exact h c hc m hm
    rw [toLimits_of_request hreq, if_neg (fun h => hmpos h.1)]
    exact scanCPUs_boundary c m cpu hc hm hle hgt
  exact ⟨fun service hreq => hgen service c le_rfl (fun _ _ h => h) hreq, hgen⟩

theorem toLimits_tier_boundary_witness :
    toLimits goLib (sizedService "0.512" (2048 * miB)) = .ok ("512", "2048") ∧
      toLimits goLib (sizedService "0.5" (2048 * miB)) = .ok ("512", "2048") ∧
      toLimits goLib (sizedService "4" (8192 * miB)) = .ok ("4096", "8192") :=
  ⟨(toLimits_tier_boundary goLib 512 2048 (by decide) (by decide)).1
      (sizedService "0.512" (2048 * miB)) rfl,
    (toLimits_tier_boundary goLib 512 2048 (by decide) (by decide)).2
      (sizedService "0.5" (2048 * miB)) 500 (by decide) (by decide) rfl,
    (toLimits_tier_boundary goLib 4096 8192 (by decide) (by decide)).2
      (sizedService "4" (8192 * miB)) 4000 (by decide) (by decide) rfl⟩

/-- C4: when the requested memory and CPU are both zero, in particular when the
service has no deploy section or its deploy section has neither limits nor
reservations, `toLimits` returns CPU "256" and memory "512" without error. -/
theorem toLimits_zero_request (lib : Lib) (service : ServiceConfig)
    (h : service.Deploy = none ∨
      (∃ deploy, service.Deploy = some deploy ∧ deploy.Resources.Limits = none ∧
        deploy.Resources.Reservations = none) ∨
      getConfiguredLimits lib service = .ok (0, 0)) :
    getConfiguredLimits lib service = .ok (0, 0) ∧
      toLimits lib service = .ok ("256", "512") := by
  have hreq : getConfiguredLimits lib service = .ok (0, 0) := by
    rcases h with h | ⟨deploy, hd, hl, hr⟩ | h
    · simp [getConfiguredLimits, h]
    · simp [getConfiguredLimits, hd, hl, hr]
    · exact h
  exact ⟨hreq, by rw [toLimits_of_request hreq]; simp⟩

theorem toLimits_zero_request_witness :
    getConfiguredLimits goLib (plainService "test" "nginx") = .ok (0, 0) ∧
      toLimits goLib (plainService "test" "nginx") = .ok ("256", "512") :=
  toLimits_zero_request goLib (plainService "test" "nginx") (Or.inl rfl)

/-- C5: CPU and memory are fitted independently: whenever `toLimits` succeeds on
a request (memory bytes, CPU units), the returned CPU tier is >= the requested
CPU and the returned memory tier times 1 MiB is >= the requested memory, and
the pair is an entry of the table; this includes requests in which exactly one
of the two values is zero. -/
theorem toLimits_covers_request (lib : Lib) (service : ServiceConfig) (mem cpu : Int)
    (a b : String) (hreq : getConfiguredLimits lib service = .ok (mem, cpu))
    (hok : toLimits lib service = .ok (a, b)) :
    ∃ c m, a = formatInt c ∧ b = formatInt m ∧ c ∈ fargateCPUs ∧ m ∈ fargateOptions c ∧
      cpu ≤ c ∧ mem ≤ m * miB := by
  rw [toLimits_of_request hreq] at hok
  by_cases hz : mem = 0 ∧ cpu = 0
  · rw [if_pos hz] at hok
    simp only [Except.ok.injEq, Prod.mk.injEq] at hok
    obtain ⟨rfl, rfl⟩ := hz
    exact ⟨256, 512, by rw [formatInt_256, hok.1], by rw [formatInt_512, hok.2],
      by decide, by decide, by decide, by decide⟩
  · rw [if_neg hz] at hok
    obtain ⟨c, m, hfc, hfm, ha, hb⟩ := (scanCPUs_ok_iff mem cpu fargateCPUs a b).mp hok
    have hc := List.find?_some hfc
    have hm := List.find?_some hfm
    simp only [Bool.and_eq_true, decide_eq_true_eq] at hc hm
    exact ⟨c, m, ha, hb, List.mem_of_find?_eq_some hfc, List.mem_of_find?_eq_some hfm,
      hc.1, hm⟩

theorem toLimits_covers_request_witness :
    (∃ c m, "1024" = formatInt c ∧ "2048" = formatInt m ∧ c ∈ fargateCPUs ∧
        m ∈ fargateOptions c ∧ (1000 : Int) ≤ c ∧ (0 : Int) ≤ m * miB) ∧
      (∃ c m, "512" = formatInt c ∧ "4096" = formatInt m ∧ c ∈ fargateCPUs ∧
        m ∈ fargateOptions c ∧ (0 : Int) ≤ c ∧ 4096 * miB ≤ m * miB) :=
  ⟨toLimits_covers_request goLib (sizedService "1" 0) 0 1000 "1024" "2048" rfl rfl,
    toLimits_covers_request goLib (sizedService "" (4096 * miB)) (4096 * miB) 0 "512" "4096"
      rfl rfl⟩

/-! ## Maps and writes -/

theorem mapGet_mapSet_self {β : Type} (k : String) (v : β) (m : GoMap β) :
    mapGet k (mapSet k v m) = some v := by
  induction m with
  | nil => simp [mapSet, mapGet]
  | cons kv rest ih =>
    obtain ⟨k', v'⟩ := kv
    by_cases h : k' = k <;> simp [mapSet, mapGet, h, ih]

theorem mapGet_mapSet_ne {β : Type} {k k' : String} (v : β) (m : GoMap β) (h : k' ≠ k) :
    mapGet k' (mapSet k v m) = mapGet k' m := by
  induction m with
  | nil => simp [mapSet, mapGet, Ne.symm h]
  | cons kv rest ih =>
    obtain ⟨k'', v''⟩ := kv
    by_cases h1 : k'' = k
    · subst h1
      simp [mapSet, mapGet, Ne.symm h]
    · by_cases h2 : k'' = k'
      · subst h2
        simp [mapSet, mapGet, h1]
      · simp [mapSet, mapGet, h1, h2, ih]

theorem Template.get_set_self (t : Template) (k : String) (r : CfnResource) :
    (t.set k r).get k = some r :=
  mapGet_mapSet_self k r t.Resources

theorem Template.get_set_ne (t : Template) {k k' : String} (r : CfnResource) (h : k' ≠ k) :
    (t.set k r).get k' = t.get k' :=
  mapGet_mapSet_ne r t.Resources h

theorem Template.write_nil (t : Template) : t.write [] = t := rfl

theorem Template.write_cons (t : Template) (w : String × CfnResource)
    (ws : List (String × CfnResource)) : t.write (w :: ws) = (t.set w.1 w.2).write ws := rfl

theorem Template.write_append (t : Template) (ws ws' : List (String × CfnResource)) :
    t.write (ws ++ ws') = (t.write ws).write ws' := by
  simp [Template.write, List.foldl_append]

/-- Provenance: an entry of a template after some writes was there before or is
one of the writes. -/
theorem Template.get_write_cases (t : Template) (ws : List (String × CfnResource))
    (k : String) (r : CfnResource) (h : (t.write ws).get k = some r) :
    t.get k = some r ∨ (k, r) ∈ ws := by
  induction ws generalizing t with
  | nil => exact Or.inl h
  | cons w ws ih =>
    rw [Template.write_cons] at h
    rcases ih _ h with h' | h'
    · by_cases hk : k = w.1
      · subst hk
        rw [Template.get_set_self] at h'
        cases h'
        exact Or.inr (List.mem_cons_self _ _)
      · rw [Template.get_set_ne _ _ hk] at h'
        exact Or.inl h'
    · exact Or.inr (List.mem_cons_of_mem _ h')

/-- A name that is written holds, afterwards, one of the resources written to it. -/
theorem Template.get_write_of_mem (t : Template) (ws : List (String × CfnResource))
    (k : String) (r : CfnResource) (h : (k, r) ∈ ws) :
    ∃ r', (k, r') ∈ ws ∧ (t.write ws).get k = some r' := by
  induction ws generalizing t r with
  | nil => cases h
  | cons w ws ih =>
    rw [Template.write_cons]
    by_cases hin : ∃ r', (k, r') ∈ ws
    · obtain ⟨r', hr'⟩ := hin
      obtain ⟨r'', h1, h2⟩ := ih (t.set w.1 w.2) r' hr'
      exact ⟨r'', List.mem_cons_of_mem _ h1, h2⟩
    · have hw : w = (k, r) := by
        rcases List.mem_cons.mp h with h | h
        · exact h.symm
        · exact absurd ⟨r, h⟩ hin
      subst hw
      refine ⟨r, List.mem_cons_self _ _, ?_⟩
      rcases hget : ((t.set k r).write ws).get k with _ | r'
      · have : ∀ (t' : Template), t'.get k = some r → (t'.write ws).get k ≠ none := by
          intro t' ht'
          clear hget ih h
          induction ws generalizing t' with
          | nil => simp [Template.write_nil, ht']
          | cons w' ws' ih' =>
            rw [Template.write_cons]
            have hne : k ≠ w'.1 := by
              intro hk
              exact hin ⟨w'.2, by rw [hk]; exact List.mem_cons_self _ _⟩
            apply ih' (fun ⟨r', hr'⟩ => hin ⟨r', List.mem_cons_of_mem _ hr'⟩)
            rw [Template.get_set_ne _ _ hne]; exact ht'
        exact absurd hget (this _ (Template.get_set_self t k r))
      · rcases Template.get_write_cases _ ws k r' hget with h' | h'
        · rw [Template.get_set_self] at h'; cases h'; rfl
        · exact absurd ⟨r', h'⟩ hin

/-- A name that is not written keeps its resource. -/
theorem Template.get_write_of_not_mem (t : Template) (ws : List (String × CfnResource))
    (k : String) (h : ∀ w ∈ ws, w.1 ≠ k) : (t.write ws).get k = t.get k := by
  induction ws generalizing t with
  | nil => rfl
  | cons w ws ih =>
    rw [Template.write_cons, ih _ (fun w' hw' => h w' (List.mem_cons_of_mem _ hw'))]
    exact Template.get_set_ne _ _ (Ne.symm (h w (List.mem_cons_self _ _)))

/-! ## The code performs exactly the listed writes -/

theorem createIngresses_eq (service : ServiceConfig) (port : ServicePortConfig)
    (res : resources) (networks : GoMap Unit) (t : Template) :
    createIngresses service port res networks t =
      t.write (networks.map fun kv => (ingressName kv.1 port, ingress service port res kv.1)) := by
  induction networks generalizing t with
  | nil => rfl
  | cons kv rest ih =>
    obtain ⟨network, u⟩ := kv
    simp only [createIngresses, List.map_cons, Template.write_cons, ih]

theorem createPorts_eq (lib : Lib) (project : Project) (service : ServiceConfig)
    (res : resources) (ports : List ServicePortConfig) (t : Template) :
    createPorts lib project service res ports t =
      t.write (ports.flatMap (portWrites lib project service res)) := by
  induction ports generalizing t with
  | nil => rfl
  | cons port rest ih =>
    simp only [createPorts, List.flatMap_cons, Template.write_append, ih, portWrites,
      createIngresses_eq, Template.write_cons, Template.write_nil]

theorem createAutoscalingPolicy_ok {lib : Lib} {project : Project} {service : ServiceConfig}
    {t t' : Template} (h : createAutoscalingPolicy lib project t service = .ok t') :
    t' = t.write (autoscalingWrites lib project service) := by
  unfold createAutoscalingPolicy at h
  unfold autoscalingWrites acceptedAutoscaling
  cases hd : service.Deploy with
  | none => rw [hd] at h; simp only [Except.ok.injEq] at h; simp [h, Template.write_nil]
  | some deploy =>
    rw [hd] at h
    simp only at h ⊢
    cases hv : mapGet extensionAutoScaling deploy.Extensions with
    | none => rw [hv] at h; simp only [Except.ok.injEq] at h; simp [h, Template.write_nil]
    | some v =>
      rw [hv] at h
      simp only at h ⊢
      cases hc : lib.decodeAutoscaling v with
      | error e => rw [hc] at h; cases h
      | ok config =>
        rw [hc] at h
        simp only at h ⊢
        by_cases h1 : config.Memory ≠ 0 ∧ config.CPU ≠ 0
        · rw [if_pos h1] at h; cases h
        · rw [if_neg h1] at h ⊢
          by_cases h2 : config.Max = 0
          · rw [if_pos h2] at h; cases h
          · rw [if_neg h2] at h ⊢
            simp only [Except.ok.injEq] at h
            rw [← h]; rfl

theorem createAutoscalingPolicy_error_iff (lib : Lib) (project : Project) (t : Template)
    (service : ServiceConfig) (deploy : DeployConfig) (v : Value) (config : AutoscalingConfig)
    (hd : service.Deploy = some deploy)
    (hv : mapGet extensionAutoScaling deploy.Extensions = some v)
    (hc : lib.decodeAutoscaling v = .ok config) :
    (∃ e, createAutoscalingPolicy lib project t service = .error e) ↔
      ((config.Memory ≠ 0 ∧ config.CPU ≠ 0) ∨ config.Max = 0) := by
  unfold createAutoscalingPolicy
  rw [hd]; simp only
  rw [hv]; simp only
  rw [hc]; simp only
  by_cases h1 : config.Memory ≠ 0 ∧ config.CPU ≠ 0
  · rw [if_pos h1]; simp [h1]
  · rw [if_neg h1]
    by_cases h2 : config.Max = 0
    · rw [if_pos h2]; simp [h2]
    · rw [if_neg h2]; simp [h1, h2]

/-- Whether `createAutoscalingPolicy` fails does not depend on the template. -/
theorem createAutoscalingPolicy_error_template (lib : Lib) (project : Project)
    (t t' : Template) (service : ServiceConfig) (e : String)
    (h : createAutoscalingPolicy lib project t service = .error e) :
    createAutoscalingPolicy lib project t' service = .error e := by
  unfold createAutoscalingPolicy at h ⊢
  cases hd : service.Deploy with
  | none => rw [hd] at h; cases h
  | some deploy =>
    rw [hd] at h
    simp only at h ⊢
    cases hv : mapGet extensionAutoScaling deploy.Extensions with
    | none => rw [hv] at h; cases h
    | some v =>
      rw [hv] at h
      simp only at h ⊢
      cases hc : lib.decodeAutoscaling v with
      | error e' => rw [hc] at h; exact h
      | ok config =>
        rw [hc] at h
        simp only at h ⊢
        by_cases h1 : config.Memory ≠ 0 ∧ config.CPU ≠ 0
        · rw [if_pos h1] at h ⊢; exact h
        · rw [if_neg h1] at h ⊢
          by_cases h2 : config.Max = 0
          · rw [if_pos h2] at h ⊢; exact h
          · rw [if_neg h2] at h; cases h

/-- What a successful `createService` did: its inputs were accepted, and the
template it returns is the one it was given with the writes of the service. -/
theorem createService_ok {lib : Lib} {project : Project} {service : ServiceConfig}
    {t t' : Template} {res : resources}
    (h : createService lib project service t res = .ok t') :
    t' = t.write (serviceWrites lib project service res) ∧
      (∃ r, toLimits lib service = .ok r) ∧
      (∀ t0 e, createAutoscalingPolicy lib project t0 service ≠ .error e) := by
  unfold createService at h
  cases hs : getSecretArns project service with
  | error e => rw [hs] at h; cases h
  | panic e => rw [hs] at h; cases h
  | ok arns =>
    rw [hs] at h
    simp only [Outcome.bind] at h
    cases hl : toLimits lib service with
    | error e => rw [hl] at h; cases h
    | ok r =>
      obtain ⟨cpu, mem⟩ := r
      rw [hl] at h
      simp only at h
      cases he : createEnvironment service with
      | error e => rw [he] at h; cases h
      | panic e => rw [he] at h; cases h
      | ok env =>
        rw [he] at h
        simp only at h
        cases hr : createRepositoryCredentials service with
        | error e => rw [hr] at h; cases h
        | panic e => rw [hr] at h; cases h
        | ok cred =>
          rw [hr] at h
          simp only at h
          rw [createPorts_eq] at h
          split at h
          · cases h
          · next t'' ha =>
            simp only [Outcome.ok.injEq] at h
            subst h
            refine ⟨?_, ⟨_, rfl⟩, ?_⟩
            · rw [createAutoscalingPolicy_ok ha]
              simp only [serviceWrites, limitsOf, hl, he, hr, hs, Outcome.getD,
                Template.write_append, Template.write_cons, Template.write_nil,
                List.cons_append, List.nil_append]
            · intro t0 e h0
              cases ha.symm.trans
                (createAutoscalingPolicy_error_template lib project t0 _ service e h0)

theorem createServices_ok {lib : Lib} {project : Project} {res : resources}
    {services : GoMap ServiceConfig} {t t' : Template}
    (h : createServices lib project res services t = .ok t') :
    t' = t.write (servicesWrites lib project res services) ∧
      ∀ kv ∈ services, (∃ r, toLimits lib kv.2 = .ok r) ∧
        ∀ t0 e, createAutoscalingPolicy lib project t0 kv.2 ≠ .error e := by
  induction services generalizing t with
  | nil =>
    simp only [createServices, Outcome.ok.injEq] at h
    subst h
    exact ⟨rfl, fun _ hkv => by cases hkv⟩
  | cons kv rest ih =>
    obtain ⟨key, service⟩ := kv
    simp only [createServices] at h
    cases hc : createService lib project service t res with
    | error e => rw [hc] at h; cases h
    | panic e => rw [hc] at h; cases h
    | ok t1 =>
      rw [hc] at h
      simp only [Outcome.bind] at h
      obtain ⟨h1, h2⟩ := ih h
      obtain ⟨hw, hrest⟩ := createService_ok hc
      refine ⟨?_, ?_⟩
      · rw [h1, hw]
        simp only [servicesWrites, List.flatMap_cons, Template.write_append]
      · intro kv hkv
        rcases List.mem_cons.mp hkv with rfl | hkv
        · exact hrest
        · exact h2 kv hkv

/-- What a successful `convert` did: the project passed the compatibility check,
and the template is the three project-wide resources with the writes of the
services, in the order the services were visited. -/
theorem convert_ok {lib : Lib} {project : Project} {t : Template}
    (h : convert lib project = .ok t) :
    t = (baseTemplate project (resourcesOf project)).write
          (servicesWrites lib project (resourcesOf project) project.Services) ∧
      checkCompatibility project = .ok () ∧
      ∀ kv ∈ project.Services, (∃ r, toLimits lib kv.2 = .ok r) ∧
        ∀ t0 e, createAutoscalingPolicy lib project t0 kv.2 ≠ .error e := by
  unfold convert at h
  cases hcc : checkCompatibility project with
  | error e => rw [hcc] at h; cases h
  | ok u =>
    rw [hcc] at h
    simp only at h
    cases hlb : mapGet extensionLoadBalancer project.Extensions with
    | none => rw [hlb] at h; cases h
    | some x =>
      rw [hlb] at h
      simp only at h
      cases hx : assertString x with
      | error e => rw [hx] at h; cases h
      | panic e => rw [hx] at h; cases h
      | ok loadBalancer =>
        rw [hx] at h
        simp only [Outcome.bind] at h
        cases hsn : mapGet extensionSubnets project.Extensions with
        | none => rw [hsn] at h; cases h
        | some y =>
          rw [hsn] at h
          simp only at h
          cases hy : assertStringList y with
          | error e => rw [hy] at h; cases h
          | panic e => rw [hy] at h; cases h
          | ok subnets =>
            rw [hy] at h
            simp only at h
            cases hvpc : mapGet extensionVpc project.Extensions with
            | none => rw [hvpc] at h; cases h
            | some z =>
              rw [hvpc] at h
              simp only at h
              cases hz : assertString z with
              | error e => rw [hz] at h; cases h
              | panic e => rw [hz] at h; cases h
              | ok vpc =>
                rw [hz] at h
                simp only at h
                have hres : resourcesOf project =
                    { loadBalancer := loadBalancer, securityGroups := [],
                      subnets := subnets, vpc := vpc } := by
                  cases x <;> simp only [assertString] at hx <;> try cases hx
                  cases z <;> simp only [assertString] at hz <;> try cases hz
                  simp [resourcesOf, hlb, hsn, hvpc, hy, Outcome.getD]
                rw [← hres] at h
                obtain ⟨h1, h2⟩ := createServices_ok h
                exact ⟨h1, rfl, h2⟩

/-! ## Names are unique in a template -/

theorem mapSet_keys_nodup {β : Type} (k : String) (v : β) (m : GoMap β)
    (h : (m.map Prod.fst).Nodup) : ((mapSet k v m).map Prod.fst).Nodup ∧
      ∀ k', k' ∈ (mapSet k v m).map Prod.fst → k' = k ∨ k' ∈ m.map Prod.fst := by
  induction m with
  | nil => simp [mapSet]
  | cons kv rest ih =>
    obtain ⟨k0, v0⟩ := kv
    simp only [List.map_cons, List.nodup_cons] at h
    obtain ⟨ih1, ih2⟩ := ih h.2
    by_cases hk : k0 = k
    · subst hk
      simp only [mapSet, if_true, List.map_cons, List.nodup_cons]
      exact ⟨⟨h.1, h.2⟩, fun k' hk' => Or.inr hk'⟩
    · simp only [mapSet, hk, if_false, List.map_cons, List.nodup_cons, List.mem_cons]
      refine ⟨⟨?_, ih1⟩, ?_⟩
      · intro hmem
        rcases ih2 k0 hmem with h' | h'
        · exact hk h'
        · exact h.1 h'
      · rintro k' (rfl | hk')
        · exact Or.inr (Or.inl rfl)
        · rcases ih2 k' hk' with h' | h'
          · exact Or.inl h'
          · exact Or.inr (Or.inr h')

theorem Template.write_keys_nodup (t : Template) (ws : List (String × CfnResource))
    (h : (t.Resources.map Prod.fst).Nodup) : ((t.write ws).Resources.map Prod.fst).Nodup := by
  induction ws generalizing t with
  | nil => exact h
  | cons w ws ih =>
    rw [Template.write_cons]
    exact ih _ (mapSet_keys_nodup w.1 w.2 t.Resources h).1

theorem mapGet_of_mem {β : Type} {k : String} {v : β} {m : GoMap β}
    (hn : (m.map Prod.fst).Nodup) (h : (k, v) ∈ m) : mapGet k m = some v := by
  induction m with
  | nil => cases h
  | cons kv rest ih =>
    obtain ⟨k0, v0⟩ := kv
    simp only [List.map_cons, List.nodup_cons] at hn
    rcases List.mem_cons.mp h with h | h
    · cases h; simp [mapGet]
    · have hne : k0 ≠ k := by
        rintro rfl
        exact hn.1 (List.mem_map.mpr ⟨(k0, v), h, rfl⟩)
      simp only [mapGet, hne, if_false]
      exact ih hn.2 h

theorem mem_of_mapGet {β : Type} {k : String} {v : β} {m : GoMap β}
    (h : mapGet k m = some v) : (k, v) ∈ m := by
  induction m with
  | nil => cases h
  | cons kv rest ih =>
    obtain ⟨k0, v0⟩ := kv
    by_cases hk : k0 = k
    · subst hk
      simp only [mapGet, if_true, Option.some.injEq] at h
      subst h
      exact List.mem_cons_self _ _
    · simp only [mapGet, hk, if_false] at h
      exact List.mem_cons_of_mem _ (ih h)

theorem baseTemplate_eq_write (project : Project) (res : resources) :
    baseTemplate project res =
      NewTemplate.write
        [ ("CloudMap",
            .privateDnsNamespace ("Service Map for Docker Compose project " ++ project.Name)
              (project.Name ++ ".local") (projectTags project) res.vpc),
          ("Cluster", .cluster project.Name (projectTags project)),
          ("LogGroup", .logGroup ("/docker-compose/" ++ project.Name) 0) ] := rfl

theorem baseTemplate_keys_nodup (project : Project) (res : resources) :
    ((baseTemplate project res).Resources.map Prod.fst).Nodup := by
  rw [baseTemplate_eq_write]
  exact Template.write_keys_nodup _ _ (by simp [NewTemplate])

/-- The entries of the three project-wide resources. -/
theorem baseTemplate_get (project : Project) (res : resources) (k : String) (r : CfnResource)
    (h : (baseTemplate project res).get k = some r) :
    (k = "CloudMap" ∧ ∃ d n tg v, r = .privateDnsNamespace d n tg v) ∨
      (k = "Cluster" ∧ ∃ n tg, r = .cluster n tg) ∨
      (k = "LogGroup" ∧ ∃ n d, r = .logGroup n d) := by
  rw [baseTemplate_eq_write] at h
  rcases Template.get_write_cases _ _ _ _ h with h | h
  · simp [Template.get, NewTemplate, mapGet] at h
  · simp only [List.mem_cons, Prod.mk.injEq, List.mem_singleton, List.not_mem_nil, or_false] at h
    rcases h with ⟨rfl, rfl⟩ | ⟨rfl, rfl⟩ | ⟨rfl, rfl⟩
    · exact Or.inl ⟨rfl, _, _, _, _, rfl⟩
    · exact Or.inr (Or.inl ⟨rfl, _, _, rfl⟩)
    · exact Or.inr (Or.inr ⟨rfl, _, _, rfl⟩)

/-! ## What `createService` writes under which name -/

theorem nameTail_append (n : Nat) (a b : String) (h : n ≤ b.length) :
    nameTail n (a ++ b) = nameTail n b := by
  simp only [nameTail, String.data_append, List.reverse_append]
  have hlen : b.length = b.data.length := rfl
  exact List.take_append_of_le_length (by rw [List.length_reverse, ← hlen]; exact h)

/-- The writes of a service, one by one. -/
theorem mem_serviceWrites {lib : Lib} {project : Project} {service : ServiceConfig}
    {res : resources} {w : String × CfnResource} :
    w ∈ serviceWrites lib project service res ↔
      w = (serviceDiscoveryEntryName service, discoveryEntry lib service) ∨
      w = (serviceTaskDefinitionName service,
        taskDefinition lib project service (limitsOf lib service).1 (limitsOf lib service).2
          ((createEnvironment service).getD [])
          ((createRepositoryCredentials service).getD none)) ∨
      w = (serviceTaskExecutionRoleName service,
        taskExecutionRole project service ((getSecretArns project service).getD [])) ∨
      w = (serviceTaskRoleName service, taskRole project service) ∨
      (∃ port ∈ service.Ports, ∃ kv ∈ service.Networks,
        w = (ingressName kv.1 port, ingress service port res kv.1)) ∨
      (∃ port ∈ service.Ports,
        w = (serviceListenerName lib service port, listener lib service port res)) ∨
      (∃ port ∈ service.Ports,
        w = (serviceTargetGroupName lib service port,
          targetGroup lib project service port res)) ∨
      w = (serviceName service, ecsService lib project service res) ∨
      (∃ config, acceptedAutoscaling lib service = some config ∧
        (w = (serviceAutoScalingRoleName service, autoScalingRole lib project service) ∨
          w = (serviceScalableTargetName service, scalableTarget lib service config) ∨
          w = (serviceScalingPolicyName service, scalingPolicy lib service config))) := by
  have haw : w ∈ autoscalingWrites lib project service ↔
      ∃ config, acceptedAutoscaling lib service = some config ∧
        (w = (serviceAutoScalingRoleName service, autoScalingRole lib project service) ∨
          w = (serviceScalableTargetName service, scalableTarget lib service config) ∨
          w = (serviceScalingPolicyName service, scalingPolicy lib service config)) := by
    unfold autoscalingWrites
    cases acceptedAutoscaling lib service with
    | none => simp
    | some config => simp
  simp only [serviceWrites, List.mem_append, List.mem_cons, List.mem_singleton,
    List.not_mem_nil, or_false, List.mem_flatMap, portWrites, List.mem_map, haw]
  constructor
  · rintro ((((h | h | h | h) | ⟨port, hp, (⟨kv, hkv, rfl⟩ | h | h)⟩) | h) | h)
    · exact Or.inl h
    · exact Or.inr (Or.inl h)
    · exact Or.inr (Or.inr (Or.inl h))
    · exact Or.inr (Or.inr (Or.inr (Or.inl h)))
    · exact Or.inr (Or.inr (Or.inr (Or.inr (Or.inl ⟨port, hp, kv, hkv, rfl⟩))))
    · exact Or.inr (Or.inr (Or.inr (Or.inr (Or.inr (Or.inl ⟨port, hp, h⟩)))))
    · exact Or.inr (Or.inr (Or.inr (Or.inr (Or.inr (Or.inr (Or.inl ⟨port, hp, h⟩))))))
    · exact Or.inr (Or.inr (Or.inr (Or.inr (Or.inr (Or.inr (Or.inr (Or.inl h)))))))
    · exact Or.inr (Or.inr (Or.inr (Or.inr (Or.inr (Or.inr (Or.inr (Or.inr h)))))))
  · rintro (h | h | h | h | ⟨port, hp, kv, hkv, rfl⟩ | ⟨port, hp, h⟩ | ⟨port, hp, h⟩ | h | h)
    · exact Or.inl (Or.inl (Or.inl (Or.inl h)))
    · exact Or.inl (Or.inl (Or.inl (Or.inr (Or.inl h))))
    · exact Or.inl (Or.inl (Or.inl (Or.inr (Or.inr (Or.inl h)))))
    · exact Or.inl (Or.inl (Or.inl (Or.inr (Or.inr (Or.inr h)))))
    · exact Or.inl (Or.inl (Or.inr ⟨port, hp, Or.inl ⟨kv, hkv, rfl⟩⟩))
    · exact Or.inl (Or.inl (Or.inr ⟨port, hp, Or.inr (Or.inl h)⟩))
    · exact Or.inl (Or.inl (Or.inr ⟨port, hp, Or.inr (Or.inr h)⟩))
    · exact Or.inl (Or.inr h)
    · exact Or.inr h

theorem tail_serviceDiscoveryEntryName (s : ServiceConfig) :
    nameTail 2 (serviceDiscoveryEntryName s) = ['y', 'r'] := by
  unfold serviceDiscoveryEntryName; rw [nameTail_append _ _ _ (by decide)]; rfl

theorem tail_serviceTaskDefinitionName (s : ServiceConfig) :
    nameTail 2 (serviceTaskDefinitionName s) = ['n', 'o'] := by
  unfold serviceTaskDefinitionName; rw [nameTail_append _ _ _ (by decide)]; rfl

theorem tail_serviceTaskExecutionRoleName (s : ServiceConfig) :
    nameTail 2 (serviceTaskExecutionRoleName s) = ['e', 'l'] := by
  unfold serviceTaskExecutionRoleName; rw [nameTail_append _ _ _ (by decide)]; rfl

theorem tail_serviceTaskRoleName (s : ServiceConfig) :
    nameTail 2 (serviceTaskRoleName s) = ['e', 'l'] := by
  unfold serviceTaskRoleName; rw [nameTail_append _ _ _ (by decide)]; rfl

theorem tail_ingressName (network : String) (port : ServicePortConfig) :
    nameTail 2 (ingressName network port) = ['s', 's'] := by
  unfold ingressName; rw [nameTail_append _ _ _ (by decide)]; rfl

theorem tail_serviceListenerName (lib : Lib) (s : ServiceConfig) (port : ServicePortConfig) :
    nameTail 2 (serviceListenerName lib s port) = ['r', 'e'] := by
  unfold serviceListenerName; rw [nameTail_append _ _ _ (by decide)]; rfl

theorem tail_serviceTargetGroupName (lib : Lib) (s : ServiceConfig)
    (port : ServicePortConfig) :
    nameTail 2 (serviceTargetGroupName lib s port) = ['p', 'u'] := by
  unfold serviceTargetGroupName; rw [nameTail_append _ _ _ (by decide)]; rfl

theorem tail_serviceName (s : ServiceConfig) : nameTail 2 (serviceName s) = ['e', 'c'] := by
  unfold serviceName; rw [nameTail_append _ _ _ (by decide)]; rfl

theorem tail_serviceAutoScalingRoleName (s : ServiceConfig) :
    nameTail 2 (serviceAutoScalingRoleName s) = ['e', 'l'] := by
  unfold serviceAutoScalingRoleName; rw [nameTail_append _ _ _ (by decide)]; rfl

theorem tail_serviceScalableTargetName (s : ServiceConfig) :
    nameTail 2 (serviceScalableTargetName s) = ['t', 'e'] := by
  unfold serviceScalableTargetName; rw [nameTail_append _ _ _ (by decide)]; rfl

theorem tail_serviceScalingPolicyName (s : ServiceConfig) :
    nameTail 2 (serviceScalingPolicyName s) = ['y', 'c'] := by
  unfold serviceScalingPolicyName; rw [nameTail_append _ _ _ (by decide)]; rfl

/-- The name of a write of `createService` tells its kind: a name ending like a
listener name holds a listener of the service, one ending like a target-group
name a target group of the service, one ending like a service name the service
resource. -/
theorem serviceWrite_of_tail {lib : Lib} {project : Project} {service : ServiceConfig}
    {res : resources} {w : String × CfnResource}
    (h : w ∈ serviceWrites lib project service res) :
    (nameTail 2 w.1 = ['r', 'e'] →
        ∃ port ∈ service.Ports,
          w = (serviceListenerName lib service port, listener lib service port res)) ∧
      (nameTail 2 w.1 = ['p', 'u'] →
        ∃ port ∈ service.Ports,
          w = (serviceTargetGroupName lib service port,
            targetGroup lib project service port res)) ∧
      (nameTail 2 w.1 = ['e', 'c'] →
        w = (serviceName service, ecsService lib project service res)) := by
  rcases mem_serviceWrites.mp h with rfl | rfl | rfl | rfl | ⟨port, hp, kv, hkv, rfl⟩ |
    ⟨port, hp, rfl⟩ | ⟨port, hp, rfl⟩ | rfl | ⟨config, hc, rfl | rfl | rfl⟩
  · simp [tail_serviceDiscoveryEntryName]
  · simp [tail_serviceTaskDefinitionName]
  · simp [tail_serviceTaskExecutionRoleName]
  · simp [tail_serviceTaskRoleName]
  · simp [tail_ingressName]
  · simp only [tail_serviceListenerName]
    exact ⟨fun _ => ⟨port, hp, rfl⟩, by simp, by simp⟩
  · simp only [tail_serviceTargetGroupName]
    exact ⟨by simp, fun _ => ⟨port, hp, rfl⟩, by simp⟩
  · simp [tail_serviceName]
  · simp [tail_serviceAutoScalingRoleName]
  · simp [tail_serviceScalableTargetName]
  · simp [tail_serviceScalingPolicyName]

/-- The kind of a write of `createService` tells its name. -/
theorem serviceWrite_of_type {lib : Lib} {project : Project} {service : ServiceConfig}
    {res : resources} {w : String × CfnResource}
    (h : w ∈ serviceWrites lib project service res) :
    (w.2.AWSCloudFormationType = listenerType →
        ∃ port ∈ service.Ports, w.1 = serviceListenerName lib service port) ∧
      (w.2.AWSCloudFormationType = targetGroupType →
        ∃ port ∈ service.Ports, w.1 = serviceTargetGroupName lib service port) ∧
      (w.2.AWSCloudFormationType = scalableTargetType →
        (acceptedAutoscaling lib service).isSome) ∧
      (w.2.AWSCloudFormationType = scalingPolicyType →
        (acceptedAutoscaling lib service).isSome) := by
  rcases mem_serviceWrites.mp h with rfl | rfl | rfl | rfl | ⟨port, hp, kv, hkv, rfl⟩ |
    ⟨port, hp, rfl⟩ | ⟨port, hp, rfl⟩ | rfl | ⟨config, hc, rfl | rfl | rfl⟩
  all_goals
    refine ⟨?_, ?_, ?_, ?_⟩ <;> intro hty
  all_goals
    first
      | exact ⟨port, hp, rfl⟩
      | exact (by simp [hc] : (acceptedAutoscaling lib service).isSome = true)
      | exact absurd hty (by
          simp [discoveryEntry, taskDefinition, taskExecutionRole, taskRole, ingress,
            listener, targetGroup, ecsService, autoScalingRole, scalableTarget,
            scalingPolicy, CfnResource.AWSCloudFormationType, listenerType,
            targetGroupType, scalableTargetType, scalingPolicyType])

theorem mem_servicesWrites {lib : Lib} {project : Project} {res : resources}
    {services : GoMap ServiceConfig} {w : String × CfnResource} :
    w ∈ servicesWrites lib project res services ↔
      ∃ kv ∈ services, w ∈ serviceWrites lib project kv.2 res := by
  simp [servicesWrites, List.mem_flatMap]

theorem convert_keys_nodup {lib : Lib} {project : Project} {t : Template}
    (h : convert lib project = .ok t) : (t.Resources.map Prod.fst).Nodup := by
  rw [(convert_ok h).1]
  exact Template.write_keys_nodup _ _ (baseTemplate_keys_nodup _ _)

/-- Provenance: every resource of the template of a project is one of the three
project-wide resources or a write of one of its services. -/
theorem convert_entry {lib : Lib} {project : Project} {t : Template}
    (h : convert lib project = .ok t) {k : String} {r : CfnResource}
    (hk : t.get k = some r) :
    (baseTemplate project (resourcesOf project)).get k = some r ∨
      ∃ kv ∈ project.Services,
        (k, r) ∈ serviceWrites lib project kv.2 (resourcesOf project) := by
  rw [(convert_ok h).1] at hk
  rcases Template.get_write_cases _ _ _ _ hk with h' | h'
  · exact Or.inl h'
  · exact Or.inr (mem_servicesWrites.mp h')

/-- Presence: a name written by a service of the project holds, in the template,
a resource that a service of the project wrote under that name. -/
theorem convert_written {lib : Lib} {project : Project} {t : Template}
    (h : convert lib project = .ok t) {kv : String × ServiceConfig}
    (hkv : kv ∈ project.Services) {k : String} {r : CfnResource}
    (hw : (k, r) ∈ serviceWrites lib project kv.2 (resourcesOf project)) :
    ∃ r', t.get k = some r' ∧
      ∃ kv' ∈ project.Services,
        (k, r') ∈ serviceWrites lib project kv'.2 (resourcesOf project) := by
  have hmem : (k, r) ∈ servicesWrites lib project (resourcesOf project) project.Services :=
    mem_servicesWrites.mpr ⟨kv, hkv, hw⟩
  obtain ⟨r', h1, h2⟩ := Template.get_write_of_mem
    (baseTemplate project (resourcesOf project)) _ k r hmem
  rw [← (convert_ok h).1] at h2
  exact ⟨r', h2, mem_servicesWrites.mp h1⟩

theorem mem_namesOfType {t : Template} {type k : String}
    (hn : (t.Resources.map Prod.fst).Nodup) :
    k ∈ t.namesOfType type ↔ ∃ r, t.get k = some r ∧ r.AWSCloudFormationType = type := by
  simp only [Template.namesOfType, List.mem_map, List.mem_filter, beq_iff_eq, Prod.exists,
    exists_and_right, exists_eq_right]
  constructor
  · rintro ⟨r, hmem, ht⟩
    exact ⟨r, mapGet_of_mem hn hmem, ht⟩
  · rintro ⟨r, hget, ht⟩
    exact ⟨r, mem_of_mapGet hget, ht⟩

theorem namesOfType_nodup {t : Template} (type : String)
    (hn : (t.Resources.map Prod.fst).Nodup) : (t.namesOfType type).Nodup := by
  unfold Template.namesOfType
  exact hn.sublist (List.Sublist.map _ (List.filter_sublist _))

/-! ## Failures of `convert` -/

/-- C6: a service whose request fits no tier, or whose CPU text does not parse,
makes `convert` panic: `createService` raises the error of `toLimits` with
`panic(err)` instead of returning it, so the caller of `convert` receives
neither an error value nor a template. -/
theorem convert_unsupported_size_panics :
    toLimits goLib (sizedService "8" 0) = .error errUnsupportedResources ∧
      convert goLib (projectOf "demo" [sizedService "8" 0]) =
        .panic errUnsupportedResources ∧
      convert goLib (projectOf "demo" [sizedService "lots" 0]) =
        .panic "failed to parse lots as a rational number" :=
  ⟨rfl, rfl, rfl⟩

theorem checkNetworks_ok_iff (networks : GoMap NetworkConfig) :
    checkNetworks networks = .ok () ↔
      ∀ kv ∈ networks, kv.2.External = true ∨ hasSuffix kv.2.Name "_default" = true := by
  induction networks with
  | nil => simp [checkNetworks]
  | cons kv rest ih =>
    obtain ⟨key, network⟩ := kv
    by_cases h1 : hasSuffix network.Name "_default" = true
    · simp [checkNetworks, h1, ih]
    · by_cases h2 : network.External = true
      · simp [checkNetworks, h1, h2, ih]
      · simp [checkNetworks, h1, h2]

theorem checkSecrets_ok_iff (secrets : GoMap SecretConfig) :
    checkSecrets secrets = .ok () ↔ ∀ kv ∈ secrets, kv.2.External = true := by
  induction secrets with
  | nil => simp [checkSecrets]
  | cons kv rest ih =>
    obtain ⟨key, secret⟩ := kv
    by_cases h : secret.External = true
    · simp [checkSecrets, h, ih]
    · simp [checkSecrets, h]

/-- C7, as stated, fails: the project `demo` has its implicit default network
(keyed `default`, named `demo_default`) and a second network keyed `backend`
and named `demo_my_default`, which is not external and is not the implicit
default network, by key or by name; `checkCompatibility` accepts the project
all the same, because the name ends in `_default`. -/
theorem checkCompatibility_suffix_counterexample :
    (projectWithNetworks
        [("default", ⟨"demo_default", false⟩), ("backend", ⟨"demo_my_default", false⟩)]).Name =
        "demo" ∧
      mapGet "backend"
          (projectWithNetworks
            [("default", ⟨"demo_default", false⟩),
              ("backend", ⟨"demo_my_default", false⟩)]).Networks =
        some ⟨"demo_my_default", false⟩ ∧
      "backend" ≠ "default" ∧ "demo_my_default" ≠ "demo" ++ "_default" ∧
      checkCompatibility
          (projectWithNetworks
            [("default", ⟨"demo_default", false⟩), ("backend", ⟨"demo_my_default", false⟩)]) =
        .ok () :=
  ⟨rfl, rfl, by decide, by decide, rfl⟩

/-- C7, amended: `checkCompatibility` succeeds exactly when the project declares
no config, every network is external or has a name ending in `_default` (the
suffix of the implicit default network's name; the key is not read), every
secret is external, and no volume is declared; otherwise it returns an error,
and `convert` returns that same error and no template. -/
theorem checkCompatibility_ok_iff (lib : Lib) (project : Project) :
    (checkCompatibility project = .ok () ↔
        project.Configs = [] ∧
          (∀ kv ∈ project.Networks,
            kv.2.External = true ∨ hasSuffix kv.2.Name "_default" = true) ∧
          (∀ kv ∈ project.Secrets, kv.2.External = true) ∧
          project.Volumes = []) ∧
      (checkCompatibility project = .ok () ∨ ∃ err, checkCompatibility project = .error err) ∧
      (∀ err, checkCompatibility project = .error err → convert lib project = .error err) := by
  refine ⟨?_, ?_, ?_⟩
  · unfold checkCompatibility
    cases hc : project.Configs with
    | cons c cs =>
      constructor
      · intro h; cases h
      · rintro ⟨h, _⟩; cases h
    | nil =>
      cases hn : checkNetworks project.Networks with
      | error e =>
        have hno := (checkNetworks_ok_iff project.Networks).not.mp (by rw [hn]; simp)
        constructor
        · intro h; cases h
        · rintro ⟨_, h, _⟩; exact absurd h hno
      | ok u =>
        have hn' := (checkNetworks_ok_iff project.Networks).mp hn
        cases hs : checkSecrets project.Secrets with
        | error e =>
          have hno := (checkSecrets_ok_iff project.Secrets).not.mp (by rw [hs]; simp)
          constructor
          · intro h; cases h
          · rintro ⟨_, _, h, _⟩; exact absurd h hno
        | ok u' =>
          have hs' := (checkSecrets_ok_iff project.Secrets).mp hs
          cases hv : project.Volumes with
          | cons v vs =>
            constructor
            · intro h; cases h
            · rintro ⟨_, _, _, h⟩; cases h
          | nil => exact ⟨fun _ => ⟨rfl, hn', hs', rfl⟩, fun _ => rfl⟩
  · cases checkCompatibility project with
    | ok u => exact Or.inl rfl
    | error e => exact Or.inr ⟨e, rfl⟩
  · intro err h
    simp [convert, h]

theorem checkCompatibility_ok_iff_witness :
    checkCompatibility demoProject = .ok () ∧
      convert goLib { demoProject with Volumes := [("data", ⟨"demo_data", true⟩)] } =
        .error "volumes are not supported: demo_data" :=
  ⟨(checkCompatibility_ok_iff goLib demoProject).1.mpr ⟨rfl, by decide, by decide, rfl⟩,
    (checkCompatibility_ok_iff goLib
      { demoProject with Volumes := [("data", ⟨"demo_data", true⟩)] }).2.2 _ rfl⟩

/-- C8: the depends-on list of a service follows the order in which the run
visits its `depends_on` map: two runs over the same project, whose map
`{db, cache}` is visited in the two possible orders, give the service `web`
the lists [DbService, CacheService] and [CacheService, DbService]. -/
theorem convert_depends_on_follows_map_order :
    List.Perm [("db", ()), ("cache", ())] [("cache", ()), ("db", ())] ∧
      ((convert goLib (dependentProject [("db", ()), ("cache", ())])).template?.bind
          fun t => t.service? "WebService").map (fun s => s.DependsOn) =
        some ["DbService", "CacheService"] ∧
      ((convert goLib (dependentProject [("cache", ()), ("db", ())])).template?.bind
          fun t => t.service? "WebService").map (fun s => s.DependsOn) =
        some ["CacheService", "DbService"] :=
  ⟨List.Perm.swap _ _ _, by decide, by decide⟩

/-! ## Port fan-out -/

theorem listener_mem_serviceWrites (lib : Lib) (project : Project) (service : ServiceConfig)
    (res : resources) {port : ServicePortConfig} (hp : port ∈ service.Ports) :
    (serviceListenerName lib service port, listener lib service port res) ∈
      serviceWrites lib project service res :=
  mem_serviceWrites.mpr (Or.inr (Or.inr (Or.inr (Or.inr (Or.inr (Or.inl ⟨port, hp, rfl⟩))))))

theorem targetGroup_mem_serviceWrites (lib : Lib) (project : Project)
    (service : ServiceConfig) (res : resources) {port : ServicePortConfig}
    (hp : port ∈ service.Ports) :
    (serviceTargetGroupName lib service port, targetGroup lib project service port res) ∈
      serviceWrites lib project service res :=
  mem_serviceWrites.mpr
    (Or.inr (Or.inr (Or.inr (Or.inr (Or.inr (Or.inr (Or.inl ⟨port, hp, rfl⟩)))))))

theorem ecsService_mem_serviceWrites (lib : Lib) (project : Project)
    (service : ServiceConfig) (res : resources) :
    (serviceName service, ecsService lib project service res) ∈
      serviceWrites lib project service res :=
  mem_serviceWrites.mpr
    (Or.inr (Or.inr (Or.inr (Or.inr (Or.inr (Or.inr (Or.inr (Or.inl rfl))))))))

/-- Every listener name of a service of the project holds a listener. -/
theorem convert_listener_present {lib : Lib} {project : Project} {t : Template}
    (h : convert lib project = .ok t) {kv : String × ServiceConfig}
    (hkv : kv ∈ project.Services) {port : ServicePortConfig} (hp : port ∈ kv.2.Ports) :
    ∃ l, t.get (serviceListenerName lib kv.2 port) = some (.listener l) := by
  obtain ⟨r', hget, kv', _, hw⟩ :=
    convert_written h hkv (listener_mem_serviceWrites lib project kv.2 _ hp)
  obtain ⟨port', _, heq⟩ := (serviceWrite_of_tail hw).1 (tail_serviceListenerName lib kv.2 port)
  have hr : r' = listener lib kv'.2 port' (resourcesOf project) := (Prod.mk.inj heq).2
  exact ⟨_, by rw [hget, hr]; rfl⟩

/-- Every target-group name of a service of the project holds a target group. -/
theorem convert_targetGroup_present {lib : Lib} {project : Project} {t : Template}
    (h : convert lib project = .ok t) {kv : String × ServiceConfig}
    (hkv : kv ∈ project.Services) {port : ServicePortConfig} (hp : port ∈ kv.2.Ports) :
    ∃ g, t.get (serviceTargetGroupName lib kv.2 port) = some (.targetGroup g) := by
  obtain ⟨r', hget, kv', _, hw⟩ :=
    convert_written h hkv (targetGroup_mem_serviceWrites lib project kv.2 _ hp)
  obtain ⟨port', _, heq⟩ :=
    (serviceWrite_of_tail hw).2.1 (tail_serviceTargetGroupName lib kv.2 port)
  have hr : r' = targetGroup lib project kv'.2 port' (resourcesOf project) :=
    (Prod.mk.inj heq).2
  exact ⟨_, by rw [hget, hr]; rfl⟩

/-- Every resource of a given load-balancing type was written by a service of
the project for one of its ports. -/
theorem convert_names_of_type {lib : Lib} {project : Project} {t : Template}
    (h : convert lib project = .ok t) {k : String} :
    (k ∈ t.namesOfType listenerType →
        ∃ kv ∈ project.Services, ∃ port ∈ kv.2.Ports,
          k = serviceListenerName lib kv.2 port) ∧
      (k ∈ t.namesOfType targetGroupType →
        ∃ kv ∈ project.Services, ∃ port ∈ kv.2.Ports,
          k = serviceTargetGroupName lib kv.2 port) ∧
      (k ∈ t.namesOfType scalableTargetType →
        ∃ kv ∈ project.Services, (acceptedAutoscaling lib kv.2).isSome) ∧
      (k ∈ t.namesOfType scalingPolicyType →
        ∃ kv ∈ project.Services, (acceptedAutoscaling lib kv.2).isSome) := by
  have hbase : ∀ r type, (baseTemplate project (resourcesOf project)).get k = some r →
      r.AWSCloudFormationType = type →
      type ≠ listenerType ∧ type ≠ targetGroupType ∧ type ≠ scalableTargetType ∧
        type ≠ scalingPolicyType := by
    intro r type hb hty
    subst hty
    rcases baseTemplate_get _ _ _ _ hb with ⟨_, _, _, _, _, rfl⟩ | ⟨_, _, _, rfl⟩ |
      ⟨_, _, _, rfl⟩ <;>
      simp [CfnResource.AWSCloudFormationType, listenerType, targetGroupType,
        scalableTargetType, scalingPolicyType]
  have hn := convert_keys_nodup h
  refine ⟨?_, ?_, ?_, ?_⟩ <;> intro hk <;>
    obtain ⟨r, hget, hty⟩ := (mem_namesOfType hn).mp hk <;>
    rcases convert_entry h hget with hb | ⟨kv, hkv, hw⟩
  · exact absurd rfl (hbase r _ hb hty).1
  · obtain ⟨port, hp, hk'⟩ := (serviceWrite_of_type hw).1 hty
    exact ⟨kv, hkv, port, hp, hk'⟩
  · exact absurd rfl (hbase r _ hb hty).2.1
  · obtain ⟨port, hp, hk'⟩ := (serviceWrite_of_type hw).2.1 hty
    exact ⟨kv, hkv, port, hp, hk'⟩
  · exact absurd rfl (hbase r _ hb hty).2.2.1
  · exact ⟨kv, hkv, (serviceWrite_of_type hw).2.2.1 hty⟩
  · exact absurd rfl (hbase r _ hb hty).2.2.2
  · exact ⟨kv, hkv, (serviceWrite_of_type hw).2.2.2 hty⟩

/-- Counting: when `names` are distinct names that each hold a resource of the
type, the resources of that type among them are as many as the names. -/
theorem count_names_of_type {t : Template} {type : String} {names : List String}
    (hn : (t.Resources.map Prod.fst).Nodup) (hnames : names.Nodup)
    (hall : ∀ k ∈ names, ∃ r, t.get k = some r ∧ r.AWSCloudFormationType = type) :
    ((t.namesOfType type).filter fun k => decide (k ∈ names)).length = names.length := by
  apply List.Perm.length_eq
  rw [List.perm_ext_iff_of_nodup ((namesOfType_nodup type hn).filter _) hnames]
  intro k
  simp only [List.mem_filter, decide_eq_true_eq]
  constructor
  · exact fun hk => hk.2
  · exact fun hk => ⟨(mem_namesOfType hn).mpr (hall k hk), hk⟩

/-- C9, as stated, fails: the service `web` publishes two ports, 8080 and 8081,
that both target container port 80; `convert` succeeds, and the template holds
one listener (WebTCP80Listener), not two, next to two target groups.  With two
ports that set no published port it holds two listeners and one target group. -/
theorem port_fan_out_counterexample :
    (webService [tcpPort 80 "8080", tcpPort 80 "8081"]).Ports.length = 2 ∧
      (convert goLib (projectOf "demo"
          [webService [tcpPort 80 "8080", tcpPort 80 "8081"]])).template?.map
        (fun t => t.namesOfType listenerType) = some ["WebTCP80Listener"] ∧
      (convert goLib (projectOf "demo"
          [webService [tcpPort 80 "8080", tcpPort 80 "8081"]])).template?.map
        (fun t => t.namesOfType targetGroupType) =
          some ["WebTCP8080TargetGroup", "WebTCP8081TargetGroup"] ∧
      (convert goLib (projectOf "demo"
          [webService [tcpPort 80 "", tcpPort 443 ""]])).template?.map
        (fun t => (t.namesOfType listenerType, t.namesOfType targetGroupType)) =
          some (["WebTCP80Listener", "WebTCP443Listener"], ["WebTCPTargetGroup"]) :=
  ⟨rfl, by decide, by decide, by decide⟩

/-- C9, amended: in a project on which `convert` succeeds, for every service
publishing N ports: each port has a listener under the service's listener name
(service, PROTOCOL, target port) and a target group under its target-group name
(service, PROTOCOL, published port); when the N listener names are pairwise
distinct the template holds exactly N listeners under them, and likewise for the
target groups; every listener and target group of the template is keyed in this
way by a service and port of the project, so none exists when no service
publishes a port; and the service resource, when no other service shares its
name, carries exactly N load-balancer bindings, one per port in order. -/
theorem port_fan_out (lib : Lib) (project : Project) (t : Template) (key : String)
    (service : ServiceConfig) (hconv : convert lib project = .ok t)
    (hs : (key, service) ∈ project.Services) :
    (∀ port ∈ service.Ports,
        (t.listener? (serviceListenerName lib service port)).isSome ∧
          (t.targetGroup? (serviceTargetGroupName lib service port)).isSome) ∧
      ((service.Ports.map (serviceListenerName lib service)).Nodup →
        ((t.namesOfType listenerType).filter fun k =>
            decide (k ∈ service.Ports.map (serviceListenerName lib service))).length =
          service.Ports.length) ∧
      ((service.Ports.map (serviceTargetGroupName lib service)).Nodup →
        ((t.namesOfType targetGroupType).filter fun k =>
            decide (k ∈ service.Ports.map (serviceTargetGroupName lib service))).length =
          service.Ports.length) ∧
      (∀ k ∈ t.namesOfType listenerType,
        ∃ kv ∈ project.Services, ∃ port ∈ kv.2.Ports,
          k = serviceListenerName lib kv.2 port) ∧
      (∀ k ∈ t.namesOfType targetGroupType,
        ∃ kv ∈ project.Services, ∃ port ∈ kv.2.Ports,
          k = serviceTargetGroupName lib kv.2 port) ∧
      ((∀ kv ∈ project.Services, kv.2.Ports = []) →
        t.namesOfType listenerType = [] ∧ t.namesOfType targetGroupType = []) ∧
      ((∀ kv ∈ project.Services, serviceName kv.2 = serviceName service → kv.2 = service) →
        ∃ s, t.service? (serviceName service) = some s ∧
          s.LoadBalancers.length = service.Ports.length ∧
          s.LoadBalancers = service.Ports.map fun port =>
            { ContainerName := service.Name
              ContainerPort := port.Target
              TargetGroupArn := lib.Ref (serviceTargetGroupName lib service port) }) := by
  have hn := convert_keys_nodup hconv
  have hl : ∀ port ∈ service.Ports,
      ∃ l, t.get (serviceListenerName lib service port) = some (.listener l) :=
    fun port hp => convert_listener_present hconv hs hp
  have hg : ∀ port ∈ service.Ports,
      ∃ g, t.get (serviceTargetGroupName lib service port) = some (.targetGroup g) :=
    fun port hp => convert_targetGroup_present hconv hs hp
  refine ⟨?_, ?_, ?_, ?_, ?_, ?_, ?_⟩
  · intro port hp
    obtain ⟨l, hl'⟩ := hl port hp
    obtain ⟨g, hg'⟩ := hg port hp
    simp [Template.listener?, Template.targetGroup?, hl', hg']
  · intro hnd
    rw [count_names_of_type hn hnd, List.length_map]
    intro k hk
    obtain ⟨port, hp, rfl⟩ := List.mem_map.mp hk
    obtain ⟨l, hl'⟩ := hl port hp
    exact ⟨_, hl', rfl⟩
  · intro hnd
    rw [count_names_of_type hn hnd, List.length_map]
    intro k hk
    obtain ⟨port, hp, rfl⟩ := List.mem_map.mp hk
    obtain ⟨g, hg'⟩ := hg port hp
    exact ⟨_, hg', rfl⟩
  · exact fun k hk => (convert_names_of_type hconv).1 hk
  · exact fun k hk => (convert_names_of_type hconv).2.1 hk
  · intro hnone
    constructor
    · apply List.eq_nil_iff_forall_not_mem.mpr
      intro k hk
      obtain ⟨kv, hkv, port, hp, _⟩ := (convert_names_of_type hconv).1 hk
      rw [hnone kv hkv] at hp
      cases hp
    · apply List.eq_nil_iff_forall_not_mem.mpr
      intro k hk
      obtain ⟨kv, hkv, port, hp, _⟩ := (convert_names_of_type hconv).2.1 hk
      rw [hnone kv hkv] at hp
      cases hp
  · intro huniq
    obtain ⟨r', hget, kv', hkv', hw⟩ := convert_written hconv hs
      (ecsService_mem_serviceWrites lib project service (resourcesOf project))
    have heq := (serviceWrite_of_tail hw).2.2 (tail_serviceName service)
    obtain ⟨hname, hr⟩ := Prod.mk.inj heq
    have hsame : kv'.2 = service := huniq kv' hkv' hname.symm
    rw [hsame] at hr
    refine ⟨_, by rw [Template.service?, hget, hr]; rfl, ?_, rfl⟩
    simp [createServiceLoadBalancers]

theorem port_fan_out_witness :
    convert goLib (projectOf "demo" [webService [tcpPort 80 "80", tcpPort 443 "443"]]) =
        .ok ((convert goLib
          (projectOf "demo" [webService [tcpPort 80 "80", tcpPort 443 "443"]])).getD
            NewTemplate) ∧
      ((((convert goLib
          (projectOf "demo" [webService [tcpPort 80 "80", tcpPort 443 "443"]])).getD
            NewTemplate).namesOfType listenerType).filter fun k =>
          decide (k ∈ (webService [tcpPort 80 "80", tcpPort 443 "443"]).Ports.map
            (serviceListenerName goLib
              (webService [tcpPort 80 "80", tcpPort 443 "443"])))).length = 2 ∧
      ((((convert goLib
          (projectOf "demo" [webService [tcpPort 80 "80", tcpPort 443 "443"]])).getD
            NewTemplate).namesOfType targetGroupType).filter fun k =>
          decide (k ∈ (webService [tcpPort 80 "80", tcpPort 443 "443"]).Ports.map
            (serviceTargetGroupName goLib
              (webService [tcpPort 80 "80", tcpPort 443 "443"])))).length = 2 ∧
      (∃ s, ((convert goLib
          (projectOf "demo" [webService [tcpPort 80 "80", tcpPort 443 "443"]])).getD
            NewTemplate).service? "WebService" = some s ∧ s.LoadBalancers.length = 2) :=
  ⟨rfl,
    (port_fan_out goLib (projectOf "demo" [webService [tcpPort 80 "80", tcpPort 443 "443"]])
      _ "web" (webService [tcpPort 80 "80", tcpPort 443 "443"]) rfl
      (List.Mem.head _)).2.1 (by decide),
    (port_fan_out goLib (projectOf "demo" [webService [tcpPort 80 "80", tcpPort 443 "443"]])
      _ "web" (webService [tcpPort 80 "80", tcpPort 443 "443"]) rfl
      (List.Mem.head _)).2.2.1 (by decide),
    let ⟨s, h1, h2, _⟩ :=
      (port_fan_out goLib
        (projectOf "demo" [webService [tcpPort 80 "80", tcpPort 443 "443"]])
        _ "web" (webService [tcpPort 80 "80", tcpPort 443 "443"]) rfl
        (List.Mem.head _)).2.2.2.2.2.2
        (fun kv hkv _ => by
          rcases List.mem_singleton.mp hkv with rfl
          rfl)
    ⟨s, h1, h2⟩⟩

/-! ## Autoscaling -/

theorem acceptedAutoscaling_of_absent (lib : Lib) (service : ServiceConfig)
    (h : service.Deploy = none ∨
      ∃ deploy, service.Deploy = some deploy ∧
        mapGet extensionAutoScaling deploy.Extensions = none) :
    acceptedAutoscaling lib service = none := by
  rcases h with h | ⟨deploy, hd, hv⟩
  · simp [acceptedAutoscaling, h]
  · simp [acceptedAutoscaling, hd, hv]

/-- C10: for a service whose deploy section carries a decodable autoscaling
extension {memory, cpu, min, max}, `createAutoscalingPolicy` fails exactly when
memory and cpu are both non-zero or max is zero; when it fails on a service of
the project, `convert` returns no template; when the extension is absent it
returns the template unchanged, and a project none of whose services carries
the extension gets no scalable target, no scaling policy and no role trusted by
the autoscaling service. -/
theorem createAutoscalingPolicy_fails_iff (lib : Lib) (project : Project)
    (template : Template) (service : ServiceConfig) :
    (∀ deploy v config, service.Deploy = some deploy →
        mapGet extensionAutoScaling deploy.Extensions = some v →
        lib.decodeAutoscaling v = .ok config →
        ((∃ e, createAutoscalingPolicy lib project template service = .error e) ↔
          ((config.Memory ≠ 0 ∧ config.CPU ≠ 0) ∨ config.Max = 0))) ∧
      (∀ key e, (key, service) ∈ project.Services →
        createAutoscalingPolicy lib project template service = .error e →
        ∀ t, convert lib project ≠ .ok t) ∧
      ((service.Deploy = none ∨
          ∃ deploy, service.Deploy = some deploy ∧
            mapGet extensionAutoScaling deploy.Extensions = none) →
        createAutoscalingPolicy lib project template service = .ok template) ∧
      (∀ t, convert lib project = .ok t →
        (∀ kv ∈ project.Services, kv.2.Deploy = none ∨
          ∃ deploy, kv.2.Deploy = some deploy ∧
            mapGet extensionAutoScaling deploy.Extensions = none) →
        t.namesOfType scalableTargetType = [] ∧ t.namesOfType scalingPolicyType = [] ∧
          ∀ k r, t.get k = some (.role r) →
            r.AssumeRoleService ≠ "application-autoscaling.amazonaws.com") := by
  refine ⟨?_, ?_, ?_, ?_⟩
  · intro deploy v config hd hv hc
    exact createAutoscalingPolicy_error_iff lib project template service deploy v config
      hd hv hc
  · intro key e hs herr t ht
    exact ((convert_ok ht).2.2 (key, service) hs).2 template e herr
  · rintro (h | ⟨deploy, hd, hv⟩)
    · simp [createAutoscalingPolicy, h]
    · simp [createAutoscalingPolicy, hd, hv]
  · intro t ht habsent
    have hnone : ∀ kv ∈ project.Services, acceptedAutoscaling lib kv.2 = none :=
      fun kv hkv => acceptedAutoscaling_of_absent lib kv.2 (habsent kv hkv)
    refine ⟨?_, ?_, ?_⟩
    · apply List.eq_nil_iff_forall_not_mem.mpr
      intro k hk
      obtain ⟨kv, hkv, hsome⟩ := (convert_names_of_type ht).2.2.1 hk
      rw [hnone kv hkv] at hsome
      cases hsome
    · apply List.eq_nil_iff_forall_not_mem.mpr
      intro k hk
      obtain ⟨kv, hkv, hsome⟩ := (convert_names_of_type ht).2.2.2 hk
      rw [hnone kv hkv] at hsome
      cases hsome
    · intro k r hget
      rcases convert_entry ht hget with hb | ⟨kv, hkv, hw⟩
      · rcases baseTemplate_get _ _ _ _ hb with ⟨_, _, _, _, _, h⟩ | ⟨_, _, _, h⟩ |
          ⟨_, _, _, h⟩ <;> cases h
      · have hacc := hnone kv hkv
        rcases mem_serviceWrites.mp hw with h | h | h | h | ⟨port, hp, nw, hnw, h⟩ |
          ⟨port, hp, h⟩ | ⟨port, hp, h⟩ | h | ⟨config, hc, _⟩
        · cases (Prod.mk.inj h).2
        · cases (Prod.mk.inj h).2
        · have hr := (Prod.mk.inj h).2
          simp only [taskExecutionRole, CfnResource.role.injEq] at hr
          subst hr
          simp
        · have hr := (Prod.mk.inj h).2
          simp only [taskRole, CfnResource.role.injEq] at hr
          subst hr
          simp
        · cases (Prod.mk.inj h).2
        · cases (Prod.mk.inj h).2
        · cases (Prod.mk.inj h).2
        · cases (Prod.mk.inj h).2
        · rw [hacc] at hc
          cases hc

theorem createAutoscalingPolicy_fails_iff_witness :
    ((∃ e, createAutoscalingPolicy goLib
          (projectOf "demo"
            [autoscaledService (.map [("cpu", .int 75), ("memory", .int 80), ("max", .int 10)])])
          NewTemplate
          (autoscaledService (.map [("cpu", .int 75), ("memory", .int 80), ("max", .int 10)])) =
        .error e) ↔
        ((((80 : Int) ≠ 0 ∧ (75 : Int) ≠ 0) ∨ (10 : Int) = 0))) ∧
      (∀ t, convert goLib
        (projectOf "demo"
          [autoscaledService (.map [("cpu", .int 75), ("memory", .int 80), ("max", .int 10)])]) ≠
        .ok t) ∧
      createAutoscalingPolicy goLib (projectOf "demo" [plainService "test" "nginx"])
          NewTemplate (plainService "test" "nginx") = .ok NewTemplate ∧
      ((convert goLib (projectOf "demo" [plainService "test" "nginx"])).getD
          NewTemplate).namesOfType scalableTargetType = [] :=
  ⟨(createAutoscalingPolicy_fails_iff goLib
      (projectOf "demo"
        [autoscaledService (.map [("cpu", .int 75), ("memory", .int 80), ("max", .int 10)])])
      NewTemplate
      (autoscaledService (.map [("cpu", .int 75), ("memory", .int 80), ("max", .int 10)]))).1
      _ _ ⟨80, 75, 0, 10⟩ rfl rfl rfl,
    (createAutoscalingPolicy_fails_iff goLib
      (projectOf "demo"
        [autoscaledService (.map [("cpu", .int 75), ("memory", .int 80), ("max", .int 10)])])
      NewTemplate
      (autoscaledService (.map [("cpu", .int 75), ("memory", .int 80), ("max", .int 10)]))).2.1
      "foo" errBothTargets (List.Mem.head _) rfl,
    (createAutoscalingPolicy_fails_iff goLib (projectOf "demo" [plainService "test" "nginx"])
      NewTemplate (plainService "test" "nginx")).2.2.1 (Or.inl rfl),
    ((createAutoscalingPolicy_fails_iff goLib (projectOf "demo" [plainService "test" "nginx"])
      NewTemplate (plainService "test" "nginx")).2.2.2 _ rfl
      (fun kv hkv => by
        rcases List.mem_singleton.mp hkv with rfl
        exact Or.inl rfl)).1⟩

/-! ## End-to-end example -/

/-- C13: the project `demo` with the single service `web` (image nginx, port
80/tcp published, no limits, no autoscaling) and the load balancer, subnets and
VPC supplied converts successfully; its template holds exactly the cluster, the
namespace, the log group, the discovery entry, the task definition (Cpu "256",
Memory "512"), the execution role, the task role, one ingress rule, one
listener, one target group and the service (DesiredCount 1), and no scalable
target, scaling policy or autoscaling role. -/
theorem convert_demo_project :
    (convert goLib demoProject).isOk = true ∧
      (convert goLib demoProject).template?.map Template.inventory =
        some
          [ ("CloudMap", "AWS::ServiceDiscovery::PrivateDnsNamespace"),
            ("Cluster", "AWS::ECS::Cluster"),
            ("LogGroup", "AWS::Logs::LogGroup"),
            ("WebServiceDiscoveryEntry", "AWS::ServiceDiscovery::Service"),
            ("WebTaskDefinition", "AWS::ECS::TaskDefinition"),
            ("WebTaskExecutionRole", "AWS::IAM::Role"),
            ("WebTaskRole", "AWS::IAM::Role"),
            ("Default80Ingress", "AWS::EC2::SecurityGroupIngress"),
            ("WebTCP80Listener", "AWS::ElasticLoadBalancingV2::Listener"),
            ("WebTCP80TargetGroup", "AWS::ElasticLoadBalancingV2::TargetGroup"),
            ("WebService", "AWS::ECS::Service") ] ∧
      ((convert goLib demoProject).template?.bind fun t =>
          t.taskDefinition? "WebTaskDefinition").map (fun d => (d.Cpu, d.Memory)) =
        some ("256", "512") ∧
      ((convert goLib demoProject).template?.bind fun t => t.service? "WebService").map
          (fun s => s.DesiredCount) = some 1 ∧
      (convert goLib demoProject).template?.map
          (fun t => (t.namesOfType listenerType, t.namesOfType targetGroupType)) =
        some (["WebTCP80Listener"], ["WebTCP80TargetGroup"]) ∧
      (convert goLib demoProject).template?.map
          (fun t => (t.namesOfType scalableTargetType, t.namesOfType scalingPolicyType,
            t.role? (serviceAutoScalingRoleName (webService [tcpPort 80 "80"])) |>.isSome)) =
        some ([], [], false) ∧
      ((convert goLib demoProject).template?.map fun t =>
          (["WebTaskExecutionRole", "WebTaskRole"].map fun name =>
            (t.role? name).map fun r => r.AssumeRoleService)) =
        some [some "ecs-tasks.amazonaws.com", some "ecs-tasks.amazonaws.com"] := by
  refine ⟨by decide, by decide, by decide, by decide, by decide, by decide, by decide⟩

/-! ## Autoscaling resources -/

theorem acceptedAutoscaling_of_decoded {lib : Lib} {service : ServiceConfig}
    {deploy : DeployConfig} {v : Value} {config : AutoscalingConfig}
    (hd : service.Deploy = some deploy)
    (hv : mapGet extensionAutoScaling deploy.Extensions = some v)
    (hc : lib.decodeAutoscaling v = .ok config)
    (hok : ¬ (config.Memory ≠ 0 ∧ config.CPU ≠ 0)) (hmax : config.Max ≠ 0) :
    acceptedAutoscaling lib service = some config := by
  simp only [acceptedAutoscaling, hd, hv, hc, if_neg hok, if_neg hmax]

theorem acceptedAutoscaling_some {lib : Lib} {service : ServiceConfig}
    {config : AutoscalingConfig} (h : acceptedAutoscaling lib service = some config) :
    ¬ (config.Memory ≠ 0 ∧ config.CPU ≠ 0) ∧ config.Max ≠ 0 := by
  unfold acceptedAutoscaling at h
  cases hd : service.Deploy with
  | none => rw [hd] at h; cases h
  | some deploy =>
    rw [hd] at h
    simp only at h
    cases hv : mapGet extensionAutoScaling deploy.Extensions with
    | none => rw [hv] at h; cases h
    | some v =>
      rw [hv] at h
      simp only at h
      cases hc : lib.decodeAutoscaling v with
      | error e => rw [hc] at h; cases h
      | ok config' =>
        rw [hc] at h
        simp only at h
        by_cases h1 : config'.Memory ≠ 0 ∧ config'.CPU ≠ 0
        · rw [if_pos h1] at h; cases h
        · rw [if_neg h1] at h
          by_cases h2 : config'.Max = 0
          · rw [if_pos h2] at h; cases h
          · rw [if_neg h2] at h
            cases h
            exact ⟨h1, h2⟩

theorem scalableTarget_name_ne_policy_name (service : ServiceConfig) :
    serviceScalableTargetName service ≠ serviceScalingPolicyName service := by
  intro h
  have h1 := tail_serviceScalableTargetName service
  rw [h, tail_serviceScalingPolicyName] at h1
  exact absurd h1 (by decide)

/-- An accepted autoscaling extension: `createAutoscalingPolicy` succeeds and
the template it returns holds the scalable target and the scaling policy of the
service under their names. -/
theorem createAutoscalingPolicy_accepted {lib : Lib} (project : Project) (t : Template)
    {service : ServiceConfig} {config : AutoscalingConfig}
    (h : acceptedAutoscaling lib service = some config) :
    ∃ t', createAutoscalingPolicy lib project t service = .ok t' ∧
      t'.get (serviceScalableTargetName service) = some (scalableTarget lib service config) ∧
      t'.get (serviceScalingPolicyName service) = some (scalingPolicy lib service config) := by
  have hcfg := acceptedAutoscaling_some h
  unfold acceptedAutoscaling at h
  unfold createAutoscalingPolicy
  cases hd : service.Deploy with
  | none => rw [hd] at h; cases h
  | some deploy =>
    rw [hd] at h
    simp only at h ⊢
    cases hv : mapGet extensionAutoScaling deploy.Extensions with
    | none => rw [hv] at h; cases h
    | some v =>
      rw [hv] at h
      simp only at h ⊢
      cases hc : lib.decodeAutoscaling v with
      | error e => rw [hc] at h; cases h
      | ok config' =>
        rw [hc] at h
        simp only at h ⊢
        have heq : config' = config := by
          by_cases h1 : config'.Memory ≠ 0 ∧ config'.CPU ≠ 0
          · rw [if_pos h1] at h; cases h
          · rw [if_neg h1] at h
            by_cases h2 : config'.Max = 0
            · rw [if_pos h2] at h; cases h
            · rw [if_neg h2] at h
              cases h
              rfl
        subst heq
        rw [if_neg hcfg.1, if_neg hcfg.2]
        refine ⟨_, rfl, ?_, ?_⟩
        · rw [Template.get_set_ne _ _ (scalableTarget_name_ne_policy_name service)]
          exact Template.get_set_self _ _ _
        · exact Template.get_set_self _ _ _

theorem string_append_right_cancel {a b s : String} (h : a ++ s = b ++ s) : a = b := by
  have hd : (a ++ s).data = (b ++ s).data := by rw [h]
  simp only [String.data_append] at hd
  exact String.ext (List.append_cancel_right hd)

/-- The name of a write of `createService` tells its kind, for the two
autoscaling resources. -/
theorem serviceWrite_of_autoscaling_tail {lib : Lib} {project : Project}
    {service : ServiceConfig} {res : resources} {w : String × CfnResource}
    (h : w ∈ serviceWrites lib project service res) :
    (nameTail 2 w.1 = ['t', 'e'] →
        ∃ config, acceptedAutoscaling lib service = some config ∧
          w = (serviceScalableTargetName service, scalableTarget lib service config)) ∧
      (nameTail 2 w.1 = ['y', 'c'] →
        ∃ config, acceptedAutoscaling lib service = some config ∧
          w = (serviceScalingPolicyName service, scalingPolicy lib service config)) := by
  rcases mem_serviceWrites.mp h with rfl | rfl | rfl | rfl | ⟨port, hp, kv, hkv, rfl⟩ |
    ⟨port, hp, rfl⟩ | ⟨port, hp, rfl⟩ | rfl | ⟨config, hc, rfl | rfl | rfl⟩
  · simp [tail_serviceDiscoveryEntryName]
  · simp [tail_serviceTaskDefinitionName]
  · simp [tail_serviceTaskExecutionRoleName]
  · simp [tail_serviceTaskRoleName]
  · simp [tail_ingressName]
  · simp [tail_serviceListenerName]
  · simp [tail_serviceTargetGroupName]
  · simp [tail_serviceName]
  · simp [tail_serviceAutoScalingRoleName]
  · simp only [tail_serviceScalableTargetName]
    exact ⟨fun _ => ⟨config, hc, rfl⟩, by simp⟩
  · simp only [tail_serviceScalingPolicyName]
    exact ⟨by simp, fun _ => ⟨config, hc, rfl⟩⟩

/-- In the template of a project, a service with an accepted autoscaling
extension, whose normalized name no other service of the project shares, has
its scalable target and its scaling policy under their names. -/
theorem convert_autoscaling {lib : Lib} {project : Project} {t : Template}
    (hconv : convert lib project = .ok t) {key : String} {service : ServiceConfig}
    (hs : (key, service) ∈ project.Services)
    (huniq : ∀ kv ∈ project.Services,
      normalizeResourceName kv.2.Name = normalizeResourceName service.Name →
        kv.2 = service)
    {config : AutoscalingConfig} (h : acceptedAutoscaling lib service = some config) :
    t.get (serviceScalableTargetName service) = some (scalableTarget lib service config) ∧
      t.get (serviceScalingPolicyName service) = some (scalingPolicy lib service config) := by
  have hw : ∀ w, (w = (serviceScalableTargetName service, scalableTarget lib service config) ∨
      w = (serviceScalingPolicyName service, scalingPolicy lib service config)) →
      w ∈ serviceWrites lib project service (resourcesOf project) := by
    intro w hw
    apply mem_serviceWrites.mpr
    refine Or.inr (Or.inr (Or.inr (Or.inr (Or.inr (Or.inr (Or.inr (Or.inr ?_)))))))
    exact ⟨config, h, Or.inr hw⟩
  constructor
  · obtain ⟨r', hget, kv', hkv', hw'⟩ := convert_written hconv hs (hw _ (Or.inl rfl))
    obtain ⟨config', hc', heq⟩ :=
      (serviceWrite_of_autoscaling_tail hw').1 (tail_serviceScalableTargetName service)
    obtain ⟨hname, hr⟩ := Prod.mk.inj heq
    have hsame : kv'.2 = service :=
      huniq kv' hkv' (string_append_right_cancel hname).symm
    rw [hsame] at hc' hr
    rw [h] at hc'
    cases hc'
    rw [hget, hr]
  · obtain ⟨r', hget, kv', hkv', hw'⟩ := convert_written hconv hs (hw _ (Or.inr rfl))
    obtain ⟨config', hc', heq⟩ :=
      (serviceWrite_of_autoscaling_tail hw').2 (tail_serviceScalingPolicyName service)
    obtain ⟨hname, hr⟩ := Prod.mk.inj heq
    have hsame : kv'.2 = service :=
      huniq kv' hkv' (string_append_right_cancel hname).symm
    rw [hsame] at hc' hr
    rw [h] at hc'
    cases hc'
    rw [hget, hr]

/-- C11, as stated, fails: in the project `demo` the service `foo` has the
autoscaling extension cpu 75 / max 10 and the service `f-oo`, visited after
it, has cpu 50 / max 5; both names normalize to `Foo`, so the later writes
replace the earlier ones and the template `convert` returns holds
`FooScalableTarget` with MaxCapacity 5 and `FooScalingPolicy` with
TargetValue 50, not the 10 and 75 of `foo`. -/
theorem autoscaling_cpu_target_counterexample :
    (acceptedAutoscaling goLib (scaledService "foo" 3 75 10)).map
        (fun c => (c.CPU, c.Max, c.Memory)) = some (75, 10, 0) ∧
      normalizeResourceName "foo" = normalizeResourceName "f-oo" ∧
      serviceScalableTargetName (scaledService "foo" 3 75 10) = "FooScalableTarget" ∧
      serviceScalingPolicyName (scaledService "foo" 3 75 10) = "FooScalingPolicy" ∧
      ((convert goLib shadowedProject).template?.bind
          fun t => t.scalableTarget? "FooScalableTarget").map (fun x => x.MaxCapacity) =
        some 5 ∧
      ((convert goLib shadowedProject).template?.bind
          fun t => t.scalingPolicy? "FooScalingPolicy").map
          (fun p => (p.PredefinedMetricType, p.TargetValue)) =
        some ("ECSServiceAverageCPUUtilization", 50) := by
  refine ⟨by decide, by decide, by decide, by decide, by decide, by decide⟩

/-- C11, amended: a service whose autoscaling extension decodes to a non-zero
cpu target `c`, a non-zero max `M` and no memory target: `createAutoscalingPolicy`
succeeds and writes the scalable target `<Svc>ScalableTarget` with MaxCapacity
`M`, MinCapacity `min` and a dependency on the service resource, and the
target-tracking policy `<Svc>ScalingPolicy` on the CPU-utilization metric with
TargetValue `c` and 60-second cooldowns; the template `convert` returns for a
project holds both under these names for each such service whose normalized
name no other service of the project shares. -/
theorem autoscaling_cpu_target (lib : Lib) (project : Project) (template : Template)
    (service : ServiceConfig) (deploy : DeployConfig) (v : Value)
    (config : AutoscalingConfig) (hd : service.Deploy = some deploy)
    (hv : mapGet extensionAutoScaling deploy.Extensions = some v)
    (hc : lib.decodeAutoscaling v = .ok config)
    (_hcpu : config.CPU ≠ 0) (hmax : config.Max ≠ 0) (hmem : config.Memory = 0) :
    (∃ t', createAutoscalingPolicy lib project template service = .ok t' ∧
        t'.scalableTarget? (normalizeResourceName service.Name ++ "ScalableTarget") =
          some
            { MaxCapacity := config.Max
              MinCapacity := config.Min
              ResourceId :=
                "service/" ++ lib.Ref "Cluster" ++ "/" ++ lib.GetAtt (serviceName service) "Name"
              RoleARN := lib.GetAtt (serviceAutoScalingRoleName service) "Arn"
              ScalableDimension := "ecs:service:DesiredCount"
              ServiceNamespace := "ecs"
              DependsOn := [serviceName service] } ∧
        t'.scalingPolicy? (normalizeResourceName service.Name ++ "ScalingPolicy") =
          some
            { PolicyType := "TargetTrackingScaling"
              PolicyName := serviceScalingPolicyName service
              ScalingTargetId := lib.Ref (serviceScalableTargetName service)
              PredefinedMetricType := "ECSServiceAverageCPUUtilization"
              ScaleOutCooldown := 60
              ScaleInCooldown := 60
              TargetValue := config.CPU }) ∧
      (∀ key t, (key, service) ∈ project.Services → convert lib project = .ok t →
        (∀ kv ∈ project.Services,
          normalizeResourceName kv.2.Name = normalizeResourceName service.Name →
            kv.2 = service) →
        (t.scalableTarget? (serviceScalableTargetName service)).map
            (fun x => (x.MaxCapacity, x.MinCapacity, x.DependsOn)) =
          some (config.Max, config.Min, [serviceName service]) ∧
        (t.scalingPolicy? (serviceScalingPolicyName service)).map
            (fun p => (p.PolicyType, p.PredefinedMetricType, p.TargetValue,
              p.ScaleInCooldown, p.ScaleOutCooldown)) =
          some ("TargetTrackingScaling", "ECSServiceAverageCPUUtilization", config.CPU,
            60, 60)) := by
  have hacc : acceptedAutoscaling lib service = some config :=
    acceptedAutoscaling_of_decoded hd hv hc (fun h => h.1 hmem) hmax
  have hpol : scalingPolicy lib service config =
      .scalingPolicy
        { PolicyType := "TargetTrackingScaling"
          PolicyName := serviceScalingPolicyName service
          ScalingTargetId := lib.Ref (serviceScalableTargetName service)
          PredefinedMetricType := "ECSServiceAverageCPUUtilization"
          ScaleOutCooldown := 60
          ScaleInCooldown := 60
          TargetValue := config.CPU } := by
    simp [scalingPolicy, hmem]
  constructor
  · obtain ⟨t', hok, h1, h2⟩ := createAutoscalingPolicy_accepted project template hacc
    refine ⟨t', hok, ?_, ?_⟩
    · show t'.scalableTarget? (serviceScalableTargetName service) = _
      rw [Template.scalableTarget?, h1]; rfl
    · show t'.scalingPolicy? (serviceScalingPolicyName service) = _
      rw [Template.scalingPolicy?, h2, hpol]
  · intro key t hs hconv huniq
    obtain ⟨h1, h2⟩ := convert_autoscaling hconv hs huniq hacc
    constructor
    · rw [Template.scalableTarget?, h1]; rfl
    · rw [Template.scalingPolicy?, h2, hpol]; rfl

theorem autoscaling_cpu_target_witness :
    Option.map (fun x => (x.MaxCapacity, x.MinCapacity, x.DependsOn))
        (((convert goLib
            (projectOf "demo"
              [autoscaledService (.map [("cpu", .int 75), ("max", .int 10)])])).getD
          NewTemplate).scalableTarget? "FooScalableTarget") =
      some (10, 0, ["FooService"]) ∧
    Option.map
        (fun p => (p.PolicyType, p.PredefinedMetricType, p.TargetValue,
          p.ScaleInCooldown, p.ScaleOutCooldown))
        (((convert goLib
            (projectOf "demo"
              [autoscaledService (.map [("cpu", .int 75), ("max", .int 10)])])).getD
          NewTemplate).scalingPolicy? "FooScalingPolicy") =
      some ("TargetTrackingScaling", "ECSServiceAverageCPUUtilization", 75, 60, 60) :=
  (autoscaling_cpu_target goLib
    (projectOf "demo" [autoscaledService (.map [("cpu", .int 75), ("max", .int 10)])])
    NewTemplate (autoscaledService (.map [("cpu", .int 75), ("max", .int 10)]))
    _ _ ⟨0, 75, 0, 10⟩ rfl rfl rfl (by decide) (by decide) rfl).2 "foo" _
    (List.Mem.head _) rfl
    (fun kv hkv _ => by
      rcases List.mem_singleton.mp hkv with rfl
      rfl)

/-- C12: an accepted autoscaling extension with a non-zero memory target has
a zero cpu target, and its scaling policy tracks the memory-utilization metric
ECSServiceAverageMemoryUtilization, not the CPU metric, with TargetValue the
memory target: `createAutoscalingPolicy` writes that policy, and the template
of a project holds it for each such service whose normalized name no other
service shares. -/
theorem autoscaling_memory_target (lib : Lib) (project : Project) (template : Template)
    (service : ServiceConfig) (config : AutoscalingConfig)
    (hacc : acceptedAutoscaling lib service = some config) (hmem : config.Memory ≠ 0) :
    config.CPU = 0 ∧
      "ECSServiceAverageMemoryUtilization" ≠ "ECSServiceAverageCPUUtilization" ∧
      (∃ t', createAutoscalingPolicy lib project template service = .ok t' ∧
        t'.scalingPolicy? (serviceScalingPolicyName service) =
          some
            { PolicyType := "TargetTrackingScaling"
              PolicyName := serviceScalingPolicyName service
              ScalingTargetId := lib.Ref (serviceScalableTargetName service)
              PredefinedMetricType := "ECSServiceAverageMemoryUtilization"
              ScaleOutCooldown := 60
              ScaleInCooldown := 60
              TargetValue := config.Memory }) ∧
      (∀ key t, (key, service) ∈ project.Services → convert lib project = .ok t →
        (∀ kv ∈ project.Services,
          normalizeResourceName kv.2.Name = normalizeResourceName service.Name →
            kv.2 = service) →
        (t.scalingPolicy? (serviceScalingPolicyName service)).map
            (fun p => (p.PredefinedMetricType, p.TargetValue)) =
          some ("ECSServiceAverageMemoryUtilization", config.Memory)) := by
  have hcfg := acceptedAutoscaling_some hacc
  have hpol : scalingPolicy lib service config =
      .scalingPolicy
        { PolicyType := "TargetTrackingScaling"
          PolicyName := serviceScalingPolicyName service
          ScalingTargetId := lib.Ref (serviceScalableTargetName service)
          PredefinedMetricType := "ECSServiceAverageMemoryUtilization"
          ScaleOutCooldown := 60
          ScaleInCooldown := 60
          TargetValue := config.Memory } := by
    simp [scalingPolicy, hmem]
  refine ⟨?_, by decide, ?_, ?_⟩
  · by_contra hcpu
    exact hcfg.1 ⟨hmem, hcpu⟩
  · obtain ⟨t', hok, _, h2⟩ := createAutoscalingPolicy_accepted project template hacc
    exact ⟨t', hok, by rw [Template.scalingPolicy?, h2, hpol]⟩
  · intro key t hs hconv huniq
    obtain ⟨_, h2⟩ := convert_autoscaling hconv hs huniq hacc
    rw [Template.scalingPolicy?, h2, hpol]; rfl

theorem autoscaling_memory_target_witness :
    (⟨80, 0, 0, 4⟩ : AutoscalingConfig).CPU = 0 ∧
      Option.map (fun p => (p.PredefinedMetricType, p.TargetValue))
          (((convert goLib
              (projectOf "demo"
                [autoscaledService (.map [("memory", .int 80), ("max", .int 4)])])).getD
            NewTemplate).scalingPolicy? "FooScalingPolicy") =
        some ("ECSServiceAverageMemoryUtilization", 80) :=
  ⟨(autoscaling_memory_target goLib
      (projectOf "demo" [autoscaledService (.map [("memory", .int 80), ("max", .int 4)])])
      NewTemplate (autoscaledService (.map [("memory", .int 80), ("max", .int 4)]))
      ⟨80, 0, 0, 4⟩ rfl (by decide)).1,
    (autoscaling_memory_target goLib
      (projectOf "demo" [autoscaledService (.map [("memory", .int 80), ("max", .int 4)])])
      NewTemplate (autoscaledService (.map [("memory", .int 80), ("max", .int 4)]))
      ⟨80, 0, 0, 4⟩ rfl (by decide)).2.2.2 "foo" _ (List.Mem.head _) rfl
      (fun kv hkv _ => by
        rcases List.mem_singleton.mp hkv with rfl
        rfl)⟩

/-! ## The task-execution role -/

/-- C19: `createService` gives every execution role a one-element list of
inline policies, whatever the service declares: the secret identities computed
at the top of the function are never tested for emptiness.  The service
`test` declares neither pull credentials nor a secret, and its execution role
still carries the inline policy `testGrantAccessToSecrets`, with an empty
Resource list. -/
theorem executionRole_policy_always_attached :
    (∀ (project : Project) (service : ServiceConfig) (arns : List String),
        ∃ r, taskExecutionRole project service arns = .role r ∧ r.Policies.length = 1) ∧
      mapGet extensionPullCredentials (plainService "test" "nginx").Extensions = none ∧
      (plainService "test" "nginx").Secrets = [] ∧
      ((convert goLib (projectOf "demo" [plainService "test" "nginx"])).template?.bind
          fun t => t.role? "TestTaskExecutionRole").map
          (fun r => r.Policies.map fun p =>
            (p.PolicyName, p.PolicyDocument.actions?, p.PolicyDocument.resources?)) =
        some [("testGrantAccessToSecrets", some ["secretsmanager:GetSecretValue"], some [])] :=
  ⟨fun _ _ _ => ⟨_, rfl, rfl⟩, rfl, rfl, by decide⟩

theorem limitTemplate_length : limitTemplate.length = 51200 :=
  List.length_replicate _ _

theorem withTemplate_inline (remote : Remote) (name : String) (template : Bytes)
    (region : String) (callback : Option Bytes → Option String → Except String String)
    (h : template.length < cloudformationBytesLimit) :
    withTemplate remote name template region callback =
      (callback (some template) none, [.uploadedTemplateFunc (some template) none]) := by
  simp [withTemplate, h]

theorem withTemplate_create_fails (remote : Remote) (name : String) (template : Bytes)
    (region : String) (callback : Option Bytes → Option String → Except String String)
    (key err : String) (h : ¬ template.length < cloudformationBytesLimit)
    (hkey : remote.GenerateUUID = .ok key)
    (hcreate : remote.CreateBucket ("com.docker.compose." ++ key)
      (if region ≠ "us-east-1" then some region else none) = .error err) :
    withTemplate remote name template region callback =
      (.error err,
        [ .CreateBucket ("com.docker.compose." ++ key)
            (if region ≠ "us-east-1" then some region else none) ]) := by
  simp only [withTemplate, if_neg h, hkey, hcreate]

theorem withTemplate_upload_fails (remote : Remote) (name : String) (template : Bytes)
    (region : String) (callback : Option Bytes → Option String → Except String String)
    (key err : String) (h : ¬ template.length < cloudformationBytesLimit)
    (hkey : remote.GenerateUUID = .ok key)
    (hcreate : remote.CreateBucket ("com.docker.compose." ++ key)
      (if region ≠ "us-east-1" then some region else none) = .ok ())
    (hupload : remote.Upload ("com.docker.compose." ++ key) "template.yaml" template =
      .error err) :
    withTemplate remote name template region callback =
      (.error err,
        [ .CreateBucket ("com.docker.compose." ++ key)
            (if region ≠ "us-east-1" then some region else none),
          .Upload ("com.docker.compose." ++ key) "template.yaml" template
            "application/x-yaml" name ]) := by
  simp only [withTemplate, if_neg h, hkey, hcreate, hupload]

theorem withTemplate_staged (remote : Remote) (name : String) (template : Bytes)
    (region : String) (callback : Option Bytes → Option String → Except String String)
    (key : String) (upload : UploadOutput)
    (h : ¬ template.length < cloudformationBytesLimit)
    (hkey : remote.GenerateUUID = .ok key)
    (hcreate : remote.CreateBucket ("com.docker.compose." ++ key)
      (if region ≠ "us-east-1" then some region else none) = .ok ())
    (hupload : remote.Upload ("com.docker.compose." ++ key) "template.yaml" template =
      .ok upload) :
    withTemplate remote name template region callback =
      (callback none (some upload.Location),
        [ .CreateBucket ("com.docker.compose." ++ key)
            (if region ≠ "us-east-1" then some region else none),
          .Upload ("com.docker.compose." ++ key) "template.yaml" template
            "application/x-yaml" name,
          .uploadedTemplateFunc none (some upload.Location),
          .DeleteObject ("com.docker.compose." ++ key) "template.yaml" upload.VersionID,
          .DeleteBucket ("com.docker.compose." ++ key) ]) := by
  simp only [withTemplate, if_neg h, hkey, hcreate, hupload]

/-- C14: when the upload fails, `withTemplate` returns straight after it: the
staging bucket was created, and neither the bucket deletion nor any other call
follows, because the deferred cleanup is only registered after a successful
upload.  (When the upload succeeds, the object and the bucket are deleted after
the callback, whatever it returns.) -/
theorem withTemplate_upload_failure_leaves_bucket :
    withTemplate
        (remoteWith (.ok ()) (.error "upload failed") (.ok []) (.error "no change set"))
        "demo" limitTemplate "eu-west-1" (fun _ _ => .ok "stack-id") =
      (.error "upload failed",
        [ .CreateBucket "com.docker.compose.uuid" (some "eu-west-1"),
          .Upload "com.docker.compose.uuid" "template.yaml" limitTemplate
            "application/x-yaml" "demo" ]) ∧
      Call.DeleteBucket "com.docker.compose.uuid" ∉
        (withTemplate
          (remoteWith (.ok ()) (.error "upload failed") (.ok []) (.error "no change set"))
          "demo" limitTemplate "eu-west-1" (fun _ _ => .ok "stack-id")).2 ∧
      (∀ callback,
        (withTemplate
          (remoteWith (.ok ()) (.ok uploaded) (.ok []) (.error "no change set"))
          "demo" limitTemplate "eu-west-1" callback).2 =
          [ .CreateBucket "com.docker.compose.uuid" (some "eu-west-1"),
            .Upload "com.docker.compose.uuid" "template.yaml" limitTemplate
              "application/x-yaml" "demo",
            .uploadedTemplateFunc none (some "https://s3/template.yaml"),
            .DeleteObject "com.docker.compose.uuid" "template.yaml" none,
            .DeleteBucket "com.docker.compose.uuid" ]) := by
  have hlen : ¬ limitTemplate.length < cloudformationBytesLimit := by
    rw [limitTemplate_length]; decide
  have hfail := withTemplate_upload_fails
    (remoteWith (.ok ()) (.error "upload failed") (.ok []) (.error "no change set"))
    "demo" limitTemplate "eu-west-1" (fun _ _ => .ok "stack-id") "uuid" "upload failed"
    hlen rfl rfl rfl
  refine ⟨hfail, ?_, ?_⟩
  · rw [hfail]
    simp
  · intro callback
    rw [withTemplate_staged
      (remoteWith (.ok ()) (.ok uploaded) (.ok []) (.error "no change set"))
      "demo" limitTemplate "eu-west-1" callback "uuid" uploaded hlen rfl rfl rfl]
    rfl

/-- C15, as stated, fails: a template of exactly 51200 bytes for which the
bucket creation fails makes one `CreateBucket` call and nothing else: no
object is uploaded and nothing is submitted. -/
theorem withTemplate_threshold_counterexample :
    limitTemplate.length = 51200 ∧
      withTemplate
          (remoteWith (.error "bucket already exists") (.ok uploaded) (.ok [])
            (.error "no change set"))
          "demo" limitTemplate "eu-west-1" (fun _ _ => .ok "stack-id") =
        (.error "bucket already exists",
          [.CreateBucket "com.docker.compose.uuid" (some "eu-west-1")]) := by
  have hlen : ¬ limitTemplate.length < cloudformationBytesLimit := by
    rw [limitTemplate_length]; decide
  exact ⟨limitTemplate_length,
    withTemplate_create_fails
      (remoteWith (.error "bucket already exists") (.ok uploaded) (.ok [])
        (.error "no change set"))
      "demo" limitTemplate "eu-west-1" (fun _ _ => .ok "stack-id") "uuid"
      "bucket already exists" hlen rfl rfl⟩

/-- C15, amended: `withTemplate` submits the template inline (body = the
template bytes, no URL) and makes no other call if and only if the template is
shorter than 51200 bytes; for a template of 51200 bytes or more, when the
bucket name is generated and the bucket creation and the upload succeed, it
creates one bucket, uploads one object, submits the object's location instead
of a body, then deletes the object and the bucket, and returns the callback's
result unchanged, whether the callback succeeds or fails. -/
theorem withTemplate_staging_threshold (remote : Remote) (name : String) (template : Bytes)
    (region : String) (callback : Option Bytes → Option String → Except String String) :
    ((withTemplate remote name template region callback).2 =
          [.uploadedTemplateFunc (some template) none] ↔
        template.length < 51200) ∧
      (template.length < 51200 →
        (withTemplate remote name template region callback).1 =
          callback (some template) none) ∧
      (51200 ≤ template.length →
        ∀ key upload, remote.GenerateUUID = .ok key →
          remote.CreateBucket ("com.docker.compose." ++ key)
            (if region ≠ "us-east-1" then some region else none) = .ok () →
          remote.Upload ("com.docker.compose." ++ key) "template.yaml" template =
            .ok upload →
          withTemplate remote name template region callback =
            (callback none (some upload.Location),
              [ .CreateBucket ("com.docker.compose." ++ key)
                  (if region ≠ "us-east-1" then some region else none),
                .Upload ("com.docker.compose." ++ key) "template.yaml" template
                  "application/x-yaml" name,
                .uploadedTemplateFunc none (some upload.Location),
                .DeleteObject ("com.docker.compose." ++ key) "template.yaml"
                  upload.VersionID,
                .DeleteBucket ("com.docker.compose." ++ key) ])) := by
  refine ⟨?_, ?_, ?_⟩
  · constructor
    · intro hcalls
      by_contra hlen
      have hlen' : ¬ template.length < cloudformationBytesLimit := hlen
      simp only [withTemplate, if_neg hlen'] at hcalls
      cases hk : remote.GenerateUUID with
      | error e => rw [hk] at hcalls; cases hcalls
      | ok key =>
        rw [hk] at hcalls
        simp only at hcalls
        cases hc : remote.CreateBucket ("com.docker.compose." ++ key)
            (if region ≠ "us-east-1" then some region else none) with
        | error e => rw [hc] at hcalls; simp at hcalls
        | ok u =>
          rw [hc] at hcalls
          simp only at hcalls
          cases hu : remote.Upload ("com.docker.compose." ++ key) "template.yaml" template with
          | error e => rw [hu] at hcalls; simp at hcalls
          | ok up => rw [hu] at hcalls; simp at hcalls
    · intro hlen
      rw [withTemplate_inline remote name template region callback hlen]
  · intro hlen
    rw [withTemplate_inline remote name template region callback hlen]
  · intro hlen key upload hkey hcreate hupload
    exact withTemplate_staged remote name template region callback key upload
      (Nat.not_lt.mpr hlen) hkey hcreate hupload

theorem withTemplate_staging_threshold_witness :
    withTemplate (remoteWith (.ok ()) (.ok uploaded) (.ok []) (.error "no change set"))
        "demo" limitTemplate "us-east-1" (fun _ _ => .error "stack creation refused") =
      (.error "stack creation refused",
        [ .CreateBucket "com.docker.compose.uuid" none,
          .Upload "com.docker.compose.uuid" "template.yaml" limitTemplate
            "application/x-yaml" "demo",
          .uploadedTemplateFunc none (some "https://s3/template.yaml"),
          .DeleteObject "com.docker.compose.uuid" "template.yaml" none,
          .DeleteBucket "com.docker.compose.uuid" ]) ∧
      (withTemplate (remoteWith (.ok ()) (.ok uploaded) (.ok []) (.error "no change set"))
          "demo" [1, 2, 3] "us-east-1" (fun _ _ => .ok "stack-id")).1 = .ok "stack-id" :=
  ⟨(withTemplate_staging_threshold
      (remoteWith (.ok ()) (.ok uploaded) (.ok []) (.error "no change set"))
      "demo" limitTemplate "us-east-1" (fun _ _ => .error "stack creation refused")).2.2
      (by rw [limitTemplate_length]) "uuid" uploaded rfl rfl rfl,
    (withTemplate_staging_threshold
      (remoteWith (.ok ()) (.ok uploaded) (.ok []) (.error "no change set"))
      "demo" [1, 2, 3] "us-east-1" (fun _ _ => .ok "stack-id")).2.1 (by decide)⟩

/-! ## Stack existence and update -/

/-- C16: `StackExists` answers (false, no error) to every failure of the stack
query, not only to 'Stack with ID <name> does not exist': both branches of its
error handling return `false, nil`.  With a query refused for lack of
permission, `Up` therefore goes on to create the stack. -/
theorem stackExists_swallows_every_error :
    (∀ (remote : Remote) (name err : String), remote.DescribeStacks name = .error err →
        StackExists remote name = (.ok false, [.DescribeStacks name])) ∧
      startsWith "AccessDenied: not authorized to perform cloudformation:DescribeStacks"
          ("ValidationError: Stack with ID " ++ "demo" ++ " does not exist") = false ∧
      StackExists
          (remoteWith (.ok ()) (.ok uploaded)
            (.error "AccessDenied: not authorized to perform cloudformation:DescribeStacks")
            (.error "no change set"))
          "demo" =
        (.ok false, [.DescribeStacks "demo"]) ∧
      Up goLib
          (remoteWith (.ok ()) (.ok uploaded)
            (.error "AccessDenied: not authorized to perform cloudformation:DescribeStacks")
            (.error "no change set"))
          "demo" "eu-west-1" (.ok [1, 2, 3]) =
        (.ok (), [.DescribeStacks "demo", .uploadedTemplateFunc (some [1, 2, 3]) none]) := by
  refine ⟨?_, by decide, rfl, rfl⟩
  intro remote name err h
  simp only [StackExists, h]
  split <;> rfl

/-- C17: when the described change set's status reason begins with "The
submitted information didn't contain changes.", `UpdateStack` returns success
after the one `DescribeChangeSet` call and never calls `ExecuteChangeSet`. -/
theorem updateStack_no_changes (remote : Remote) (changeset : String)
    (desc : DescribeChangeSetOutput) (reason : String)
    (hdesc : remote.DescribeChangeSet changeset none = .ok desc)
    (hreason : desc.StatusReason = some reason)
    (hstart : startsWith reason noChangesReason = true) :
    UpdateStack remote changeset = (.ok (), [.DescribeChangeSet changeset none]) ∧
      ∀ c, Call.ExecuteChangeSet c ∉ (UpdateStack remote changeset).2 := by
  have h : UpdateStack remote changeset = (.ok (), [.DescribeChangeSet changeset none]) := by
    simp only [UpdateStack, hdesc, hreason, hstart, if_true]
  refine ⟨h, ?_⟩
  intro c
  rw [h]
  simp

theorem updateStack_no_changes_witness :
    UpdateStack
        (remoteWith (.ok ()) (.ok uploaded) (.ok ["demo"])
          (.ok ⟨"FAILED",
            some ("The submitted information didn\x27t contain changes. " ++
              "Submit different information to create a change set.")⟩))
        "changeset-id" =
      (.ok (), [.DescribeChangeSet "changeset-id" none]) ∧
    ∀ c, Call.ExecuteChangeSet c ∉
      (UpdateStack
        (remoteWith (.ok ()) (.ok uploaded) (.ok ["demo"])
          (.ok ⟨"FAILED",
            some ("The submitted information didn\x27t contain changes. " ++
              "Submit different information to create a change set.")⟩))
        "changeset-id").2 :=
  updateStack_no_changes _ "changeset-id" _ _ rfl rfl (by decide)

/-- C18: a change set that was described successfully and carries no status
reason makes `UpdateStack` panic on `*desc.StatusReason`, before any
`ExecuteChangeSet` call.  (With a status reason that does not begin with the
'no changes' text, it calls `ExecuteChangeSet` once and returns its result.) -/
theorem updateStack_without_status_reason_panics :
    UpdateStack
        (remoteWith (.ok ()) (.ok uploaded) (.ok ["demo"])
          (.ok ⟨"CREATE_COMPLETE", none⟩))
        "changeset-id" =
      (.panic "invalid memory address or nil pointer dereference",
        [.DescribeChangeSet "changeset-id" none]) ∧
      (∀ (remote : Remote) (changeset : String) (desc : DescribeChangeSetOutput)
        (reason : String),
        remote.DescribeChangeSet changeset none = .ok desc →
        desc.StatusReason = some reason →
        startsWith reason noChangesReason = false →
        UpdateStack remote changeset =
          (match remote.ExecuteChangeSet changeset with
            | .error err => .error err
            | .ok () => .ok (),
            [.DescribeChangeSet changeset none, .ExecuteChangeSet changeset])) := by
  refine ⟨rfl, ?_⟩
  intro remote changeset desc reason hdesc hreason hstart
  simp only [UpdateStack, hdesc, hreason, hstart]
  cases remote.ExecuteChangeSet changeset <;> rfl

/-! ## Security groups, ingress rules and required extensions -/

/-- C21: the security groups of a service are read from the map
`resources.securityGroups`, which `convert` never fills: every entry is the
empty string.  For the project of the test, whose default network is external
and named `sg-123abc`, the service resource gets one entry for its one
network, and that entry is "" rather than `sg-123abc`. -/
theorem securityGroups_never_filled :
    (∀ (service : ServiceConfig) (project : Project),
        getServiceSecurityGroups service (resourcesOf project) =
          service.Networks.map fun _ => "") ∧
      (plainService "test" "nginx").Networks = [("default", ())] ∧
      mapGet "default" externalNetworkProject.Networks = some ⟨"sg-123abc", true⟩ ∧
      ((convert goLib externalNetworkProject).template?.bind
          fun t => t.service? "TestService").map (fun s => s.SecurityGroups) = some [""] := by
  refine ⟨?_, rfl, rfl, by decide⟩
  intro service project
  simp [getServiceSecurityGroups, securityGroupOf, resourcesOf, mapGet]

/-- C24: the ingress rule of a (network, port) pair is open to 0.0.0.0/0 with
FromPort = ToPort = the target port, but its IpProtocol is the constant "-1"
(all protocols), not the protocol of the port: for the service `web`
publishing 80/tcp on the default network the rule `Default80Ingress` has
IpProtocol "-1". -/
theorem ingress_protocol_is_all :
    (∀ (service : ServiceConfig) (port : ServicePortConfig) (res : resources)
        (network : String),
        ∃ i, ingress service port res network = .securityGroupIngress i ∧
          i.CidrIp = "0.0.0.0/0" ∧ i.FromPort = port.Target ∧ i.ToPort = port.Target ∧
          i.IpProtocol = "-1") ∧
      (tcpPort 80 "80").Protocol = "tcp" ∧
      ((convert goLib demoProject).template?.bind
          fun t => t.ingress? "Default80Ingress").map
          (fun i => (i.CidrIp, i.FromPort, i.ToPort, i.IpProtocol)) =
        some ("0.0.0.0/0", 80, 80, "-1") := by
  refine ⟨?_, rfl, by decide⟩
  intro service port res network
  exact ⟨_, rfl, rfl, rfl, rfl, rfl⟩

/-- C26, as stated, fails: a project that passes the compatibility check,
lacks the subnet list, and whose load-balancer extension is the number 5 makes
`convert` panic on the type assertion `x.(string)`; no 'missing required'
error is returned. -/
theorem convert_missing_extension_counterexample :
    checkCompatibility (projectWithExtensions [(extensionLoadBalancer, .int 5)]) = .ok () ∧
      mapGet extensionSubnets
          (projectWithExtensions [(extensionLoadBalancer, .int 5)]).Extensions = none ∧
      convert goLib (projectWithExtensions [(extensionLoadBalancer, .int 5)]) =
        .panic "interface conversion: interface {} is not string" :=
  ⟨rfl, rfl, rfl⟩

/-- C26, amended: for a project that passes the compatibility check, `convert`
returns the error 'missing required <extension>' and no template for the first
missing one of the load-balancer, subnet-list and VPC extensions, in that
order, provided the extensions before it are well-typed (the load balancer a
string, the subnets a list of strings). -/
theorem convert_missing_extension (lib : Lib) (project : Project)
    (hcompat : checkCompatibility project = .ok ()) :
    (mapGet extensionLoadBalancer project.Extensions = none →
        convert lib project = .error "missing required x-aws-loadbalancer") ∧
      (∀ lb, mapGet extensionLoadBalancer project.Extensions = some (.str lb) →
        mapGet extensionSubnets project.Extensions = none →
        convert lib project = .error "missing required x-aws-subnets") ∧
      (∀ lb xs subnets,
        mapGet extensionLoadBalancer project.Extensions = some (.str lb) →
        mapGet extensionSubnets project.Extensions = some (.list xs) →
        assertStrings xs = .ok subnets →
        mapGet extensionVpc project.Extensions = none →
        convert lib project = .error "missing required x-aws-vpc") := by
  refine ⟨?_, ?_, ?_⟩
  · intro h
    simp only [convert, hcompat, h]
    rfl
  · intro lb h1 h2
    simp only [convert, hcompat, h1, h2, assertString, Outcome.bind]
    rfl
  · intro lb xs subnets h1 h2 h3 h4
    simp only [convert, hcompat, h1, h2, h4, assertString, assertStringList, h3, Outcome.bind]
    rfl

theorem convert_missing_extension_witness :
    convert goLib (projectWithExtensions []) = .error "missing required x-aws-loadbalancer" ∧
      convert goLib (projectWithExtensions [(extensionLoadBalancer, .str "arn:lb")]) =
        .error "missing required x-aws-subnets" ∧
      convert goLib
          (projectWithExtensions
            [(extensionLoadBalancer, .str "arn:lb"), (extensionSubnets, .list [.str "s1"])]) =
        .error "missing required x-aws-vpc" :=
  ⟨(convert_missing_extension goLib (projectWithExtensions []) rfl).1 rfl,
    (convert_missing_extension goLib
      (projectWithExtensions [(extensionLoadBalancer, .str "arn:lb")]) rfl).2.1 "arn:lb"
      rfl rfl,
    (convert_missing_extension goLib
      (projectWithExtensions
        [(extensionLoadBalancer, .str "arn:lb"), (extensionSubnets, .list [.str "s1"])])
      rfl).2.2 "arn:lb" [.str "s1"] ["s1"] rfl rfl rfl rfl⟩

/-! ## The project-wide resources and the tags -/

/-- The last six characters of the name of a write of `createService` are the
last six characters of one of its eleven suffixes. -/
theorem serviceWrite_tail6 {lib : Lib} {project : Project} {service : ServiceConfig}
    {res : resources} {w : String × CfnResource}
    (h : w ∈ serviceWrites lib project service res) :
    nameTail 6 w.1 ∈
      ["ServiceDiscoveryEntry", "TaskDefinition", "TaskExecutionRole", "TaskRole", "Ingress",
        "Listener", "TargetGroup", "Service", "AutoScalingRole", "ScalableTarget",
        "ScalingPolicy"].map (nameTail 6) := by
  rcases mem_serviceWrites.mp h with rfl | rfl | rfl | rfl | ⟨port, hp, kv, hkv, rfl⟩ |
    ⟨port, hp, rfl⟩ | ⟨port, hp, rfl⟩ | rfl | ⟨config, hc, rfl | rfl | rfl⟩
  · simp only [serviceDiscoveryEntryName]; rw [nameTail_append _ _ _ (by decide)]; simp
  · simp only [serviceTaskDefinitionName]; rw [nameTail_append _ _ _ (by decide)]; simp
  · simp only [serviceTaskExecutionRoleName]; rw [nameTail_append _ _ _ (by decide)]; simp
  · simp only [serviceTaskRoleName]; rw [nameTail_append _ _ _ (by decide)]; simp
  · simp only [ingressName]; rw [nameTail_append _ _ _ (by decide)]; simp
  · simp only [serviceListenerName]; rw [nameTail_append _ _ _ (by decide)]; simp
  · simp only [serviceTargetGroupName]; rw [nameTail_append _ _ _ (by decide)]; simp
  · simp only [serviceName]; rw [nameTail_append _ _ _ (by decide)]; simp
  · simp only [serviceAutoScalingRoleName]; rw [nameTail_append _ _ _ (by decide)]; simp
  · simp only [serviceScalableTargetName]; rw [nameTail_append _ _ _ (by decide)]; simp
  · simp only [serviceScalingPolicyName]; rw [nameTail_append _ _ _ (by decide)]; simp

/-- No write of `createService` goes to the name of a project-wide resource. -/
theorem serviceWrite_ne_base {lib : Lib} {project : Project} {service : ServiceConfig}
    {res : resources} {w : String × CfnResource}
    (h : w ∈ serviceWrites lib project service res) :
    w.1 ≠ "CloudMap" ∧ w.1 ≠ "Cluster" ∧ w.1 ≠ "LogGroup" := by
  have h6 := serviceWrite_tail6 h
  refine ⟨?_, ?_, ?_⟩ <;> intro hk <;> rw [hk] at h6 <;> revert h6 <;> decide

/-- The three project-wide resources are in the template of every project as
`convert` first wrote them. -/
theorem convert_base {lib : Lib} {project : Project} {t : Template}
    (h : convert lib project = .ok t) :
    t.get "CloudMap" =
        some
          (.privateDnsNamespace ("Service Map for Docker Compose project " ++ project.Name)
            (project.Name ++ ".local") (projectTags project) (resourcesOf project).vpc) ∧
      t.get "Cluster" = some (.cluster project.Name (projectTags project)) ∧
      t.get "LogGroup" = some (.logGroup ("/docker-compose/" ++ project.Name) 0) := by
  have hne : ∀ k, (k = "CloudMap" ∨ k = "Cluster" ∨ k = "LogGroup") →
      t.get k = (baseTemplate project (resourcesOf project)).get k := by
    intro k hk
    rw [(convert_ok h).1]
    apply Template.get_write_of_not_mem
    intro w hw
    obtain ⟨kv, _, hw'⟩ := mem_servicesWrites.mp hw
    have := serviceWrite_ne_base hw'
    rcases hk with rfl | rfl | rfl
    · exact this.1
    · exact this.2.1
    · exact this.2.2
  refine ⟨?_, ?_, ?_⟩
  · rw [hne _ (Or.inl rfl)]; rfl
  · rw [hne _ (Or.inr (Or.inl rfl))]; rfl
  · rw [hne _ (Or.inr (Or.inr rfl))]; rfl

/-- The tags of a write of `createService` are none or `serviceTags`. -/
theorem serviceWrite_tags {lib : Lib} {project : Project} {service : ServiceConfig}
    {res : resources} {w : String × CfnResource}
    (h : w ∈ serviceWrites lib project service res) :
    w.2.Tags = [] ∨ w.2.Tags = serviceTags project service := by
  rcases mem_serviceWrites.mp h with rfl | rfl | rfl | rfl | ⟨port, hp, kv, hkv, rfl⟩ |
    ⟨port, hp, rfl⟩ | ⟨port, hp, rfl⟩ | rfl | ⟨config, hc, rfl | rfl | rfl⟩
  · exact Or.inl rfl
  · exact Or.inl rfl
  · exact Or.inr rfl
  · exact Or.inr rfl
  · exact Or.inl rfl
  · exact Or.inl rfl
  · exact Or.inr rfl
  · exact Or.inr rfl
  · exact Or.inr rfl
  · exact Or.inl rfl
  · exact Or.inl rfl

/-- C22, as stated, fails: the log group is written with a name and a retention
only.  For the project `demo` the conversion succeeds and the resource
`LogGroup` carries no tag at all, while `CloudMap` and `Cluster` carry the
project tag. -/
theorem logGroup_tag_counterexample :
    ((convert goLib demoProject).template?.bind fun t => t.get "LogGroup").map
        CfnResource.Tags = some [] ∧
      ((convert goLib demoProject).template?.bind fun t => t.get "Cluster").map
        CfnResource.Tags = some [⟨"com.docker.compose.project", "demo"⟩] ∧
      ((convert goLib demoProject).template?.bind fun t => t.get "CloudMap").map
        CfnResource.Tags = some [⟨"com.docker.compose.project", "demo"⟩] := by
  refine ⟨rfl, rfl, rfl⟩

/-- C22, amended: for every project on which `convert` succeeds the template
contains the resources `CloudMap`, `Cluster` and `LogGroup`; `CloudMap` and
`Cluster` carry exactly the project tag, whose value is the project name, and
`LogGroup` carries no tag. -/
theorem base_resources_tags (lib : Lib) (project : Project) (t : Template)
    (hconv : convert lib project = .ok t) :
    ∃ cloudMap cluster logGroup,
      t.get "CloudMap" = some cloudMap ∧ t.get "Cluster" = some cluster ∧
      t.get "LogGroup" = some logGroup ∧
      cloudMap.AWSCloudFormationType = "AWS::ServiceDiscovery::PrivateDnsNamespace" ∧
      cluster.AWSCloudFormationType = "AWS::ECS::Cluster" ∧
      logGroup.AWSCloudFormationType = "AWS::Logs::LogGroup" ∧
      cloudMap.Tags = [⟨ProjectLabel, project.Name⟩] ∧
      cluster.Tags = [⟨ProjectLabel, project.Name⟩] ∧
      logGroup.Tags = [] := by
  obtain ⟨h1, h2, h3⟩ := convert_base hconv
  exact ⟨_, _, _, h1, h2, h3, rfl, rfl, rfl, rfl, rfl, rfl⟩

theorem base_resources_tags_witness :
    ∃ cloudMap cluster logGroup,
      ((convert goLib demoProject).getD NewTemplate).get "CloudMap" = some cloudMap ∧
      ((convert goLib demoProject).getD NewTemplate).get "Cluster" = some cluster ∧
      ((convert goLib demoProject).getD NewTemplate).get "LogGroup" = some logGroup ∧
      cloudMap.AWSCloudFormationType = "AWS::ServiceDiscovery::PrivateDnsNamespace" ∧
      cluster.AWSCloudFormationType = "AWS::ECS::Cluster" ∧
      logGroup.AWSCloudFormationType = "AWS::Logs::LogGroup" ∧
      cloudMap.Tags = [⟨ProjectLabel, "demo"⟩] ∧
      cluster.Tags = [⟨ProjectLabel, "demo"⟩] ∧
      logGroup.Tags = [] :=
  base_resources_tags goLib demoProject _ rfl

/-- C30: `projectTags` is the one-element list of the project label with the
project name, `serviceTags` is that list with the service label and the
service name appended, so the project tag comes first; and in the template of
every project on which `convert` succeeds, every tag of every resource whose
key is the project label has the project name as its value. -/
theorem project_tag_value (lib : Lib) (project : Project) (t : Template)
    (hconv : convert lib project = .ok t) :
    projectTags project = [⟨ProjectLabel, project.Name⟩] ∧
      (∀ service : ServiceConfig,
        serviceTags project service =
            projectTags project ++ [⟨ServiceLabel, service.Name⟩] ∧
          (serviceTags project service).head? = some ⟨ProjectLabel, project.Name⟩ ∧
          (serviceTags project service).length = 2) ∧
      ∀ (k : String) (r : CfnResource), t.get k = some r →
        ∀ tag ∈ r.Tags, tag.Key = ProjectLabel → tag.Value = project.Name := by
  refine ⟨rfl, fun service => ⟨rfl, rfl, rfl⟩, ?_⟩
  intro k r hget tag htag hkey
  have hservice : ∀ service : ServiceConfig, tag ∈ serviceTags project service →
      tag.Value = project.Name := by
    intro service hmem
    simp only [serviceTags, projectTags, List.mem_append, List.mem_singleton] at hmem
    rcases hmem with rfl | rfl
    · rfl
    · have hne : ServiceLabel ≠ ProjectLabel := by decide
      exact absurd hkey hne
  rcases convert_entry hconv hget with hbase | ⟨kv, _, hw⟩
  · rcases baseTemplate_get _ _ _ _ hbase with ⟨rfl, _⟩ | ⟨rfl, _⟩ | ⟨rfl, _⟩
    · rw [(convert_base hconv).1] at hget
      cases hget
      simp only [CfnResource.Tags, projectTags, List.mem_singleton] at htag
      rw [htag]
    · rw [(convert_base hconv).2.1] at hget
      cases hget
      simp only [CfnResource.Tags, projectTags, List.mem_singleton] at htag
      rw [htag]
    · rw [(convert_base hconv).2.2] at hget
      cases hget
      cases htag
  · rcases serviceWrite_tags hw with h0 | h1
    · rw [show r.Tags = [] from h0] at htag
      cases htag
    · rw [show r.Tags = serviceTags project kv.2 from h1] at htag
      exact hservice kv.2 htag

theorem project_tag_value_witness :
    projectTags demoProject = [⟨ProjectLabel, "demo"⟩] ∧
      (∀ service : ServiceConfig,
        serviceTags demoProject service =
            projectTags demoProject ++ [⟨ServiceLabel, service.Name⟩] ∧
          (serviceTags demoProject service).head? = some ⟨ProjectLabel, "demo"⟩ ∧
          (serviceTags demoProject service).length = 2) ∧
      ∀ (k : String) (r : CfnResource),
        ((convert goLib demoProject).getD NewTemplate).get k = some r →
          ∀ tag ∈ r.Tags, tag.Key = ProjectLabel → tag.Value = "demo" :=
  project_tag_value goLib demoProject _ rfl

/-! ## The service resource: dependencies and desired count -/

/-- The service resource of a service of the project whose normalized name no
other service shares is the one `createService` builds from it. -/
theorem convert_service {lib : Lib} {project : Project} {t : Template} {key : String}
    {service : ServiceConfig} (hconv : convert lib project = .ok t)
    (hs : (key, service) ∈ project.Services)
    (huniq : ∀ kv ∈ project.Services,
      normalizeResourceName kv.2.Name = normalizeResourceName service.Name →
        kv.2 = service) :
    t.get (serviceName service) =
      some (ecsService lib project service (resourcesOf project)) := by
  obtain ⟨r', hget, kv', hkv', hw⟩ :=
    convert_written hconv hs (ecsService_mem_serviceWrites lib project service _)
  have heq := (serviceWrite_of_tail hw).2.2 (tail_serviceName service)
  have hname : serviceName service = serviceName kv'.2 := (Prod.mk.inj heq).1
  have hsame : kv'.2 = service :=
    huniq kv' hkv' (string_append_right_cancel hname.symm)
  rw [hget, (Prod.mk.inj heq).2, hsame]

/-- A write of `createService` that is a service resource is the pair of the
service's identifier and the resource `ecsService` builds. -/
theorem serviceWrite_service_entry {lib : Lib} {project : Project} {service : ServiceConfig}
    {res : resources} {name : String} {s : EcsService}
    (h : (name, CfnResource.service s) ∈ serviceWrites lib project service res) :
    name = serviceName service ∧ CfnResource.service s = ecsService lib project service res := by
  rcases mem_serviceWrites.mp h with heq | heq | heq | heq | ⟨port, hp, kv, hkv, heq⟩ |
    ⟨port, hp, heq⟩ | ⟨port, hp, heq⟩ | heq | ⟨config, hc, heq | heq | heq⟩
  · simp [discoveryEntry] at heq
  · simp [taskDefinition] at heq
  · simp [taskExecutionRole] at heq
  · simp [taskRole] at heq
  · simp [ingress] at heq
  · simp [listener] at heq
  · simp [targetGroup] at heq
  · exact Prod.mk.inj heq
  · simp [autoScalingRole] at heq
  · simp [scalableTarget] at heq
  · simp [scalingPolicy] at heq

/-- Every service resource of a template `convert` returns was built by
`ecsService` from a service of the project, under that service's identifier. -/
theorem convert_service_entry {lib : Lib} {project : Project} {t : Template}
    (hconv : convert lib project = .ok t) {name : String} {s : EcsService}
    (hs : t.service? name = some s) :
    ∃ kv ∈ project.Services, name = serviceName kv.2 ∧
      CfnResource.service s = ecsService lib project kv.2 (resourcesOf project) := by
  have hget : t.get name = some (.service s) := by
    unfold Template.service? at hs
    split at hs
    · next s' heq =>
      cases hs
      exact heq
    · cases hs
  rcases convert_entry hconv hget with hbase | ⟨kv, hkv, hw⟩
  · rcases baseTemplate_get _ _ _ _ hbase with ⟨_, _, _, _, _, h⟩ | ⟨_, _, _, h⟩ |
      ⟨_, _, _, h⟩ <;> cases h
  · exact ⟨kv, hkv, serviceWrite_service_entry hw⟩

/-- Every service of a project that converts has a service resource under its
identifier. -/
theorem convert_service_present {lib : Lib} {project : Project} {t : Template}
    (hconv : convert lib project = .ok t) {kv : String × ServiceConfig}
    (hkv : kv ∈ project.Services) : ∃ s, t.service? (serviceName kv.2) = some s := by
  obtain ⟨r', hget, kv', _, hw⟩ :=
    convert_written hconv hkv (ecsService_mem_serviceWrites lib project kv.2 _)
  have heq := (serviceWrite_of_tail hw).2.2 (tail_serviceName kv.2)
  rw [Template.service?, hget, (Prod.mk.inj heq).2]
  exact ⟨_, rfl⟩

/-- C25: the depends-on list `serviceDependsOn` builds for a service consists
of the identifier `normalized name ++ "Service"` of every key of its depends-on
map and the listener identifier of every port it publishes, and of nothing
else, and its length is |depends_on| + |ports|.  In every template `convert`
returns, every service of the project has a service resource, and every
service resource was built from a service of the project, stands under that
service's identifier and has that service's depends-on list. -/
theorem serviceDependsOn_entries (lib : Lib) :
    (∀ service : ServiceConfig,
        (∀ x, x ∈ serviceDependsOn lib service ↔
          (∃ d ∈ service.DependsOn, x = normalizeResourceName d.1 ++ "Service") ∨
            ∃ port ∈ service.Ports, x = serviceListenerName lib service port) ∧
          (serviceDependsOn lib service).length =
            service.DependsOn.length + service.Ports.length) ∧
      ∀ (project : Project) (t : Template), convert lib project = .ok t →
        (∀ kv ∈ project.Services, ∃ s, t.service? (serviceName kv.2) = some s) ∧
        ∀ (name : String) (s : EcsService), t.service? name = some s →
          ∃ kv ∈ project.Services, name = serviceName kv.2 ∧
            CfnResource.service s = ecsService lib project kv.2 (resourcesOf project) ∧
            s.DependsOn = serviceDependsOn lib kv.2 ∧
            s.DependsOn.length = kv.2.DependsOn.length + kv.2.Ports.length ∧
            ∀ x, x ∈ s.DependsOn ↔
              (∃ d ∈ kv.2.DependsOn, x = normalizeResourceName d.1 ++ "Service") ∨
                ∃ port ∈ kv.2.Ports, x = serviceListenerName lib kv.2 port := by
  have hfun : ∀ service : ServiceConfig,
      (∀ x, x ∈ serviceDependsOn lib service ↔
        (∃ d ∈ service.DependsOn, x = normalizeResourceName d.1 ++ "Service") ∨
          ∃ port ∈ service.Ports, x = serviceListenerName lib service port) ∧
        (serviceDependsOn lib service).length =
          service.DependsOn.length + service.Ports.length := by
    intro service
    refine ⟨?_, by simp [serviceDependsOn]⟩
    intro x
    simp only [serviceDependsOn, List.mem_append, List.mem_map]
    constructor
    · rintro (⟨d, hd, rfl⟩ | ⟨port, hp, rfl⟩)
      · exact Or.inl ⟨d, hd, rfl⟩
      · exact Or.inr ⟨port, hp, rfl⟩
    · rintro (⟨d, hd, rfl⟩ | ⟨port, hp, rfl⟩)
      · exact Or.inl ⟨d, hd, rfl⟩
      · exact Or.inr ⟨port, hp, rfl⟩
  refine ⟨hfun, ?_⟩
  intro project t hconv
  refine ⟨fun kv hkv => convert_service_present hconv hkv, ?_⟩
  intro name s hs
  obtain ⟨kv, hkv, hname, hres⟩ := convert_service_entry hconv hs
  have hdep : s.DependsOn = serviceDependsOn lib kv.2 := by
    simp only [ecsService, CfnResource.service.injEq] at hres
    rw [hres]
  refine ⟨kv, hkv, hname, hres, hdep, ?_, ?_⟩
  · rw [hdep]
    exact (hfun kv.2).2
  · rw [hdep]
    exact (hfun kv.2).1

theorem serviceDependsOn_entries_witness :
    serviceDependsOn goLib linkedService =
        ["DbService", "CacheService", "WebTCP80Listener", "WebTCP443Listener"] ∧
      (serviceDependsOn goLib linkedService).length =
        linkedService.DependsOn.length + linkedService.Ports.length ∧
      (∃ s, ((convert goLib linkedProject).getD NewTemplate).service?
        (serviceName linkedService) = some s) ∧
      ∀ (name : String) (s : EcsService),
        ((convert goLib linkedProject).getD NewTemplate).service? name = some s →
          ∃ kv ∈ linkedProject.Services, name = serviceName kv.2 ∧
            CfnResource.service s =
              ecsService goLib linkedProject kv.2 (resourcesOf linkedProject) ∧
            s.DependsOn = serviceDependsOn goLib kv.2 ∧
            s.DependsOn.length = kv.2.DependsOn.length + kv.2.Ports.length ∧
            ∀ x, x ∈ s.DependsOn ↔
              (∃ d ∈ kv.2.DependsOn, x = normalizeResourceName d.1 ++ "Service") ∨
                ∃ port ∈ kv.2.Ports, x = serviceListenerName goLib kv.2 port :=
  ⟨by decide, ((serviceDependsOn_entries goLib).1 linkedService).2,
    ((serviceDependsOn_entries goLib).2 linkedProject _ rfl).1 ("web", linkedService)
      (List.Mem.head _),
    ((serviceDependsOn_entries goLib).2 linkedProject _ rfl).2⟩

/-- C27, as stated, fails: in the project `demo` the service `foo` declares 3
replicas and the service `f-oo`, visited after it, declares 5; both names
normalize to `Foo`, so the later write replaces the earlier one and the
service resource `FooService` of the template has DesiredCount 5, not the 3
that `foo` declares. -/
theorem desiredCount_counterexample :
    replicas (scaledService "foo" 3 75 10) = 3 ∧
      serviceName (scaledService "foo" 3 75 10) = "FooService" ∧
      ((convert goLib shadowedProject).template?.bind
          fun t => t.service? "FooService").map (fun s => s.DesiredCount) = some 5 := by
  refine ⟨by decide, by decide, by decide⟩

/-- C27, amended: `replicas` is the declared replica count when the deploy
section declares one, and 1 when the service has no deploy section or the
section declares no replica count; every service resource of a template
`convert` returns has as DesiredCount the `replicas` of the service of the
project it was built from, under whose identifier it stands; and for a service
whose normalized name no other service of the project shares, the service
resource under its identifier has the DesiredCount of that service. -/
theorem desiredCount_is_replicas (lib : Lib) :
    (∀ service : ServiceConfig,
        (∀ deploy n, service.Deploy = some deploy → deploy.Replicas = some n →
          replicas service = n) ∧
        (service.Deploy = none → replicas service = 1) ∧
        (∀ deploy, service.Deploy = some deploy → deploy.Replicas = none →
          replicas service = 1)) ∧
      ∀ (project : Project) (t : Template), convert lib project = .ok t →
        (∀ (name : String) (s : EcsService), t.service? name = some s →
          ∃ kv ∈ project.Services, name = serviceName kv.2 ∧
            s.DesiredCount = replicas kv.2) ∧
        ∀ (key : String) (service : ServiceConfig), (key, service) ∈ project.Services →
          (∀ kv ∈ project.Services,
            normalizeResourceName kv.2.Name = normalizeResourceName service.Name →
              kv.2 = service) →
          (t.service? (serviceName service)).map (fun s => s.DesiredCount) =
            some (replicas service) := by
  refine ⟨?_, ?_⟩
  · intro service
    refine ⟨?_, ?_, ?_⟩
    · intro deploy n hd hn
      simp [replicas, hd, hn]
    · intro hd
      simp [replicas, hd]
    · intro deploy hd hn
      simp [replicas, hd, hn]
  · intro project t hconv
    refine ⟨?_, ?_⟩
    · intro name s hs
      obtain ⟨kv, hkv, hname, hres⟩ := convert_service_entry hconv hs
      refine ⟨kv, hkv, hname, ?_⟩
      simp only [ecsService, CfnResource.service.injEq] at hres
      rw [hres]
    · intro key service hs huniq
      rw [Template.service?, convert_service hconv hs huniq]
      rfl

theorem desiredCount_is_replicas_witness :
    (((convert goLib (projectOf "demo" [replicatedService 10])).getD NewTemplate).service?
          "TestService").map (fun s => s.DesiredCount) = some 10 ∧
      replicas (replicatedService 10) = 10 ∧
      replicas (plainService "test" "nginx") = 1 ∧
      replicas (sizedService "0.5" 0) = 1 :=
  ⟨((desiredCount_is_replicas goLib).2 (projectOf "demo" [replicatedService 10]) _ rfl).2
      "test" (replicatedService 10) (List.Mem.head _)
      (fun kv hkv _ => by
        rcases List.mem_singleton.mp hkv with rfl
        rfl),
    ((desiredCount_is_replicas goLib).1 (replicatedService 10)).1 _ 10 rfl rfl,
    ((desiredCount_is_replicas goLib).1 (plainService "test" "nginx")).2.1 rfl,
    ((desiredCount_is_replicas goLib).1 (sizedService "0.5" 0)).2.2 _ rfl rfl⟩

/-! ## The environment of a container -/

/-- The loop of `createEnvironment` on a map whose keys all have a value. -/
theorem environmentPairs_present (pairs : GoMap String) :
    environmentPairs (presentValues pairs) =
      .ok (pairs.map fun kv => (⟨kv.1, kv.2⟩ : KeyValuePair)) := by
  induction pairs with
  | nil => rfl
  | cons kv rest ih =>
    obtain ⟨k, v⟩ := kv
    simp only [presentValues, List.map_cons, environmentPairs] at ih ⊢
    rw [ih]
    rfl

/-- The pairs `createEnvironment` returns for a map whose keys all have a value:
a rearrangement of the entries, in strictly ascending order of name. -/
theorem createEnvironment_present (service : ServiceConfig) (pairs : GoMap String)
    (henv : service.Environment = presentValues pairs)
    (hkeys : (pairs.map Prod.fst).Nodup) :
    ∃ out, createEnvironment service = .ok out ∧
      out.Perm (pairs.map fun kv => (⟨kv.1, kv.2⟩ : KeyValuePair)) ∧
      out.Pairwise (fun a b => a.Name.data < b.Name.data) := by
  haveI : IsTotal KeyValuePair (fun a b => a.Name.data ≤ b.Name.data) :=
    ⟨fun a b => le_total _ _⟩
  haveI : IsTrans KeyValuePair (fun a b => a.Name.data ≤ b.Name.data) :=
    ⟨fun a b c h1 h2 => le_trans h1 h2⟩
  have hsorted := List.sorted_insertionSort
    (fun a b : KeyValuePair => a.Name.data ≤ b.Name.data)
    (pairs.map fun kv => (⟨kv.1, kv.2⟩ : KeyValuePair))
  have hperm := List.perm_insertionSort
    (fun a b : KeyValuePair => a.Name.data ≤ b.Name.data)
    (pairs.map fun kv => (⟨kv.1, kv.2⟩ : KeyValuePair))
  refine ⟨_, ?_, hperm, ?_⟩
  · rw [createEnvironment, henv, environmentPairs_present]
    rfl
  · have hnodup : ((List.insertionSort (fun a b : KeyValuePair => a.Name.data ≤ b.Name.data)
        (pairs.map fun kv => (⟨kv.1, kv.2⟩ : KeyValuePair))).map fun p => p.Name).Nodup := by
      refine (List.Perm.nodup_iff (hperm.map _)).mpr ?_
      simpa [List.map_map, Function.comp_def] using hkeys
    have hne := List.pairwise_map.mp hnodup
    refine (List.Pairwise.and hsorted hne).imp ?_
    rintro a b ⟨hle, hab⟩
    refine lt_of_le_of_ne hle ?_
    intro hdata
    exact hab (String.ext hdata)

/-- C28: for an environment map in which every key has a value (and, as in
every Go map, no key occurs twice), `createEnvironment` returns a list that
holds exactly one pair per key, carrying that key's value, in strictly
ascending order of name; the list is the same for every order in which the map
is visited. -/
theorem createEnvironment_one_pair_per_key (service : ServiceConfig) (pairs : GoMap String)
    (henv : service.Environment = presentValues pairs)
    (hkeys : (pairs.map Prod.fst).Nodup) :
    ∃ out, createEnvironment service = .ok out ∧
      out.length = pairs.length ∧
      (out.map fun p => p.Name).Perm (pairs.map Prod.fst) ∧
      (∀ k v, (⟨k, v⟩ : KeyValuePair) ∈ out ↔ (k, v) ∈ pairs) ∧
      out.Pairwise (fun a b => a.Name.data < b.Name.data) ∧
      ∀ (service' : ServiceConfig) (pairs' : GoMap String),
        service'.Environment = presentValues pairs' → pairs'.Perm pairs →
          createEnvironment service' = .ok out := by
  obtain ⟨out, hout, hperm, hsorted⟩ := createEnvironment_present service pairs henv hkeys
  refine ⟨out, hout, ?_, ?_, ?_, hsorted, ?_⟩
  · rw [hperm.length_eq, List.length_map]
  · have := hperm.map fun p => p.Name
    simpa [List.map_map, Function.comp_def] using this
  · intro k v
    rw [hperm.mem_iff, List.mem_map]
    constructor
    · rintro ⟨⟨k', v'⟩, hmem, heq⟩
      cases heq
      exact hmem
    · intro hmem
      exact ⟨(k, v), hmem, rfl⟩
  · intro service' pairs' henv' hp
    have hkeys' : (pairs'.map Prod.fst).Nodup :=
      (List.Perm.nodup_iff (hp.map _)).mpr hkeys
    obtain ⟨out', hout', hperm', hsorted'⟩ :=
      createEnvironment_present service' pairs' henv' hkeys'
    haveI : IsAntisymm KeyValuePair (fun a b => a.Name.data < b.Name.data) :=
      ⟨fun a b h1 h2 => absurd h1 (lt_asymm h2)⟩
    have hpp : out'.Perm out := (hperm'.trans (hp.map _)).trans hperm.symm
    rw [hout', List.eq_of_perm_of_sorted hpp hsorted' hsorted]

theorem createEnvironment_one_pair_per_key_witness :
    ∃ out,
      createEnvironment
          (environmentService (presentValues [("PATH", "/bin"), ("HOME", "/root")])) =
        .ok out ∧
      out.length = 2 ∧
      (out.map fun p => p.Name).Perm ["PATH", "HOME"] ∧
      (∀ k v, (⟨k, v⟩ : KeyValuePair) ∈ out ↔ (k, v) ∈ [("PATH", "/bin"), ("HOME", "/root")]) ∧
      out.Pairwise (fun a b => a.Name.data < b.Name.data) ∧
      ∀ (service' : ServiceConfig) (pairs' : GoMap String),
        service'.Environment = presentValues pairs' →
          pairs'.Perm [("PATH", "/bin"), ("HOME", "/root")] →
            createEnvironment service' = .ok out :=
  createEnvironment_one_pair_per_key
    (environmentService (presentValues [("PATH", "/bin"), ("HOME", "/root")]))
    [("PATH", "/bin"), ("HOME", "/root")] rfl (by decide)

/-! ## Resource names -/

/-- An ASCII letter is the character of a code in 65..90 or 97..122. -/
theorem isAlpha_ofNat (c : Char) (h : c.isAlpha = true) :
    ∃ n, (65 ≤ n ∧ n ≤ 90 ∨ 97 ≤ n ∧ n ≤ 122) ∧ c = Char.ofNat n := by
  refine ⟨c.toNat, ?_, (Char.ofNat_toNat c).symm⟩
  simp only [Char.isAlpha, Char.isUpper, Char.isLower, Bool.or_eq_true, Bool.and_eq_true,
    decide_eq_true_eq] at h
  have h1 : ∀ (a : UInt32), a ≤ c.val ↔ a.toNat ≤ c.toNat := fun a => Iff.rfl
  have h2 : ∀ (a : UInt32), c.val ≤ a ↔ c.toNat ≤ a.toNat := fun a => Iff.rfl
  simp only [ge_iff_le, h1, h2] at h
  exact h

/-- Changing the case of an ASCII letter gives an ASCII letter. -/
theorem isAlpha_case (c : Char) (h : c.isAlpha = true) :
    c.toUpper.isAlpha = true ∧ c.toLower.isAlpha = true := by
  obtain ⟨n, hn, rfl⟩ := isAlpha_ofNat c h
  rcases hn with ⟨h1, h2⟩ | ⟨h1, h2⟩
  · interval_cases n <;> decide
  · interval_cases n <;> decide

/-- The codes of the ASCII letters and digits. -/
theorem isAlphanum_codes (c : Char) (h : c.isAlphanum = true) :
    48 ≤ c.toNat ∧ c.toNat ≤ 57 ∨ 65 ≤ c.toNat ∧ c.toNat ≤ 90 ∨
      97 ≤ c.toNat ∧ c.toNat ≤ 122 := by
  simp only [Char.isAlphanum, Char.isAlpha, Char.isUpper, Char.isLower, Char.isDigit,
    Bool.or_eq_true, Bool.and_eq_true, decide_eq_true_eq] at h
  have h1 : ∀ (a : UInt32), a ≤ c.val ↔ a.toNat ≤ c.toNat := fun a => Iff.rfl
  have h2 : ∀ (a : UInt32), c.val ≤ a ↔ c.toNat ≤ a.toNat := fun a => Iff.rfl
  simp only [ge_iff_le, h1, h2] at h
  rcases h with (h | h) | h
  · exact Or.inr (Or.inl h)
  · exact Or.inr (Or.inr h)
  · exact Or.inl h

/-- The title caser keeps letters letters and copies every other character. -/
theorem titleChars_alphanum (isMidWord : Bool) (cs : List Char)
    (h : ∀ c ∈ cs, c.isAlphanum = true) :
    ∀ c ∈ titleChars isMidWord cs, c.isAlphanum = true := by
  induction cs generalizing isMidWord with
  | nil => intro c hc; cases hc
  | cons x xs ih =>
    intro c hc
    have hx := h x (List.mem_cons_self _ _)
    have hxs : ∀ c ∈ xs, c.isAlphanum = true := fun c hc => h c (List.mem_cons_of_mem _ hc)
    unfold titleChars at hc
    split at hc
    · rename_i halpha
      rcases List.mem_cons.mp hc with rfl | hc
      · have hcase := isAlpha_case x halpha
        cases isMidWord
        · simp [Char.isAlphanum, hcase.1]
        · simp [Char.isAlphanum, hcase.2]
      · exact ih true hxs c hc
    · rcases List.mem_cons.mp hc with rfl | hc
      · exact hx
      · exact ih isMidWord hxs c hc

/-- C29: `normalizeResourceName` is a total function whose result holds only
ASCII letters and digits, for every input; the empty string and every string
without a letter or digit (such as a punctuation-only one) give the empty
string; "foo" gives "Foo", so the service identifier of the service `foo` is
"FooService". -/
theorem normalizeResourceName_alphanumeric :
    (∀ s : String, ∀ c ∈ (normalizeResourceName s).data,
        c.isAlphanum = true ∧
          (48 ≤ c.toNat ∧ c.toNat ≤ 57 ∨ 65 ≤ c.toNat ∧ c.toNat ≤ 90 ∨
            97 ≤ c.toNat ∧ c.toNat ≤ 122)) ∧
      normalizeResourceName "" = "" ∧
      (∀ s : String, (∀ c ∈ s.data, c.isAlphanum = false) → normalizeResourceName s = "") ∧
      normalizeResourceName "-_. /!" = "" ∧
      normalizeResourceName "foo" = "Foo" ∧
      serviceName (plainService "foo" "hello_world") = "FooService" := by
  refine ⟨?_, by decide, ?_, by decide, by decide, by decide⟩
  · intro s c hc
    have hall : c.isAlphanum = true :=
      titleChars_alphanum false _ (fun c hc => (List.mem_filter.mp hc).2) c hc
    exact ⟨hall, isAlphanum_codes c hall⟩
  · intro s hs
    have hnil : s.data.filter Char.isAlphanum = [] := by
      rw [List.filter_eq_nil_iff]
      intro c hc
      simp [hs c hc]
    simp only [normalizeResourceName, hnil]
    rfl

theorem normalizeResourceName_alphanumeric_witness :
    normalizeResourceName "-- __" = "" ∧ normalizeResourceName "foo" = "Foo" ∧
      serviceName (plainService "foo" "hello_world") = "FooService" :=
  ⟨normalizeResourceName_alphanumeric.2.2.1 "-- __" (by decide),
    normalizeResourceName_alphanumeric.2.2.2.2.1,
    normalizeResourceName_alphanumeric.2.2.2.2.2⟩

/-! ## Services whose names normalize to the same string -/

/-- Whether `createService` succeeds does not depend on the template it is
given: no step looks for an entry that is already there. -/
theorem createService_any_template {lib : Lib} {project : Project} {service : ServiceConfig}
    {t t' : Template} {res : resources}
    (h : createService lib project service t res = .ok t') (t0 : Template) :
    createService lib project service t0 res =
      .ok (t0.write (serviceWrites lib project service res)) := by
  have hauto := (createService_ok h).2.2
  cases h0 : createService lib project service t0 res with
  | ok t0' => rw [(createService_ok h0).1]
  | error e =>
    exfalso
    unfold createService at h h0
    cases hs : getSecretArns project service with
    | error e => rw [hs] at h; cases h
    | panic e => rw [hs] at h; cases h
    | ok arns =>
      rw [hs] at h h0
      simp only [Outcome.bind] at h h0
      cases hl : toLimits lib service with
      | error e => rw [hl] at h; cases h
      | ok r =>
        obtain ⟨cpu, mem⟩ := r
        rw [hl] at h h0
        simp only at h h0
        cases he : createEnvironment service with
        | error e => rw [he] at h; cases h
        | panic e => rw [he] at h; cases h
        | ok env =>
          rw [he] at h h0
          simp only at h h0
          cases hr : createRepositoryCredentials service with
          | error e => rw [hr] at h; cases h
          | panic e => rw [hr] at h; cases h
          | ok cred =>
            rw [hr] at h0
            simp only at h0
            split at h0
            · next e' ha => exact hauto _ _ ha
            · cases h0
  | panic e =>
    exfalso
    unfold createService at h h0
    cases hs : getSecretArns project service with
    | error e => rw [hs] at h; cases h
    | panic e => rw [hs] at h; cases h
    | ok arns =>
      rw [hs] at h h0
      simp only [Outcome.bind] at h h0
      cases hl : toLimits lib service with
      | error e => rw [hl] at h; cases h
      | ok r =>
        obtain ⟨cpu, mem⟩ := r
        rw [hl] at h h0
        simp only at h h0
        cases he : createEnvironment service with
        | error e => rw [he] at h; cases h
        | panic e => rw [he] at h; cases h
        | ok env =>
          rw [he] at h h0
          simp only at h h0
          cases hr : createRepositoryCredentials service with
          | error e => rw [hr] at h; cases h
          | panic e => rw [hr] at h; cases h
          | ok cred =>
            rw [hr] at h0
            simp only at h0
            split at h0
            · cases h0
            · cases h0

/-- A successful `convert` is a successful run of the loop over the services,
started from the three project-wide resources. -/
theorem convert_ok_createServices {lib : Lib} {project : Project} {t : Template}
    (h : convert lib project = .ok t) :
    createServices lib project (resourcesOf project) project.Services
      (baseTemplate project (resourcesOf project)) = .ok t := by
  unfold convert at h
  cases hcc : checkCompatibility project with
  | error e => rw [hcc] at h; cases h
  | ok u =>
    rw [hcc] at h
    simp only at h
    cases hlb : mapGet extensionLoadBalancer project.Extensions with
    | none => rw [hlb] at h; cases h
    | some x =>
      rw [hlb] at h
      simp only at h
      cases hx : assertString x with
      | error e => rw [hx] at h; cases h
      | panic e => rw [hx] at h; cases h
      | ok loadBalancer =>
        rw [hx] at h
        simp only [Outcome.bind] at h
        cases hsn : mapGet extensionSubnets project.Extensions with
        | none => rw [hsn] at h; cases h
        | some y =>
          rw [hsn] at h
          simp only at h
          cases hy : assertStringList y with
          | error e => rw [hy] at h; cases h
          | panic e => rw [hy] at h; cases h
          | ok subnets =>
            rw [hy] at h
            simp only at h
            cases hvpc : mapGet extensionVpc project.Extensions with
            | none => rw [hvpc] at h; cases h
            | some z =>
              rw [hvpc] at h
              simp only at h
              cases hz : assertString z with
              | error e => rw [hz] at h; cases h
              | panic e => rw [hz] at h; cases h
              | ok vpc =>
                rw [hz] at h
                simp only at h
                have hres : resourcesOf project =
                    { loadBalancer := loadBalancer, securityGroups := [],
                      subnets := subnets, vpc := vpc } := by
                  cases x <;> simp only [assertString] at hx <;> try cases hx
                  cases z <;> simp only [assertString] at hz <;> try cases hz
                  simp [resourcesOf, hlb, hsn, hvpc, hy, Outcome.getD]
                rw [← hres] at h
                exact h

/-- Every service of a successful run of the loop was converted. -/
theorem createServices_each {lib : Lib} {project : Project} {res : resources}
    {services : GoMap ServiceConfig} {t t' : Template}
    (h : createServices lib project res services t = .ok t') :
    ∀ kv ∈ services, ∃ t1 t2, createService lib project kv.2 t1 res = .ok t2 := by
  induction services generalizing t with
  | nil => intro kv hkv; cases hkv
  | cons kv rest ih =>
    obtain ⟨key, service⟩ := kv
    simp only [createServices] at h
    cases hc : createService lib project service t res with
    | error e => rw [hc] at h; cases h
    | panic e => rw [hc] at h; cases h
    | ok t1 =>
      rw [hc] at h
      simp only [Outcome.bind] at h
      intro kv hkv
      rcases List.mem_cons.mp hkv with rfl | hkv
      · exact ⟨_, _, hc⟩
      · exact ih h kv hkv

/-- In a project that converts, every service converts on every template. -/
theorem convert_service_any_template {lib : Lib} {project : Project} {t : Template}
    (h : convert lib project = .ok t) {kv : String × ServiceConfig}
    (hkv : kv ∈ project.Services) (t0 : Template) :
    createService lib project kv.2 t0 (resourcesOf project) =
      .ok (t0.write (serviceWrites lib project kv.2 (resourcesOf project))) := by
  obtain ⟨t1, t2, h12⟩ := createServices_each (convert_ok_createServices h) kv hkv
  exact createService_any_template h12 t0

/-- The names of a template are the three project-wide names and the names its
services write. -/
theorem convert_mem_keys {lib : Lib} {project : Project} {t : Template}
    (h : convert lib project = .ok t) (k : String) :
    k ∈ t.Resources.map Prod.fst ↔
      k ∈ ["CloudMap", "Cluster", "LogGroup"] ++
        (servicesWrites lib project (resourcesOf project) project.Services).map Prod.fst := by
  constructor
  · intro hk
    obtain ⟨⟨k', r⟩, hmem, rfl⟩ := List.mem_map.mp hk
    have hget : t.get k' = some r := mapGet_of_mem (convert_keys_nodup h) hmem
    rcases convert_entry h hget with hbase | ⟨kv, hkv, hw⟩
    · rcases baseTemplate_get _ _ _ _ hbase with ⟨rfl, _⟩ | ⟨rfl, _⟩ | ⟨rfl, _⟩ <;> simp
    · exact List.mem_append_right _
        (List.mem_map.mpr ⟨(k', r), mem_servicesWrites.mpr ⟨kv, hkv, hw⟩, rfl⟩)
  · intro hk
    have hmem : ∀ k r, t.get k = some r → k ∈ t.Resources.map Prod.fst := fun k r hget =>
      List.mem_map.mpr ⟨(k, r), mem_of_mapGet hget, rfl⟩
    rcases List.mem_append.mp hk with hb | hw
    · obtain ⟨h1, h2, h3⟩ := convert_base h
      simp only [List.mem_cons, List.mem_singleton, List.not_mem_nil, or_false] at hb
      rcases hb with rfl | rfl | rfl
      · exact hmem _ _ h1
      · exact hmem _ _ h2
      · exact hmem _ _ h3
    · obtain ⟨⟨k', r⟩, hw', rfl⟩ := List.mem_map.mp hw
      obtain ⟨kv, hkv, hw''⟩ := mem_servicesWrites.mp hw'
      obtain ⟨r', hget, _⟩ := convert_written h hkv hw''
      exact hmem _ _ hget

/-- The number of resources of a template is the number of distinct names among
the three project-wide names and the names its services write. -/
theorem convert_length {lib : Lib} {project : Project} {t : Template}
    (h : convert lib project = .ok t) :
    t.Resources.length =
      (["CloudMap", "Cluster", "LogGroup"] ++
        (servicesWrites lib project (resourcesOf project) project.Services).map
          Prod.fst).dedup.length := by
  have hperm : (t.Resources.map Prod.fst).Perm
      (["CloudMap", "Cluster", "LogGroup"] ++
        (servicesWrites lib project (resourcesOf project) project.Services).map
          Prod.fst).dedup := by
    rw [List.perm_ext_iff_of_nodup (convert_keys_nodup h) (List.nodup_dedup _)]
    intro k
    rw [List.mem_dedup]
    exact convert_mem_keys h k
  rw [← hperm.length_eq, List.length_map]

/-- The service resource tells the name of the service it was built from. -/
theorem ecsService_name {lib : Lib} {project : Project} {s1 s2 : ServiceConfig}
    {res : resources} (h : ecsService lib project s1 res = ecsService lib project s2 res) :
    s1.Name = s2.Name := by
  have htags := congrArg CfnResource.Tags h
  simpa [ecsService, CfnResource.Tags, serviceTags] using htags

/-- When no two writes of the services share a name, every write adds a
resource to the three project-wide ones. -/
theorem convert_length_of_distinct {lib : Lib} {project : Project} {t : Template}
    (h : convert lib project = .ok t)
    (hd : ((servicesWrites lib project (resourcesOf project) project.Services).map
      Prod.fst).Nodup) :
    t.Resources.length =
      3 + (servicesWrites lib project (resourcesOf project) project.Services).length := by
  rw [convert_length h, List.dedup_eq_self.mpr]
  · simp only [List.length_append, List.length_map, List.length_cons, List.length_nil]
  · refine List.Nodup.append (by decide) hd ?_
    intro k hb hw
    obtain ⟨⟨k', r⟩, hw', rfl⟩ := List.mem_map.mp hw
    obtain ⟨kv, _, hw''⟩ := mem_servicesWrites.mp hw'
    have hne := serviceWrite_ne_base hw''
    simp only [List.mem_cons, List.mem_singleton, List.not_mem_nil, or_false] at hb
    rcases hb with hb | hb | hb
    · exact hne.1 hb
    · exact hne.2.1 hb
    · exact hne.2.2 hb

/-- What `createService` does for a service does not depend on the other
services of the project. -/
theorem createService_services (lib : Lib) (project : Project)
    (services : GoMap ServiceConfig) (service : ServiceConfig) (t : Template)
    (res : resources) :
    createService lib { project with Services := services } service t res =
      createService lib project service t res := by
  simp only [createService, createPorts_eq]
  rfl

/-- When every service converts on some template, the loop over the services
succeeds from every template. -/
theorem createServices_of_each {lib : Lib} {project : Project} {res : resources}
    {services : GoMap ServiceConfig}
    (h : ∀ kv ∈ services, ∃ t0 t1, createService lib project kv.2 t0 res = .ok t1)
    (t : Template) :
    createServices lib project res services t =
      .ok (t.write (servicesWrites lib project res services)) := by
  induction services generalizing t with
  | nil => rfl
  | cons kv rest ih =>
    obtain ⟨key, service⟩ := kv
    obtain ⟨t0, t1, h01⟩ := h (key, service) (List.mem_cons_self _ _)
    simp only [createServices, createService_any_template h01 t, Outcome.bind]
    rw [ih fun kv hkv => h kv (List.mem_cons_of_mem _ hkv)]
    simp only [servicesWrites, List.flatMap_cons, Template.write_append]

/-- The steps of `convert` before the loop over the services do not read the
services: when they pass for some list of services, `convert` is the loop. -/
theorem convert_of_createServices {lib : Lib} {project : Project}
    {services0 : GoMap ServiceConfig} {t0 t : Template}
    (h0 : convert lib { project with Services := services0 } = .ok t0)
    (hcs : createServices lib project (resourcesOf project) project.Services
      (baseTemplate project (resourcesOf project)) = .ok t) :
    convert lib project = .ok t := by
  unfold convert at h0 ⊢
  rw [show checkCompatibility { project with Services := services0 } =
    checkCompatibility project from rfl] at h0
  simp only at h0
  cases hcc : checkCompatibility project with
  | error e => rw [hcc] at h0; cases h0
  | ok u =>
    rw [hcc] at h0
    simp only at h0 ⊢
    cases hlb : mapGet extensionLoadBalancer project.Extensions with
    | none => rw [hlb] at h0; cases h0
    | some x =>
      rw [hlb] at h0
      simp only at h0 ⊢
      cases hx : assertString x with
      | error e => rw [hx] at h0; cases h0
      | panic e => rw [hx] at h0; cases h0
      | ok loadBalancer =>
        rw [hx] at h0
        simp only [Outcome.bind] at h0 ⊢
        cases hsn : mapGet extensionSubnets project.Extensions with
        | none => rw [hsn] at h0; cases h0
        | some y =>
          rw [hsn] at h0
          simp only at h0 ⊢
          cases hy : assertStringList y with
          | error e => rw [hy] at h0; cases h0
          | panic e => rw [hy] at h0; cases h0
          | ok subnets =>
            rw [hy] at h0
            simp only at h0 ⊢
            cases hvpc : mapGet extensionVpc project.Extensions with
            | none => rw [hvpc] at h0; cases h0
            | some z =>
              rw [hvpc] at h0
              simp only at h0 ⊢
              cases hz : assertString z with
              | error e => rw [hz] at h0; cases h0
              | panic e => rw [hz] at h0; cases h0
              | ok vpc =>
                simp only
                have hres : resourcesOf project =
                    { loadBalancer := loadBalancer, securityGroups := [],
                      subnets := subnets, vpc := vpc } := by
                  cases x <;> simp only [assertString] at hx <;> try cases hx
                  cases z <;> simp only [assertString] at hz <;> try cases hz
                  simp [resourcesOf, hlb, hsn, hvpc, hy, Outcome.getD]
                rw [← hres]
                exact hcs

/-- A project each of whose services converts when it is the only service
converts, to the three project-wide resources with the writes of all its
services. -/
theorem convert_of_each_alone {lib : Lib} {project : Project}
    (halone : ∀ kv ∈ project.Services,
      ∃ t', convert lib { project with Services := [kv] } = .ok t')
    {kv0 : String × ServiceConfig} (hkv0 : kv0 ∈ project.Services) :
    convert lib project =
      .ok ((baseTemplate project (resourcesOf project)).write
        (servicesWrites lib project (resourcesOf project) project.Services)) := by
  obtain ⟨t0, h0⟩ := halone kv0 hkv0
  refine convert_of_createServices h0 (createServices_of_each ?_ _)
  intro kv hkv
  obtain ⟨t', h'⟩ := halone kv hkv
  obtain ⟨ta, tb, hab⟩ := createServices_each (convert_ok_createServices h') kv
    (List.mem_singleton_self kv)
  rw [createService_services] at hab
  exact ⟨ta, tb, hab⟩

/-- C23: a project each of whose services converts when it is the only
service, and that has two services whose distinct names normalize to the same
string, converts without error: nothing reports the collision.  Each of the
two services converts whatever the template already holds; the five
identifiers every service writes are shared; the template holds a single
resource under each of them; the service resource under the shared identifier
was built from one service of that normalized name, so the definition of at
least one of the two is lost; and the template has fewer resources than the
three project-wide ones plus one per write, which is the number it has
whenever no two writes share a name. -/
theorem collision_is_silent (lib : Lib) (project : Project)
    (k1 k2 : String) (s1 s2 : ServiceConfig)
    (halone : ∀ kv ∈ project.Services,
      ∃ t', convert lib { project with Services := [kv] } = .ok t')
    (h1 : (k1, s1) ∈ project.Services) (h2 : (k2, s2) ∈ project.Services)
    (hne : s1.Name ≠ s2.Name)
    (hnorm : normalizeResourceName s1.Name = normalizeResourceName s2.Name) :
    ∃ t, convert lib project = .ok t ∧
      (∀ t0 : Template,
        (createService lib project s1 t0 (resourcesOf project)).isOk = true ∧
          (createService lib project s2 t0 (resourcesOf project)).isOk = true) ∧
      [serviceDiscoveryEntryName s1, serviceTaskDefinitionName s1,
          serviceTaskExecutionRoleName s1, serviceTaskRoleName s1, serviceName s1] =
        [serviceDiscoveryEntryName s2, serviceTaskDefinitionName s2,
          serviceTaskExecutionRoleName s2, serviceTaskRoleName s2, serviceName s2] ∧
      (∀ name ∈ [serviceDiscoveryEntryName s1, serviceTaskDefinitionName s1,
          serviceTaskExecutionRoleName s1, serviceTaskRoleName s1, serviceName s1],
        (t.Resources.map Prod.fst).count name = 1) ∧
      (∃ kv ∈ project.Services,
        normalizeResourceName kv.2.Name = normalizeResourceName s1.Name ∧
          t.get (serviceName s1) =
            some (ecsService lib project kv.2 (resourcesOf project))) ∧
      (t.get (serviceName s1) ≠ some (ecsService lib project s1 (resourcesOf project)) ∨
        t.get (serviceName s2) ≠ some (ecsService lib project s2 (resourcesOf project))) ∧
      t.Resources.length <
        3 + (servicesWrites lib project (resourcesOf project) project.Services).length ∧
      ∀ (project' : Project) (t' : Template), convert lib project' = .ok t' →
        ((servicesWrites lib project' (resourcesOf project') project'.Services).map
          Prod.fst).Nodup →
        t'.Resources.length =
          3 + (servicesWrites lib project' (resourcesOf project') project'.Services).length := by
  have hconv := convert_of_each_alone halone h1
  refine ⟨_, hconv, ?_⟩
  generalize (baseTemplate project (resourcesOf project)).write
    (servicesWrites lib project (resourcesOf project) project.Services) = t at hconv ⊢
  have hname : serviceName s1 = serviceName s2 := by simp only [serviceName, hnorm]
  refine ⟨?_, ?_, ?_, ?_, ?_, ?_, ?_⟩
  · intro t0
    rw [convert_service_any_template hconv h1 t0, convert_service_any_template hconv h2 t0]
    exact ⟨rfl, rfl⟩
  · simp only [serviceDiscoveryEntryName, serviceTaskDefinitionName,
      serviceTaskExecutionRoleName, serviceTaskRoleName, serviceName, hnorm]
  · intro name hmem
    apply List.count_eq_one_of_mem (convert_keys_nodup hconv)
    rw [convert_mem_keys hconv]
    apply List.mem_append_right
    have hw : ∃ r, (name, r) ∈ serviceWrites lib project s1 (resourcesOf project) := by
      simp only [List.mem_cons, List.mem_singleton, List.not_mem_nil, or_false] at hmem
      rcases hmem with rfl | rfl | rfl | rfl | rfl
      · exact ⟨_, mem_serviceWrites.mpr (Or.inl rfl)⟩
      · exact ⟨_, mem_serviceWrites.mpr (Or.inr (Or.inl rfl))⟩
      · exact ⟨_, mem_serviceWrites.mpr (Or.inr (Or.inr (Or.inl rfl)))⟩
      · exact ⟨_, mem_serviceWrites.mpr (Or.inr (Or.inr (Or.inr (Or.inl rfl))))⟩
      · exact ⟨_, ecsService_mem_serviceWrites lib project s1 _⟩
    obtain ⟨r, hr⟩ := hw
    exact List.mem_map.mpr ⟨(name, r), mem_servicesWrites.mpr ⟨(k1, s1), h1, hr⟩, rfl⟩
  · obtain ⟨r', hget, kv', hkv', hw⟩ :=
      convert_written hconv h1 (ecsService_mem_serviceWrites lib project s1 _)
    have heq := (serviceWrite_of_tail hw).2.2 (tail_serviceName s1)
    have hn : serviceName s1 = serviceName kv'.2 := (Prod.mk.inj heq).1
    exact ⟨kv', hkv', string_append_right_cancel hn.symm, by rw [hget, (Prod.mk.inj heq).2]⟩
  · by_contra hboth
    rw [not_or, not_not, not_not] at hboth
    rw [← hname, hboth.1] at hboth
    exact hne (ecsService_name (Option.some.inj hboth.2))
  · rw [convert_length hconv]
    have hnot : ¬ (["CloudMap", "Cluster", "LogGroup"] ++
        (servicesWrites lib project (resourcesOf project) project.Services).map
          Prod.fst).Nodup := by
      intro hnd
      have hw := (List.nodup_append.mp hnd).2.1
      have hinj := (List.nodup_map_iff_inj_on hw.of_map).mp hw
      have hm1 : (serviceName s1, ecsService lib project s1 (resourcesOf project)) ∈
          servicesWrites lib project (resourcesOf project) project.Services :=
        mem_servicesWrites.mpr ⟨(k1, s1), h1, ecsService_mem_serviceWrites lib project s1 _⟩
      have hm2 : (serviceName s2, ecsService lib project s2 (resourcesOf project)) ∈
          servicesWrites lib project (resourcesOf project) project.Services :=
        mem_servicesWrites.mpr ⟨(k2, s2), h2, ecsService_mem_serviceWrites lib project s2 _⟩
      have := hinj _ hm1 _ hm2 hname
      exact hne (ecsService_name (Prod.mk.inj this).2)
    have hsub := List.dedup_sublist (["CloudMap", "Cluster", "LogGroup"] ++
        (servicesWrites lib project (resourcesOf project) project.Services).map Prod.fst)
    have hle := hsub.length_le
    have hlen : (["CloudMap", "Cluster", "LogGroup"] ++
        (servicesWrites lib project (resourcesOf project) project.Services).map
          Prod.fst).length =
        3 + (servicesWrites lib project (resourcesOf project) project.Services).length := by
      simp only [List.length_append, List.length_map, List.length_cons, List.length_nil]
    rcases Nat.lt_or_ge
      (["CloudMap", "Cluster", "LogGroup"] ++
        (servicesWrites lib project (resourcesOf project) project.Services).map
          Prod.fst).dedup.length
      (3 + (servicesWrites lib project (resourcesOf project) project.Services).length)
      with hlt | hge
    · exact hlt
    · exfalso
      have heq := hsub.eq_of_length (by omega)
      exact hnot (List.dedup_eq_self.mp heq)
  · intro project' t' hconv' hd
    exact convert_length_of_distinct hconv' hd

theorem collision_is_silent_witness :
    normalizeResourceName "front-tier" = "Fronttier" ∧
      normalizeResourceName "fronttier" = "Fronttier" ∧
      ((convert goLib collidingProject).getD NewTemplate).Resources.length = 8 ∧
      ((convert goLib separateProject).getD NewTemplate).Resources.length = 13 ∧
      (((convert goLib collidingProject).getD NewTemplate).get "FronttierService").map
          CfnResource.Tags =
        some [⟨ProjectLabel, "demo"⟩, ⟨ServiceLabel, "fronttier"⟩] ∧
      ∃ t, convert goLib collidingProject = .ok t ∧
        (t.Resources.map Prod.fst).count "FronttierService" = 1 ∧
        t.Resources.length <
          3 + (servicesWrites goLib collidingProject (resourcesOf collidingProject)
            collidingProject.Services).length := by
  refine ⟨by decide, by decide, by decide, by decide, by decide, ?_⟩
  obtain ⟨t, hconv, _, _, hcount, _, _, hlt, _⟩ :=
    collision_is_silent goLib collidingProject "front-tier" "fronttier"
      (plainService "front-tier" "nginx") (plainService "fronttier" "redis")
      (fun kv hkv => by
        simp only [collidingProject, projectOf, List.map, List.mem_cons, List.mem_singleton,
          List.not_mem_nil, or_false] at hkv
        rcases hkv with rfl | rfl
        · exact ⟨_, rfl⟩
        · exact ⟨_, rfl⟩)
      (List.Mem.head _) (List.Mem.tail _ (List.Mem.head _)) (by decide) (by decide)
  exact ⟨t, hconv,
    hcount _ (List.Mem.tail _ (List.Mem.tail _ (List.Mem.tail _ (List.Mem.tail _
      (List.Mem.head _))))), hlt⟩

/-! ## Rolling updates, ulimits, absent values, autoscaling without a target, default networks -/

/-- A write of `createService` that is a service resource is the one built by
`ecsService`. -/
theorem serviceWrite_service {lib : Lib} {project : Project} {service : ServiceConfig}
    {res : resources} {name : String} {s : EcsService}
    (h : (name, CfnResource.service s) ∈ serviceWrites lib project service res) :
    CfnResource.service s = ecsService lib project service res := by
  rcases mem_serviceWrites.mp h with heq | heq | heq | heq | ⟨port, hp, kv, hkv, heq⟩ |
    ⟨port, hp, heq⟩ | ⟨port, hp, heq⟩ | heq | ⟨config, hc, heq | heq | heq⟩
  · simp [discoveryEntry] at heq
  · simp [taskDefinition] at heq
  · simp [taskExecutionRole] at heq
  · simp [taskRole] at heq
  · simp [ingress] at heq
  · simp [listener] at heq
  · simp [targetGroup] at heq
  · exact (Prod.mk.inj heq).2
  · simp [autoScalingRole] at heq
  · simp [scalableTarget] at heq
  · simp [scalingPolicy] at heq

/-- C31: every service resource of a template that `convert` returns has
MaximumPercent = 200 and MinimumHealthyPercent = 100, every service of the
project has a service resource, and the resource `ecsService` builds has these
two values for every service, whatever its replica count and update
configuration are. -/
theorem rollingUpdate_fixed (lib : Lib) (project : Project) (t : Template)
    (hconv : convert lib project = .ok t) :
    (∀ (name : String) (s : EcsService), t.service? name = some s →
        s.MaximumPercent = 200 ∧ s.MinimumHealthyPercent = 100) ∧
      (∀ kv ∈ project.Services, ∃ s, t.service? (serviceName kv.2) = some s) ∧
      ∀ (service : ServiceConfig) (res : resources),
        ∃ s, ecsService lib project service res = .service s ∧
          s.MaximumPercent = 200 ∧ s.MinimumHealthyPercent = 100 := by
  refine ⟨?_, ?_, fun service res => ⟨_, rfl, rfl, rfl⟩⟩
  · intro name s hs
    have hget : t.get name = some (.service s) := by
      unfold Template.service? at hs
      split at hs
      · next s' heq =>
        cases hs
        exact heq
      · cases hs
    rcases convert_entry hconv hget with hbase | ⟨kv, _, hw⟩
    · rcases baseTemplate_get _ _ _ _ hbase with ⟨_, _, _, _, _, h⟩ | ⟨_, _, _, h⟩ |
        ⟨_, _, _, h⟩ <;> cases h
    · have heq := serviceWrite_service hw
      simp only [ecsService, CfnResource.service.injEq] at heq
      rw [heq]
      exact ⟨rfl, rfl⟩
  · intro kv hkv
    obtain ⟨r', hget, kv', _, hw⟩ :=
      convert_written hconv hkv (ecsService_mem_serviceWrites lib project kv.2 _)
    have heq := (serviceWrite_of_tail hw).2.2 (tail_serviceName kv.2)
    rw [Template.service?, hget, (Prod.mk.inj heq).2]
    exact ⟨_, rfl⟩

theorem rollingUpdate_fixed_witness :
    rollingService.Deploy.map (fun d => (d.Replicas, d.UpdateConfig)) =
        some (some 4, some ⟨some 2⟩) ∧
      (((convert goLib (projectOf "demo" [rollingService])).getD NewTemplate).service?
          "FooService").map (fun s => (s.MaximumPercent, s.MinimumHealthyPercent)) =
        some (200, 100) ∧
      ∀ (name : String) (s : EcsService),
        ((convert goLib (projectOf "demo" [rollingService])).getD NewTemplate).service? name =
            some s →
          s.MaximumPercent = 200 ∧ s.MinimumHealthyPercent = 100 :=
  ⟨by decide, by decide,
    (rollingUpdate_fixed goLib (projectOf "demo" [rollingService]) _ rfl).1⟩

/-- C33: `toUlimits` makes a slice of length n and then appends the n declared
ulimits to it, so for a non-empty map it returns 2n entries: n zero entries
with an empty name, then the declared ones.  For the one ulimit `nofile` (soft
1024, hard 2048) it returns two entries, the first with an empty name, and the
container definition `convert` writes carries both. -/
theorem toUlimits_doubles :
    (∀ ulimits : GoMap UlimitsConfig, ulimits ≠ [] →
        (toUlimits ulimits).length = 2 * ulimits.length ∧
          (toUlimits ulimits).take ulimits.length =
            List.replicate ulimits.length ⟨"", 0, 0⟩ ∧
          (toUlimits ulimits).drop ulimits.length =
            ulimits.map fun kv => ⟨kv.1, kv.2.Soft, kv.2.Hard⟩) ∧
      toUlimits [("nofile", ⟨1024, 2048⟩)] = [⟨"", 0, 0⟩, ⟨"nofile", 1024, 2048⟩] ∧
      ((convert goLib (projectOf "demo" [ulimitService [("nofile", ⟨1024, 2048⟩)]])).template?.bind
          fun t => t.taskDefinition? "TestTaskDefinition").map
          (fun d => d.ContainerDefinitions.map fun c => c.Ulimits) =
        some [[⟨"", 0, 0⟩, ⟨"nofile", 1024, 2048⟩]] := by
  refine ⟨?_, by decide, by decide⟩
  intro ulimits hne
  have hlen : ¬ ulimits.length = 0 := fun h => hne (List.length_eq_zero.mp h)
  simp only [toUlimits, hlen, if_false]
  refine ⟨?_, ?_, ?_⟩
  · simp only [List.length_append, List.length_replicate, List.length_map]
    omega
  · rw [List.take_append_of_le_length (by simp)]
    simp
  · rw [List.drop_append_of_le_length (by simp)]
    simp

/-- C34: `createEnvironment` dereferences every value of the environment map,
so a key declared without a value makes it panic: it returns no pair at all.
For the map with the one key `FOO` and no value it panics, and so does
`convert` on a project with such a service. -/
theorem createEnvironment_absent_value_panics :
    (∀ (service : ServiceConfig) (key : String), (key, none) ∈ service.Environment →
        createEnvironment service =
          .panic "invalid memory address or nil pointer dereference") ∧
      createEnvironment (environmentService [("FOO", none)]) =
        .panic "invalid memory address or nil pointer dereference" ∧
      convert goLib (projectOf "demo" [environmentService [("FOO", none)]]) =
        .panic "invalid memory address or nil pointer dereference" := by
  refine ⟨?_, rfl, rfl⟩
  intro service key hmem
  have hpairs : ∀ env : GoMap (Option String), (key, none) ∈ env →
      environmentPairs env = .panic "invalid memory address or nil pointer dereference" := by
    intro env
    induction env with
    | nil => intro h; cases h
    | cons kv rest ih =>
      intro h
      obtain ⟨k, v⟩ := kv
      cases v with
      | none => rfl
      | some v =>
        rcases List.mem_cons.mp h with h | h
        · cases h
        · simp only [environmentPairs, ih h]
          rfl
  simp only [createEnvironment, hpairs _ hmem]
  rfl

/-- C35: an autoscaling extension that decodes to a non-zero max and to neither
a cpu nor a memory target is accepted: `createAutoscalingPolicy` returns no
error and writes the target-tracking policy `<Svc>ScalingPolicy` on the
CPU-utilization metric with TargetValue 0. -/
theorem autoscaling_without_target (lib : Lib) (project : Project) (template : Template)
    (service : ServiceConfig) (deploy : DeployConfig) (v : Value)
    (config : AutoscalingConfig) (hd : service.Deploy = some deploy)
    (hv : mapGet extensionAutoScaling deploy.Extensions = some v)
    (hc : lib.decodeAutoscaling v = .ok config)
    (hcpu : config.CPU = 0) (hmem : config.Memory = 0) (hmax : config.Max ≠ 0) :
    ∃ t', createAutoscalingPolicy lib project template service = .ok t' ∧
      t'.scalingPolicy? (serviceScalingPolicyName service) =
        some
          { PolicyType := "TargetTrackingScaling"
            PolicyName := serviceScalingPolicyName service
            ScalingTargetId := lib.Ref (serviceScalableTargetName service)
            PredefinedMetricType := "ECSServiceAverageCPUUtilization"
            ScaleOutCooldown := 60
            ScaleInCooldown := 60
            TargetValue := 0 } := by
  have hacc : acceptedAutoscaling lib service = some config :=
    acceptedAutoscaling_of_decoded hd hv hc (fun h => h.1 hmem) hmax
  obtain ⟨t', hok, _, h2⟩ := createAutoscalingPolicy_accepted project template hacc
  refine ⟨t', hok, ?_⟩
  rw [Template.scalingPolicy?, h2]
  simp [scalingPolicy, hmem, hcpu]

theorem autoscaling_without_target_witness :
    ∃ t',
      createAutoscalingPolicy goLib demoProject NewTemplate
          (autoscaledService (.map [("max", .int 10)])) = .ok t' ∧
        t'.scalingPolicy? (serviceScalingPolicyName (autoscaledService (.map [("max", .int 10)]))) =
          some
            { PolicyType := "TargetTrackingScaling"
              PolicyName := serviceScalingPolicyName (autoscaledService (.map [("max", .int 10)]))
              ScalingTargetId :=
                goLib.Ref (serviceScalableTargetName (autoscaledService (.map [("max", .int 10)])))
              PredefinedMetricType := "ECSServiceAverageCPUUtilization"
              ScaleOutCooldown := 60
              ScaleInCooldown := 60
              TargetValue := 0 } :=
  autoscaling_without_target goLib demoProject NewTemplate
    (autoscaledService (.map [("max", .int 10)])) _ (.map [("max", .int 10)]) ⟨0, 0, 0, 10⟩
    rfl rfl rfl rfl rfl (by decide)

/-- The network loop of `checkCompatibility` does not read the keys. -/
theorem checkNetworks_keys (networks : GoMap NetworkConfig) (rename : String → String) :
    checkNetworks (networks.map fun kv => (rename kv.1, kv.2)) = checkNetworks networks := by
  induction networks with
  | nil => rfl
  | cons kv rest ih =>
    obtain ⟨key, network⟩ := kv
    simp only [List.map_cons, checkNetworks, ih]

/-- The network loop of `checkCompatibility` fails with the name of the first
network that is neither external nor named `..._default`. -/
theorem checkNetworks_error (networks : GoMap NetworkConfig)
    (h : ∃ kv ∈ networks, kv.2.External = false ∧ hasSuffix kv.2.Name "_default" = false) :
    ∃ kv ∈ networks, kv.2.External = false ∧ hasSuffix kv.2.Name "_default" = false ∧
      checkNetworks networks = .error ("only external networks are supported: " ++ kv.2.Name) := by
  induction networks with
  | nil =>
    obtain ⟨kv, hkv, _⟩ := h
    cases hkv
  | cons kv rest ih =>
    obtain ⟨key, network⟩ := kv
    by_cases h1 : hasSuffix network.Name "_default" = true
    · obtain ⟨kv', hkv', hext, hsuf⟩ := h
      rcases List.mem_cons.mp hkv' with rfl | hrest
      · rw [h1] at hsuf
        cases hsuf
      · obtain ⟨kv'', hmem, h2, h3, h4⟩ := ih ⟨kv', hrest, hext, hsuf⟩
        exact ⟨kv'', List.mem_cons_of_mem _ hmem, h2, h3, by simp [checkNetworks, h1, h4]⟩
    · by_cases h2 : network.External = true
      · obtain ⟨kv', hkv', hext, hsuf⟩ := h
        rcases List.mem_cons.mp hkv' with rfl | hrest
        · rw [h2] at hext
          cases hext
        · obtain ⟨kv'', hmem, h3, h4, h5⟩ := ih ⟨kv', hrest, hext, hsuf⟩
          exact ⟨kv'', List.mem_cons_of_mem _ hmem, h3, h4,
            by simp [checkNetworks, h1, h2, h5]⟩
      · refine ⟨(key, network), List.mem_cons_self _ _, by simpa using h2, by simpa using h1,
          ?_⟩
        simp [checkNetworks, h1, h2]

/-- C36: `checkCompatibility` tells the default network by the suffix of its
name only.  It never reads the key of a network; a project without configs,
volumes and non-external secrets is accepted when every non-external network
has a name ending in `_default`, whatever the keys; and a project without
configs that has a non-external network whose name does not end in `_default`
is rejected with the error naming such a network, whatever its key. -/
theorem checkCompatibility_default_by_suffix (project : Project)
    (hconfigs : project.Configs = []) :
    (∀ rename : String → String,
        checkCompatibility
            { project with Networks := project.Networks.map fun kv => (rename kv.1, kv.2) } =
          checkCompatibility project) ∧
      (project.Volumes = [] → (∀ kv ∈ project.Secrets, kv.2.External = true) →
        (∀ kv ∈ project.Networks, kv.2.External = false →
          hasSuffix kv.2.Name "_default" = true) →
        checkCompatibility project = .ok ()) ∧
      ((∃ kv ∈ project.Networks,
          kv.2.External = false ∧ hasSuffix kv.2.Name "_default" = false) →
        ∃ kv ∈ project.Networks,
          kv.2.External = false ∧ hasSuffix kv.2.Name "_default" = false ∧
            checkCompatibility project =
              .error ("only external networks are supported: " ++ kv.2.Name)) := by
  refine ⟨?_, ?_, ?_⟩
  · intro rename
    simp only [checkCompatibility, checkNetworks_keys]
  · intro hvol hsec hnet
    have h1 : checkNetworks project.Networks = .ok () := by
      rw [checkNetworks_ok_iff]
      intro kv hkv
      cases hext : kv.2.External with
      | true => exact Or.inl rfl
      | false => exact Or.inr (hnet kv hkv hext)
    have h2 : checkSecrets project.Secrets = .ok () := (checkSecrets_ok_iff _).mpr hsec
    simp [checkCompatibility, hconfigs, hvol, h1, h2]
  · intro h
    obtain ⟨kv, hkv, h1, h2, h3⟩ := checkNetworks_error project.Networks h
    exact ⟨kv, hkv, h1, h2, by simp [checkCompatibility, hconfigs, h3]⟩

theorem checkCompatibility_default_by_suffix_witness :
    checkCompatibility (projectWithNetworks [("backend", ⟨"backend_default", false⟩)]) =
        .ok () ∧
      ∃ kv ∈ (projectWithNetworks [("default", ⟨"mynet", false⟩)]).Networks,
        kv.2.External = false ∧ hasSuffix kv.2.Name "_default" = false ∧
          checkCompatibility (projectWithNetworks [("default", ⟨"mynet", false⟩)]) =
            .error ("only external networks are supported: " ++ kv.2.Name) :=
  ⟨(checkCompatibility_default_by_suffix
      (projectWithNetworks [("backend", ⟨"backend_default", false⟩)]) rfl).2.1 rfl
      (by decide) (by decide),
    (checkCompatibility_default_by_suffix
      (projectWithNetworks [("default", ⟨"mynet", false⟩)]) rfl).2.2
      ⟨("default", ⟨"mynet", false⟩), List.Mem.head _, rfl, by decide⟩⟩

/-! ## The sizing scan: least entry and monotonicity -/

/-- In an ascending list, the first element that passes a test is the least
element that passes it. -/
theorem find?_le_of_sorted {l : List Int} (hs : l.Pairwise (fun a b => a < b))
    {p : Int → Bool} {a : Int} (h : l.find? p = some a) :
    ∀ b ∈ l, p b = true → a ≤ b := by
  induction l with
  | nil => cases h
  | cons x xs ih =>
    intro b hb hpb
    rw [List.pairwise_cons] at hs
    by_cases hx : p x = true
    · simp only [List.find?, hx, Option.some.injEq] at h
      subst h
      rcases List.mem_cons.mp hb with rfl | hb
      · exact le_refl _
      · exact le_of_lt (hs.1 b hb)
    · have hx' : p x = false := by simpa using hx
      simp only [List.find?, hx'] at h
      rcases List.mem_cons.mp hb with rfl | hb
      · exact absurd hpb hx
      · exact ih hs.2 h b hb hpb

theorem fargateCPUs_sorted : fargateCPUs.Pairwise (fun a b => a < b) := by decide

theorem fargateOptions_sorted :
    ∀ c ∈ fargateCPUs, (fargateOptions c).Pairwise (fun a b => a < b) := by decide

/-- The pair a successful scan returns: the least CPU tier that accommodates the
request, with the least memory option of that tier that does. -/
theorem scanCPUs_ok_least {mem cpu : Int} {a b : String}
    (hok : scanCPUs mem cpu fargateCPUs = .ok (a, b)) :
    ∃ c m, a = formatInt c ∧ b = formatInt m ∧ c ∈ fargateCPUs ∧ m ∈ fargateOptions c ∧
      cpu ≤ c ∧ mem ≤ m * miB ∧
      (∀ c' ∈ fargateCPUs, cpu ≤ c' → (∃ m' ∈ fargateOptions c', mem ≤ m' * miB) → c ≤ c') ∧
      ∀ m' ∈ fargateOptions c, mem ≤ m' * miB → m ≤ m' := by
  obtain ⟨c, m, hfc, hfm, ha, hb⟩ := (scanCPUs_ok_iff mem cpu fargateCPUs a b).mp hok
  have hc := List.mem_of_find?_eq_some hfc
  have hpc := List.find?_some hfc
  have hm := List.mem_of_find?_eq_some hfm
  have hpm := List.find?_some hfm
  simp only [Bool.and_eq_true, decide_eq_true_eq] at hpc hpm
  refine ⟨c, m, ha, hb, hc, hm, hpc.1, hpm, ?_, ?_⟩
  · rintro c' hc' hle ⟨m', hm', hfit⟩
    apply find?_le_of_sorted fargateCPUs_sorted hfc c' hc'
    simp only [Bool.and_eq_true, decide_eq_true_eq, List.any_eq_true]
    exact ⟨hle, m', hm', hfit⟩
  · intro m' hm' hfit
    apply find?_le_of_sorted (fargateOptions_sorted c hc) hfm m' hm'
    simpa using hfit

/-- The CPU tier and memory option behind a pair `toLimits` returns. -/
theorem toLimits_ok_entry {lib : Lib} {service : ServiceConfig} {mem cpu : Int}
    {a b : String} (hreq : getConfiguredLimits lib service = .ok (mem, cpu))
    (hok : toLimits lib service = .ok (a, b)) :
    ∃ c m, a = formatInt c ∧ b = formatInt m ∧ c ∈ fargateCPUs ∧ m ∈ fargateOptions c ∧
      cpu ≤ c ∧ mem ≤ m * miB := by
  rw [toLimits_of_request hreq] at hok
  by_cases hz : mem = 0 ∧ cpu = 0
  · rw [if_pos hz] at hok
    simp only [Except.ok.injEq, Prod.mk.injEq] at hok
    obtain ⟨rfl, rfl⟩ := hz
    exact ⟨256, 512, by rw [formatInt_256, hok.1], by rw [formatInt_512, hok.2],
      by decide, by decide, by decide, by decide⟩
  · rw [if_neg hz] at hok
    obtain ⟨c, m, ha, hb, hc, hm, h1, h2, _, _⟩ := scanCPUs_ok_least hok
    exact ⟨c, m, ha, hb, hc, hm, h1, h2⟩

/-- C32: for every non-zero request, `toLimits` succeeds when some entry of the
table accommodates it, and the pair it returns on success is an entry (cpu
tier, memory tier) of the table with cpu tier >= the requested CPU and memory
tier x 1 MiB >= the requested memory that is lexicographically least among
such entries: every other accommodating entry has a larger CPU tier, or the
same CPU tier and a memory tier at least as large. -/
theorem toLimits_least_entry (lib : Lib) (service : ServiceConfig) (mem cpu : Int)
    (hreq : getConfiguredLimits lib service = .ok (mem, cpu)) (hnz : (mem, cpu) ≠ (0, 0)) :
    ((∃ p ∈ fargateCPUToMem, ∃ m ∈ p.2, cpu ≤ p.1 ∧ mem ≤ m * miB) →
        ∃ a b, toLimits lib service = .ok (a, b)) ∧
      ∀ a b, toLimits lib service = .ok (a, b) →
        ∃ c m options, a = formatInt c ∧ b = formatInt m ∧
          (c, options) ∈ fargateCPUToMem ∧ m ∈ options ∧ cpu ≤ c ∧ mem ≤ m * miB ∧
          ∀ p ∈ fargateCPUToMem, ∀ m' ∈ p.2, cpu ≤ p.1 → mem ≤ m' * miB →
            c < p.1 ∨ (c = p.1 ∧ m ≤ m') := by
  have hnz' : ¬ (mem = 0 ∧ cpu = 0) := by
    rintro ⟨rfl, rfl⟩; exact hnz rfl
  rw [toLimits_of_request hreq, if_neg hnz']
  constructor
  · rintro ⟨p, hp, m, hm, hfit⟩
    rcases scanCPUs_ok_or_error mem cpu fargateCPUs with h | h
    · exact h
    · exfalso
      have hno := ((scanCPUs_error_iff mem cpu fargateCPUs _).mp h).2
      exact (no_tier_iff_no_entry mem cpu).mp hno p hp m hm hfit
  · intro a b hok
    obtain ⟨c, m, ha, hb, hc, hm, h1, h2, hminc, hminm⟩ := scanCPUs_ok_least hok
    refine ⟨c, m, fargateOptions c, ha, hb, fargate_table_entries.2 c hc, hm, h1, h2, ?_⟩
    intro p hp m' hm' hle hfit
    obtain ⟨hpc, hpo⟩ := fargate_table_entries.1 p hp
    have hcle : c ≤ p.1 := hminc p.1 hpc hle ⟨m', by rw [hpo]; exact hm', hfit⟩
    rcases lt_or_eq_of_le hcle with hlt | heq
    · exact Or.inl hlt
    · refine Or.inr ⟨heq, hminm m' ?_ hfit⟩
      rw [heq, hpo]
      exact hm'

theorem toLimits_least_entry_witness :
    toLimits goLib (sizedService "0.256" (4096 * miB)) = .ok ("512", "4096") ∧
      ∃ c m options, "512" = formatInt c ∧ "4096" = formatInt m ∧
        (c, options) ∈ fargateCPUToMem ∧ m ∈ options ∧ (256 : Int) ≤ c ∧
        4096 * miB ≤ m * miB ∧
        ∀ p ∈ fargateCPUToMem, ∀ m' ∈ p.2, (256 : Int) ≤ p.1 → 4096 * miB ≤ m' * miB →
          c < p.1 ∨ (c = p.1 ∧ m ≤ m') :=
  ⟨rfl,
    (toLimits_least_entry goLib (sizedService "0.256" (4096 * miB)) (4096 * miB) 256 rfl
      (by decide)).2 "512" "4096" rfl⟩

/-- C37: `toLimits` is monotone in the CPU tier.  For two requests with
mem1 <= mem2 and cpu1 <= cpu2 on which it succeeds, the CPU tiers behind the two
returned strings (each string is the decimal form of exactly one tier) satisfy
tier1 <= tier2; and when it fails on the first request it fails on the second,
with the same error. -/
theorem toLimits_monotone (lib : Lib) (service1 service2 : ServiceConfig)
    (mem1 cpu1 mem2 cpu2 : Int)
    (hreq1 : getConfiguredLimits lib service1 = .ok (mem1, cpu1))
    (hreq2 : getConfiguredLimits lib service2 = .ok (mem2, cpu2))
    (hmem : mem1 ≤ mem2) (hcpu : cpu1 ≤ cpu2) :
    (∀ a1 b1 a2 b2, toLimits lib service1 = .ok (a1, b1) →
        toLimits lib service2 = .ok (a2, b2) →
        ∃ c1 c2, c1 ∈ fargateCPUs ∧ c2 ∈ fargateCPUs ∧ a1 = formatInt c1 ∧
          a2 = formatInt c2 ∧ c1 ≤ c2) ∧
      (∀ c ∈ fargateCPUs, ∀ c' ∈ fargateCPUs, formatInt c = formatInt c' → c = c') ∧
      (∀ e, toLimits lib service1 = .error e → toLimits lib service2 = .error e) := by
  refine ⟨?_, by decide, ?_⟩
  · intro a1 b1 a2 b2 hok1 hok2
    obtain ⟨c2, m2, ha2, _, hc2, hm2, hle2, hfit2⟩ := toLimits_ok_entry hreq2 hok2
    rw [toLimits_of_request hreq1] at hok1
    by_cases hz : mem1 = 0 ∧ cpu1 = 0
    · rw [if_pos hz] at hok1
      simp only [Except.ok.injEq, Prod.mk.injEq] at hok1
      have hmin : ∀ c ∈ fargateCPUs, (256 : Int) ≤ c := by decide
      exact ⟨256, c2, by decide, hc2, by rw [formatInt_256, hok1.1], ha2, hmin c2 hc2⟩
    · rw [if_neg hz] at hok1
      obtain ⟨c1, m1, ha1, _, hc1, _, _, _, hminc, _⟩ := scanCPUs_ok_least hok1
      exact ⟨c1, c2, hc1, hc2, ha1, ha2,
        hminc c2 hc2 (le_trans hcpu hle2) ⟨m2, hm2, le_trans hmem hfit2⟩⟩
  · intro e herr
    rw [toLimits_of_request hreq1] at herr
    by_cases hz : mem1 = 0 ∧ cpu1 = 0
    · rw [if_pos hz] at herr
      cases herr
    · rw [if_neg hz] at herr
      obtain ⟨he, hno⟩ := (scanCPUs_error_iff mem1 cpu1 fargateCPUs e).mp herr
      have hbig := (no_tier_iff mem1 cpu1).mp hno
      have hbig2 : 4096 < cpu2 ∨ 30720 * miB < mem2 := by
        rcases hbig with h | h
        · exact Or.inl (lt_of_lt_of_le h hcpu)
        · exact Or.inr (lt_of_lt_of_le h hmem)
      have hz2 : ¬ (mem2 = 0 ∧ cpu2 = 0) := by
        rintro ⟨rfl, rfl⟩
        simp only [miB] at hbig2
        omega
      rw [toLimits_of_request hreq2, if_neg hz2]
      exact (scanCPUs_error_iff mem2 cpu2 fargateCPUs e).mpr
        ⟨he, (no_tier_iff mem2 cpu2).mpr hbig2⟩

theorem toLimits_monotone_witness :
    toLimits goLib (sizedService "0.25" (512 * miB)) = .ok ("256", "512") ∧
      toLimits goLib (sizedService "0.5" (4096 * miB)) = .ok ("512", "4096") ∧
      (∃ c1 c2, c1 ∈ fargateCPUs ∧ c2 ∈ fargateCPUs ∧ "256" = formatInt c1 ∧
        "512" = formatInt c2 ∧ c1 ≤ c2) ∧
      toLimits goLib (sizedService "8" 0) = .error errUnsupportedResources ∧
      toLimits goLib (sizedService "9" (512 * miB)) = .error errUnsupportedResources :=
  ⟨rfl, rfl,
    (toLimits_monotone goLib (sizedService "0.25" (512 * miB))
      (sizedService "0.5" (4096 * miB)) (512 * miB) 250 (4096 * miB) 500 rfl rfl
      (by decide) (by decide)).1 "256" "512" "512" "4096" rfl rfl,
    rfl,
    (toLimits_monotone goLib (sizedService "8" 0) (sizedService "9" (512 * miB)) 0 8000
      (512 * miB) 9000 rfl rfl (by decide) (by decide)).2.2 errUnsupportedResources rfl⟩

end ComposeEcs
